import Mathlib

/-!
# Koolo: Blizzard sorceress combat controller

A shallow embedding of `internal/character/blizzard_sorceress.go` and
`internal/action/action.go`.

Closures that capture mutable variables are embedded as explicit state records
threaded through a generator function.  Services that the controller consumes
from other packages (snapshot accessors, pathing, pre-battle validation) are
collected in the record `Env` and every definition is parametric in it.
-/

/-! ## Identifiers of the game-data library -/

namespace skill

/-- Modelled from the spec: the ability identifiers of the game-data library
(`skill.ID`), which is not part of the repository.  Each named constant used by
the controller is its own constructor; `other` covers the rest of the catalog. -/
inductive ID where
  | IDNone
  | Blizzard
  | Teleport
  | TomeOfTownPortal
  | ShiverArmor
  | StaticField
  | FrozenArmor
  | ChillingArmor
  | EnergyShield
  | other (n : Nat)
  deriving DecidableEq, Repr

end skill

namespace npc

/-- Modelled from the spec: the entity names of the game-data library (`npc.ID`),
which is not part of the repository. -/
inductive ID where
  | Diablo
  | Izual
  | BaalCrab
  | CouncilMember
  | CouncilMember2
  | CouncilMember3
  | other (n : Nat)
  deriving DecidableEq, Repr

end npc

namespace stat

/-- Modelled from the spec: statistic identifiers (`stat.ID`); only `Life` is read. -/
inductive ID where
  | Life
  | other (n : Nat)
  deriving DecidableEq, Repr

/-- Modelled from the spec: resistances / immunities (`stat.Resist`). -/
inductive Resist where
  | ColdImmune
  | other (n : Nat)
  deriving DecidableEq, Repr

end stat

namespace state

/-- Modelled from the spec: player status flags (`state.State`); only `Cooldown` is read. -/
inductive State where
  | Cooldown
  | other (n : Nat)
  deriving DecidableEq, Repr

end state

/-! ## Time -/

namespace time

/-- Go `time.Duration`: a signed 64-bit count of nanoseconds. -/
abbrev Duration := Int

/-- Go `time.Time`, as nanoseconds since the zero instant `time.Time{}`. -/
abbrev Time := Int

def Millisecond : Duration := 1000000

def Second : Duration := 1000 * Millisecond

def maxDuration : Duration := 2 ^ 63 - 1

def minDuration : Duration := -(2 ^ 63)

/-- Go `Time.Sub`: the difference, saturated to the range of `Duration`. -/
def Sub (t u : Time) : Duration :=
  if t - u > maxDuration then maxDuration
  else if t - u < minDuration then minDuration
  else t - u

/-- Go `time.Since(t)`, with the clock reading `now` made explicit. -/
def Since (now t : Time) : Duration := Sub now t

end time

/-! ## World snapshot -/

namespace data

abbrev UnitID := Int

/-- Modelled from the spec: monster classification (`data.MonsterType`). -/
inductive MonsterType where
  | MonsterTypeNone
  | MonsterTypeSuperUnique
  | other (n : Nat)
  deriving DecidableEq, Repr

structure Position where
  X : Int
  Y : Int
  deriving DecidableEq, Repr

/-- Modelled from the spec: a hostile unit with identity, name, classification,
statistics and position.  `Stats` is the Go map, read with zero default. -/
structure Monster where
  UnitID : UnitID
  Name : npc.ID
  Type_ : MonsterType
  Position : Position
  Stats : stat.ID → Int

end data

namespace game

/-- Modelled from the spec: the world snapshot (`game.Data`): the input-binding
table, the player's status flags and the monsters. -/
structure Data where
  KeyBindings : List (skill.ID × Nat)
  PlayerStates : List state.State
  Monsters : List data.Monster

end game

namespace step

/-- Modelled from the spec: an attack option of the step layer.  `Distance` is the
range option built by `step.Distance(min, max)`; `other` stands for the rest. -/
inductive AttackOption where
  | Distance (minimum maximum : Int)
  | other (n : Nat)
  deriving DecidableEq, Repr

/-- Modelled from the spec: the step primitives of the step execution layer,
recorded with the arguments they were built from: `step.PrimaryAttack(target,
numOfAttacks, standStill, opts...)`, `step.SecondaryAttack(skill, target,
numOfAttacks, opts...)` and `step.Wait(duration)`. -/
inductive Step where
  | PrimaryAttack (target : data.UnitID) (numOfAttacks : Int) (standStill : Bool)
      (opts : List AttackOption)
  | SecondaryAttack (sk : skill.ID) (target : data.UnitID) (numOfAttacks : Int)
      (opts : List AttackOption)
  | Wait (duration : time.Duration)
  deriving DecidableEq, Repr

/-- The attack options a step carries (none for a wait). -/
def Step.opts : Step → List AttackOption
  | .PrimaryAttack _ _ _ o => o
  | .SecondaryAttack _ _ _ o => o
  | .Wait _ => []

end step

namespace action

/-- Modelled from the spec: an Action, recorded by how it was constructed.
`NewStepChain builder repeatUntilNoSteps` is `action.NewStepChain(builder, ...)`
for a builder closure without mutable captured variables, the flag telling
whether `action.RepeatUntilNoSteps()` was passed.  `KillMonsterSequence` is the
repeating step chain returned by `BlizzardSorceress.KillMonsterSequence` for the
given selector, immunity list and range options, its captured variables fresh. -/
inductive Action where
  | NewStepChain (builder : game.Data → List step.Step) (repeatUntilNoSteps : Bool)
  | KillMonsterSequence (monsterSelector : game.Data → data.UnitID × Bool)
      (skipOnImmunities : List stat.Resist) (opts : List step.AttackOption)

end action

/-- The services consumed from outside the repository.  Each field is the
function of the same name in the game-data library, the pather or the base
character; the controller treats them as black boxes. -/
structure Env where
  /-- Method `d.KeyBindings.KeyBindingForSkill(id)`: the key and whether one is bound. -/
  KeyBindingForSkill : List (skill.ID × Nat) → skill.ID → Nat × Bool
  /-- Method `d.PlayerUnit.States.HasState(s)`. -/
  HasState : List state.State → state.State → Bool
  /-- Method `d.Monsters.Enemies()`: the live hostile units, in enumeration order. -/
  Enemies : List data.Monster → List data.Monster
  /-- Method `d.Monsters.FindOne(id, type)`: the unit and whether one was found. -/
  FindOne : List data.Monster → npc.ID → data.MonsterType → data.Monster × Bool
  /-- Method `m.IsImmune(resist)`. -/
  IsImmune : data.Monster → stat.Resist → Bool
  /-- Function `pather.DistanceFromMe(d, position)`. -/
  DistanceFromMe : game.Data → data.Position → Int
  /-- Method `BaseCharacter.preBattleChecks(d, id, skipOnImmunities)`. -/
  preBattleChecks : game.Data → data.UnitID → List stat.Resist → Bool

/-! ## Key-binding audit -/

namespace BlizzardSorceress

/-- Whether `KeyBindingForSkill` reports a binding for the skill. -/
def bound (g : Env) (d : game.Data) (s : skill.ID) : Bool :=
  (g.KeyBindingForSkill d.KeyBindings s).2

def hasAnyArmorKeyBinding (g : Env) (d : game.Data) : Bool :=
  let armors := [skill.ID.FrozenArmor, skill.ID.ChillingArmor, skill.ID.ShiverArmor]
  armors.any (fun armor => bound g d armor)

def requiredKeybindings : List skill.ID :=
  [skill.ID.Blizzard, skill.ID.Teleport, skill.ID.TomeOfTownPortal,
   skill.ID.ShiverArmor, skill.ID.StaticField]

def CheckKeyBindings (g : Env) (d : game.Data) : List skill.ID :=
  requiredKeybindings.foldl
    (fun missingKeybindings cskill =>
      if !bound g d cskill then
        if cskill == skill.ID.ShiverArmor then
          if !hasAnyArmorKeyBinding g d then
            missingKeybindings ++ [skill.ID.ShiverArmor]
          else missingKeybindings
        else missingKeybindings ++ [cskill]
      else missingKeybindings)
    []

/-- The predicate by which `CheckKeyBindings` decides that a required entry is missing. -/
def isMissing (g : Env) (d : game.Data) (s : skill.ID) : Bool :=
  if s = skill.ID.ShiverArmor then
    !bound g d skill.ID.FrozenArmor && !bound g d skill.ID.ChillingArmor
      && !bound g d skill.ID.ShiverArmor
  else !bound g d s

def findActiveArmorSkill (g : Env) (d : game.Data) : skill.ID :=
  let armors := [skill.ID.ChillingArmor, skill.ID.ShiverArmor, skill.ID.FrozenArmor]
  match armors.find? (fun armor => bound g d armor) with
  | some armor => armor
  | none => skill.ID.IDNone

def BuffSkills (g : Env) (d : game.Data) : List skill.ID :=
  let skillsList : List skill.ID :=
    if bound g d skill.ID.EnergyShield then [skill.ID.EnergyShield] else []
  let armor := findActiveArmorSkill g d
  if armor != skill.ID.IDNone then skillsList ++ [armor] else skillsList

/-- The three armor skills of the family. -/
def isArmor (s : skill.ID) : Bool :=
  s == skill.ID.ChillingArmor || s == skill.ID.ShiverArmor || s == skill.ID.FrozenArmor

end BlizzardSorceress

/-! ## The kill-sequence generator -/

namespace BlizzardSorceress

def sorceressMaxAttacksLoop : Int := 40

def sorceressMinDistance : Int := 25

def sorceressMaxDistance : Int := 30

def blizzardCooldown : time.Duration := time.Second * 4

namespace KillMonsterSequence

/-- The variables captured by the generator closure of `KillMonsterSequence`:
the three locals declared before the closure and the variadic parameter `opts`,
which the closure reassigns. -/
structure State where
  completedAttackLoops : Int
  previousUnitID : Int
  previousSelfBlizzard : time.Time
  opts : List step.AttackOption
  deriving DecidableEq, Repr

/-- The captured variables when the action is constructed. -/
def init (opts : List step.AttackOption) : State :=
  { completedAttackLoops := 0, previousUnitID := 0, previousSelfBlizzard := 0, opts := opts }

/-- What one invocation of the generator reads: the snapshot, the clock reading
taken by `time.Since` and the clock reading taken by `time.Now`. -/
structure Tick where
  d : game.Data
  sinceNow : time.Time
  now : time.Time

/-- Lines 77-79: the counter after comparing the selected target with the previous one. -/
def afterSwitch (st : State) (id : data.UnitID) : State :=
  if st.previousUnitID != id then { st with completedAttackLoops := 0 } else st

/-- Lines 85-87: the default range is appended when no option is present. -/
def afterDefault (st : State) : State :=
  if st.opts.length == 0 then
    { st with opts := st.opts ++ [step.AttackOption.Distance sorceressMinDistance sorceressMaxDistance] }
  else st

/-- Lines 94-102: the unit the area-clear cast goes to, if the cast fires. -/
def nearby (g : Env) (st : State) (t : Tick) : Option data.Monster :=
  if decide (time.Since t.sinceNow st.previousSelfBlizzard > blizzardCooldown)
      && !g.HasState t.d.PlayerStates state.State.Cooldown then
    (g.Enemies t.d.Monsters).find? (fun m => decide (g.DistanceFromMe t.d m.Position < 4))
  else none

/-- Lines 105-110: the range is replaced once the counter exceeds 12. -/
def afterReduce (st : State) : State :=
  if st.completedAttackLoops > 12 then
    { st with opts := [step.AttackOption.Distance 1 5] }
  else st

/-- Lines 112-113. -/
def afterAttack (st : State) (id : data.UnitID) : State :=
  { st with completedAttackLoops := st.completedAttackLoops + 1, previousUnitID := id }

/-- The closure passed to `action.NewStepChain` in `KillMonsterSequence` (lines 72-120):
one invocation, returning the updated captured variables and the yielded steps. -/
def generate (g : Env) (monsterSelector : game.Data → data.UnitID × Bool)
    (skipOnImmunities : List stat.Resist) (st : State) (t : Tick) : State × List step.Step :=
  let id := (monsterSelector t.d).1
  let found := (monsterSelector t.d).2
  if !found then (st, [])
  else
    let st := afterSwitch st id
    if !g.preBattleChecks t.d id skipOnImmunities then (st, [])
    else
      let st := afterDefault st
      if st.completedAttackLoops >= sorceressMaxAttacksLoop then (st, [])
      else
        match nearby g st t with
        | some m =>
          ({ st with previousSelfBlizzard := t.now },
            [step.Step.SecondaryAttack skill.ID.Blizzard m.UnitID 1 st.opts])
        | none =>
          let st := afterReduce st
          let st := afterAttack st id
          if g.HasState t.d.PlayerStates state.State.Cooldown then
            (st, [step.Step.PrimaryAttack id 2 true st.opts])
          else
            (st, [step.Step.SecondaryAttack skill.ID.Blizzard id 1 st.opts])

/-- The captured variables after the generator has been invoked on each tick in turn. -/
def runState (g : Env) (sel : game.Data → data.UnitID × Bool) (skip : List stat.Resist)
    (st : State) : List Tick → State
  | [] => st
  | t :: ts => runState g sel skip (generate g sel skip st t).1 ts

/-- What the generator yields at each of its successive invocations. -/
def outputs (g : Env) (sel : game.Data → data.UnitID × Bool) (skip : List stat.Resist)
    (st : State) : List Tick → List (List step.Step)
  | [] => []
  | t :: ts => (generate g sel skip st t).2 :: outputs g sel skip (generate g sel skip st t).1 ts

end KillMonsterSequence

end BlizzardSorceress

/-! ## Boss and group encounters -/

namespace BlizzardSorceress

/-- The private `killMonster`: a kill sequence on the unit found by name and type,
with no immunity list and no range option. -/
def killMonster (g : Env) (n : npc.ID) (t : data.MonsterType) : action.Action :=
  action.Action.KillMonsterSequence
    (fun d =>
      let m := (g.FindOne d.Monsters n t).1
      let found := (g.FindOne d.Monsters n t).2
      if !found then (0, false) else (m.UnitID, true))
    [] []

/-- What an action yields when its generator is invoked for the first time: the
steps of the builder for a plain step chain, and for a kill sequence the steps of
`KillMonsterSequence.generate` from the freshly initialised captured variables. -/
def firstSteps (g : Env) (a : action.Action) (t : KillMonsterSequence.Tick) : List step.Step :=
  match a with
  | action.Action.NewStepChain builder _ => builder t.d
  | action.Action.KillMonsterSequence sel skip opts =>
    (KillMonsterSequence.generate g sel skip (KillMonsterSequence.init opts) t).2

namespace KillCouncil

/-- The name test of line 253. -/
def isCouncilMember (m : data.Monster) : Bool :=
  m.Name == npc.ID.CouncilMember || m.Name == npc.ID.CouncilMember2
    || m.Name == npc.ID.CouncilMember3

/-- Lines 250-260: the loop over the enemies, filling the two slices
`councilMembers` and `coldImmunes`. -/
def buckets (g : Env) (d : game.Data) : List data.Monster × List data.Monster :=
  (g.Enemies d.Monsters).foldl
    (fun acc m =>
      if isCouncilMember m then
        if g.IsImmune m stat.Resist.ColdImmune then (acc.1, acc.2 ++ [m])
        else (acc.1 ++ [m], acc.2)
      else acc)
    ([], [])

/-- The target selector passed to `KillMonsterSequence` by `KillCouncil` (lines 249-269). -/
def monsterSelector (g : Env) (d : game.Data) : data.UnitID × Bool :=
  let councilMembers := (buckets g d).1 ++ (buckets g d).2
  match councilMembers with
  | m :: _ => (m.UnitID, true)
  | [] => (0, false)

end KillCouncil

def KillCouncil (g : Env) : action.Action :=
  action.Action.KillMonsterSequence (KillCouncil.monsterSelector g) []
    [step.AttackOption.Distance 8 sorceressMaxDistance]

namespace KillDiablo

/-- The variables captured by the generator closure of `KillDiablo`. -/
structure State where
  startTime : time.Time
  diabloFound : Bool
  deriving DecidableEq, Repr

def timeout : time.Duration := time.Second * 20

/-- The captured variables when the action is constructed at clock reading `now`. -/
def init (now : time.Time) : State :=
  { startTime := now, diabloFound := false }

/-- The step chain that waits 100 ms (lines 204-206). -/
def waitChain : action.Action :=
  action.Action.NewStepChain (fun _ => [step.Step.Wait (time.Millisecond * 100)]) false

/-- The step chain that casts StaticField on the unit (lines 213-217). -/
def staticFieldChain (id : data.UnitID) : action.Action :=
  action.Action.NewStepChain
    (fun _ =>
      [step.Step.SecondaryAttack skill.ID.StaticField id 5 [step.AttackOption.Distance 3 8]])
    false

/-- The closure passed to `action.NewChain` in `KillDiablo` (lines 192-220): one
invocation on snapshot `d` at clock reading `now`. -/
def generate (g : Env) (st : State) (d : game.Data) (now : time.Time) :
    State × List action.Action :=
  if decide (time.Since now st.startTime > timeout) && !st.diabloFound then (st, [])
  else
    let diablo := (g.FindOne d.Monsters npc.ID.Diablo data.MonsterType.MonsterTypeNone).1
    let found := (g.FindOne d.Monsters npc.ID.Diablo data.MonsterType.MonsterTypeNone).2
    if !found || decide (diablo.Stats stat.ID.Life ≤ 0) then
      if st.diabloFound then (st, [])
      else (st, [waitChain])
    else
      ({ st with diabloFound := true },
        [staticFieldChain diablo.UnitID,
         killMonster g npc.ID.Diablo data.MonsterType.MonsterTypeNone])

/-- What the generator yields at each of its successive invocations. -/
def outputs (g : Env) (st : State) : List (game.Data × time.Time) → List (List action.Action)
  | [] => []
  | x :: xs => (generate g st x.1 x.2).2 :: outputs g (generate g st x.1 x.2).1 xs

/-- The captured variables after the generator has been invoked on each snapshot
and clock reading in turn. -/
def runState (g : Env) (st : State) : List (game.Data × time.Time) → State
  | [] => st
  | x :: xs => runState g (generate g st x.1 x.2).1 xs

end KillDiablo

namespace KillRepeatedly

/-- The step chain that casts StaticField on the unit found by name (lines 234-239);
the second parameter of `KillRepeatedly` is passed as the number of attacks. -/
def staticFieldChain (g : Env) (npcID : npc.ID) (staticFieldDistance : Int) : action.Action :=
  action.Action.NewStepChain
    (fun d =>
      let m := (g.FindOne d.Monsters npcID data.MonsterType.MonsterTypeNone).1
      [step.Step.SecondaryAttack skill.ID.StaticField m.UnitID staticFieldDistance
        [step.AttackOption.Distance 5 8]])
    false

/-- The closure passed to `action.NewChain` in `KillRepeatedly` (lines 232-245). -/
def generate (g : Env) (npcID : npc.ID) (staticFieldDistance : Int) (_d : game.Data) :
    List action.Action :=
  [staticFieldChain g npcID staticFieldDistance,
   killMonster g npcID data.MonsterType.MonsterTypeNone,
   killMonster g npcID data.MonsterType.MonsterTypeNone,
   killMonster g npcID data.MonsterType.MonsterTypeNone,
   killMonster g npcID data.MonsterType.MonsterTypeNone]

end KillRepeatedly

/-- The generator of `KillIzual`, which is `KillRepeatedly(npc.Izual, 7)`. -/
def KillIzual (g : Env) (d : game.Data) : List action.Action :=
  KillRepeatedly.generate g npc.ID.Izual 7 d

/-- The generator of `KillBaal`, which is `KillRepeatedly(npc.BaalCrab, 5)`. -/
def KillBaal (g : Env) (d : game.Data) : List action.Action :=
  KillRepeatedly.generate g npc.ID.BaalCrab 5 d

end BlizzardSorceress

/-! ## The timed operation runner (`internal/action/action.go`) -/

/-- Rounding of a rational to the nearest integer, ties to the even one. -/
def roundHalfEven (q : ℚ) : ℤ :=
  if q - ⌊q⌋ < 1 / 2 then ⌊q⌋
  else if 1 / 2 < q - ⌊q⌋ then ⌊q⌋ + 1
  else if ⌊q⌋ % 2 = 0 then ⌊q⌋ else ⌊q⌋ + 1

/-- Go `float32` arithmetic: the result of an operation is the binary32 value
nearest to the exact result `q`, ties to even: `q` is rounded to a multiple of
`2 ^ (e - 23)`, where `2 ^ e ≤ |q| < 2 ^ (e + 1)` (24 significant bits).  Exponent
limits are left out: the non-zero values met by `delay` lie between `2 ^ (-7)` and
`2 ^ 44`, far from underflow and overflow. -/
def float32 (q : ℚ) : ℚ :=
  if q = 0 then 0
  else roundHalfEven (q / (2 : ℚ) ^ (Int.log 2 |q| - 23)) * (2 : ℚ) ^ (Int.log 2 |q| - 23)

/-- Go `int64(f)` for a `float32` value within the range of `int64`: the fraction
is discarded (truncation toward zero). -/
def int64OfFloat (q : ℚ) : Int := if 0 ≤ q then ⌊q⌋ else ⌈q⌉

/-- The value of an `int64` expression whose exact result is `x`: wrap-around
modulo `2 ^ 64`. -/
def wrapInt64 (x : Int) : Int := (x + 2 ^ 63) % 2 ^ 64 - 2 ^ 63

namespace time

/-- Go `Duration.Milliseconds`: integer division of the nanosecond count by `10 ^ 6`,
truncated toward zero. -/
def Milliseconds (d : Duration) : Int := Int.tdiv d 1000000

end time

namespace action

namespace delayedOperation

/-- The local `randomPct` of `delay`, for the value `r` returned by `rand.Intn(30)`:
`((float32(r) + 1) / 100) + 1`, every operation in `float32`. -/
def randomPct (r : Nat) : ℚ :=
  float32 (float32 (float32 (float32 (r : ℚ) + 1) / 100) + 1)

/-- Method `delayedOperation.delay` (lines 26-32) for the field `delayAfterOperation`
and the value `r` returned by `rand.Intn(30)` in this call. -/
def delay (delayAfterOperation : time.Duration) (r : Nat) : time.Duration :=
  let delayedMs : Int :=
    int64OfFloat (float32 (float32 ((time.Milliseconds delayAfterOperation : Int) : ℚ)
      * randomPct r))
  wrapInt64 (delayedMs * time.Millisecond)

end delayedOperation

/-- Modelled from the spec: a command to the input-injection device (package `hid`,
not among the sources); `MovePointer` is the pointer motion issued by
`MouseDisplacement.execute`. -/
inductive DeviceCall where
  | MovePointer (x y : Int)
  | other (n : Nat)
  deriving DecidableEq, Repr

/-- The interface `HIDOperation`: what `execute` does, and the delay returned by
`delay` as a function of the random value drawn during the call. -/
structure HIDOperation where
  execute : DeviceCall
  delay : Nat → time.Duration

/-- Constructor `NewMouseDisplacement(x, y, delay)`: `execute` moves the pointer, and
`delay` is the promoted `delayedOperation.delay`. -/
def NewMouseDisplacement (x y : Int) (delay : time.Duration) : HIDOperation :=
  { execute := DeviceCall.MovePointer x y,
    delay := delayedOperation.delay delay }

/-- The effects of `Run` seen from outside: a call of `execute` and a call of
`time.Sleep`. -/
inductive Event where
  | executed (call : DeviceCall)
  | slept (d : time.Duration)
  deriving DecidableEq, Repr

/-- Function `Run` (lines 9-14): the loop over the sequence, accumulating the trace of
effects; `draw k` is the random value obtained by the `k`-th call of `delay`. -/
def Run (sequence : List HIDOperation) (draw : Nat → Nat) : List Event :=
  (sequence.foldl
    (fun (acc : List Event × Nat) op =>
      (acc.1 ++ [Event.executed op.execute] ++ [Event.slept (op.delay (draw acc.2))],
       acc.2 + 1))
    ([], 0)).1

/-- The trace the runner contract describes: for each operation in order, its
effect and then the blocking delay derived from that same operation; `k` counts
the delays taken so far. -/
def contractTrace (draw : Nat → Nat) : List HIDOperation → Nat → List Event
  | [], _ => []
  | op :: rest, k =>
    Event.executed op.execute :: Event.slept (op.delay (draw k))
      :: contractTrace draw rest (k + 1)

end action

/-! ## A reference environment for concrete evaluation -/

/-- A straightforward implementation of the external services over the snapshot
model: table lookup, flag membership, every monster with positive life is an
enemy, search by name and type, immunity as a resistance statistic of at least
100, and Chebyshev distance from the origin. -/
def refEnv : Env where
  KeyBindingForSkill := fun kb s =>
    match kb.find? (fun b => b.1 == s) with
    | some b => (b.2, true)
    | none => (0, false)
  HasState := fun sts s => sts.contains s
  Enemies := fun ms => ms.filter (fun m => decide (0 < m.Stats stat.ID.Life))
  FindOne := fun ms n t =>
    match ms.find? (fun m => m.Name == n && m.Type_ == t) with
    | some m => (m, true)
    | none => (⟨0, npc.ID.other 0, data.MonsterType.MonsterTypeNone, ⟨0, 0⟩, fun _ => 0⟩, false)
  IsImmune := fun m r =>
    match r with
    | stat.Resist.ColdImmune => decide (100 ≤ m.Stats (stat.ID.other 43))
    | stat.Resist.other n => decide (100 ≤ m.Stats (stat.ID.other n))
  DistanceFromMe := fun _ p => max p.X.natAbs p.Y.natAbs
  preBattleChecks := fun d id _ => d.Monsters.any (fun m => m.UnitID == id)

/-- A monster for concrete evaluation: identity, name, horizontal position, life
and cold resistance. -/
def sampleMonster (id : Int) (name : npc.ID) (x : Int) (life cold : Int) : data.Monster :=
  { UnitID := id, Name := name, Type_ := data.MonsterType.MonsterTypeNone,
    Position := ⟨x, 0⟩,
    Stats := fun s =>
      match s with
      | stat.ID.Life => life
      | stat.ID.other 43 => cold
      | stat.ID.other _ => 0 }

/-- A target selector for concrete evaluation: the first monster of the snapshot. -/
def firstMonster (d : game.Data) : data.UnitID × Bool :=
  match d.Monsters with
  | m :: _ => (m.UnitID, true)
  | [] => (0, false)

/-- A tick for concrete evaluation: the monsters, whether the player has the
Cooldown state, and the clock in seconds after the instant 63808000000 s (a day
in the year 2023 counted from the zero instant). -/
def sampleTick (ms : List data.Monster) (cooldown : Bool) (seconds : Int) :
    BlizzardSorceress.KillMonsterSequence.Tick :=
  { d := ⟨[], if cooldown then [state.State.Cooldown] else [], ms⟩,
    sinceNow := (63808000000 + seconds) * 1000000000,
    now := (63808000000 + seconds) * 1000000000 }

/-- Forty-one ticks, five seconds apart, on each of which the selected unit 7 is
alive at distance 2 from the player, who has no Cooldown state. -/
def closeTicks : List BlizzardSorceress.KillMonsterSequence.Tick :=
  (List.range 41).map
    (fun k => sampleTick [sampleMonster 7 (npc.ID.other 0) 2 100 0] false (100 + 5 * k))

/-- The first `n` of a series of ticks, one second apart, on each of which the
only monster is unit 7, alive at distance 20; the player has no Cooldown state. -/
def farTicks (n : Nat) : List BlizzardSorceress.KillMonsterSequence.Tick :=
  (List.range n).map
    (fun k => sampleTick [sampleMonster 7 (npc.ID.other 0) 20 100 0] false (100 + k))

/-- A snapshot for concrete evaluation with five live council members: units 1, 2
and 4 cold-immune, units 3 and 5 vulnerable. -/
def councilData : game.Data :=
  { KeyBindings := [], PlayerStates := [],
    Monsters :=
      [sampleMonster 1 npc.ID.CouncilMember 10 100 100,
       sampleMonster 2 npc.ID.CouncilMember2 11 100 120,
       sampleMonster 3 npc.ID.CouncilMember3 12 100 50,
       sampleMonster 4 npc.ID.CouncilMember 13 100 100,
       sampleMonster 5 npc.ID.CouncilMember2 14 100 0] }

/-- A snapshot for concrete evaluation in which Diablo is unit 66 with the given life. -/
def diabloData (life : Int) : game.Data :=
  { KeyBindings := [], PlayerStates := [],
    Monsters := [sampleMonster 66 npc.ID.Diablo 10 life 0] }

/-- A run of `n` ticks, five seconds apart from second `s` on, on each of which the
selected unit 7 is alive at distance 2 from the player, who has no Cooldown state. -/
def closeRun : Nat → Int → List BlizzardSorceress.KillMonsterSequence.Tick
  | 0, _ => []
  | n + 1, s =>
    sampleTick [sampleMonster 7 (npc.ID.other 0) 2 100 0] false s :: closeRun n (s + 5)

/-! ## Classification of one generator invocation -/

namespace BlizzardSorceress

namespace KillMonsterSequence

/-- The five ways through the generator body: the four returns that precede
normal engagement, and normal engagement itself. -/
inductive Path where
  | noTarget
  | validationFailed
  | capReached
  | areaClear (target : data.UnitID)
  | engage
  deriving DecidableEq, Repr

/-- The way one invocation takes, read off the guards of `generate` in order. -/
def path (g : Env) (sel : game.Data → data.UnitID × Bool) (skip : List stat.Resist)
    (st : State) (t : Tick) : Path :=
  if (sel t.d).2 = false then Path.noTarget
  else if g.preBattleChecks t.d (sel t.d).1 skip = false then Path.validationFailed
  else if sorceressMaxAttacksLoop ≤ (afterSwitch st (sel t.d).1).completedAttackLoops then
    Path.capReached
  else
    match nearby g (afterDefault (afterSwitch st (sel t.d).1)) t with
    | some m => Path.areaClear m.UnitID
    | none => Path.engage

/-- The step normal engagement emits against `id` with range options `opts`. -/
def attackStep (g : Env) (d : game.Data) (id : data.UnitID)
    (opts : List step.AttackOption) : step.Step :=
  if g.HasState d.PlayerStates state.State.Cooldown then
    step.Step.PrimaryAttack id 2 true opts
  else step.Step.SecondaryAttack skill.ID.Blizzard id 1 opts

/-- Every tick of the list takes normal engagement against target `A`. -/
def attacksOn (g : Env) (sel : game.Data → data.UnitID × Bool) (skip : List stat.Resist)
    (A : data.UnitID) (st : State) : List Tick → Prop
  | [] => True
  | t :: ts => sel t.d = (A, true) ∧ path g sel skip st t = Path.engage
      ∧ attacksOn g sel skip A (generate g sel skip st t).1 ts

/-- The number of invocations, along a run, that emit the area-clear cast. -/
def areaClearCount (g : Env) (sel : game.Data → data.UnitID × Bool) (skip : List stat.Resist)
    (st : State) : List Tick → Nat
  | [] => 0
  | t :: ts =>
    (match path g sel skip st t with
      | Path.areaClear _ => 1
      | _ => 0) + areaClearCount g sel skip (generate g sel skip st t).1 ts

/-- The states the captured variables can be in when the generator is invoked:
those a run from the initial state leads to. -/
def Reachable (g : Env) (sel : game.Data → data.UnitID × Bool) (skip : List stat.Resist)
    (opts : List step.AttackOption) (st : State) : Prop :=
  ∃ ts : List Tick, runState g sel skip (init opts) ts = st

/-- The range options in force before any reduction: the caller's, or the default band. -/
def effectiveOpts (opts : List step.AttackOption) : List step.AttackOption :=
  if opts.length == 0 then
    [step.AttackOption.Distance sorceressMinDistance sorceressMaxDistance]
  else opts

/-- The number of invocations, along a run, that replace the range options by
Distance(1,5): those that take normal engagement with the counter above 12. -/
def reductionCount (g : Env) (sel : game.Data → data.UnitID × Bool) (skip : List stat.Resist)
    (st : State) : List Tick → Nat
  | [] => 0
  | t :: ts =>
    (if path g sel skip st t = Path.engage
        ∧ 12 < (afterSwitch st (sel t.d).1).completedAttackLoops then 1 else 0)
      + reductionCount g sel skip (generate g sel skip st t).1 ts

/-- The stored range options are still the caller's, or the default band that
replaced an empty list. -/
def Unreduced (opts : List step.AttackOption) (st : State) : Prop :=
  st.opts = opts ∨ st.opts = effectiveOpts opts

/-- The counter can only be 14 or more once the range has been reduced. -/
def ReducedFrom14 (st : State) : Prop :=
  14 ≤ st.completedAttackLoops → st.opts = [step.AttackOption.Distance 1 5]

end KillMonsterSequence

end BlizzardSorceress

/-! ## Theorems -/

/-! ### The key-binding audit -/

namespace BlizzardSorceress

/-- C1: `CheckKeyBindings` returns the required list
`[Blizzard, Teleport, TomeOfTownPortal, ShiverArmor, StaticField]` filtered, in that
order and without duplicates, to the missing entries: the four plain skills are
missing iff unbound, `ShiverArmor` iff no armor of the family is bound.  With
Blizzard and ChillingArmor bound and Teleport unbound, Teleport is reported and
no armor skill is. -/
theorem checkKeyBindings_spec (g : Env) (d : game.Data) :
    CheckKeyBindings g d = requiredKeybindings.filter (isMissing g d)
    ∧ requiredKeybindings
        = [skill.ID.Blizzard, skill.ID.Teleport, skill.ID.TomeOfTownPortal,
           skill.ID.ShiverArmor, skill.ID.StaticField]
    ∧ (CheckKeyBindings g d).Nodup
    ∧ (∀ s, s ≠ skill.ID.ShiverArmor → (isMissing g d s = true ↔ bound g d s = false))
    ∧ (isMissing g d skill.ID.ShiverArmor = true ↔
        (bound g d skill.ID.FrozenArmor = false ∧ bound g d skill.ID.ChillingArmor = false
          ∧ bound g d skill.ID.ShiverArmor = false))
    ∧ (bound g d skill.ID.Blizzard = true → bound g d skill.ID.ChillingArmor = true →
        bound g d skill.ID.Teleport = false →
        skill.ID.Teleport ∈ CheckKeyBindings g d
        ∧ skill.ID.Blizzard ∉ CheckKeyBindings g d
        ∧ skill.ID.FrozenArmor ∉ CheckKeyBindings g d
        ∧ skill.ID.ChillingArmor ∉ CheckKeyBindings g d
        ∧ skill.ID.ShiverArmor ∉ CheckKeyBindings g d) := by
  have hEq : CheckKeyBindings g d = requiredKeybindings.filter (isMissing g d) := by
    simp only [CheckKeyBindings, requiredKeybindings, isMissing, hasAnyArmorKeyBinding,
      List.foldl_cons, List.foldl_nil, List.any_cons, List.any_nil, List.filter_cons,
      List.filter_nil]
    rcases Bool.eq_false_or_eq_true (bound g d skill.ID.Blizzard) with h1 | h1 <;>
    rcases Bool.eq_false_or_eq_true (bound g d skill.ID.Teleport) with h2 | h2 <;>
    rcases Bool.eq_false_or_eq_true (bound g d skill.ID.TomeOfTownPortal) with h3 | h3 <;>
    rcases Bool.eq_false_or_eq_true (bound g d skill.ID.ShiverArmor) with h4 | h4 <;>
    rcases Bool.eq_false_or_eq_true (bound g d skill.ID.StaticField) with h5 | h5 <;>
    rcases Bool.eq_false_or_eq_true (bound g d skill.ID.FrozenArmor) with h6 | h6 <;>
    rcases Bool.eq_false_or_eq_true (bound g d skill.ID.ChillingArmor) with h7 | h7 <;>
    simp [h1, h2, h3, h4, h5, h6, h7]
  refine ⟨hEq, rfl, ?_, ?_, ?_, ?_⟩
  · rw [hEq]
    exact List.Nodup.filter _ (by decide)
  · intro s hs
    simp [isMissing, hs]
  · simp [isMissing, and_assoc]
  · intro hB hC hT
    rw [hEq]
    simp [requiredKeybindings, isMissing, List.mem_filter, hB, hC, hT]

/-- Witness for C1 in the reference environment: Blizzard and ChillingArmor bound,
Teleport unbound. -/
theorem checkKeyBindings_spec_witness :
    CheckKeyBindings refEnv ⟨[(skill.ID.Blizzard, 1), (skill.ID.ChillingArmor, 2)], [], []⟩
      = [skill.ID.Teleport, skill.ID.TomeOfTownPortal, skill.ID.StaticField]
    ∧ skill.ID.Teleport ∈
        CheckKeyBindings refEnv ⟨[(skill.ID.Blizzard, 1), (skill.ID.ChillingArmor, 2)], [], []⟩ := by
  refine ⟨by decide, ?_⟩
  exact ((checkKeyBindings_spec refEnv
    ⟨[(skill.ID.Blizzard, 1), (skill.ID.ChillingArmor, 2)], [], []⟩).2.2.2.2.2
    (by decide) (by decide) (by decide)).1

end BlizzardSorceress

/-! ### One invocation of the kill-sequence generator -/

namespace BlizzardSorceress

namespace KillMonsterSequence

@[simp] theorem afterDefault_loops (st : State) :
    (afterDefault st).completedAttackLoops = st.completedAttackLoops := by
  unfold afterDefault; split <;> rfl

@[simp] theorem afterDefault_prev (st : State) :
    (afterDefault st).previousUnitID = st.previousUnitID := by
  unfold afterDefault; split <;> rfl

@[simp] theorem afterDefault_blizzard (st : State) :
    (afterDefault st).previousSelfBlizzard = st.previousSelfBlizzard := by
  unfold afterDefault; split <;> rfl

@[simp] theorem afterSwitch_opts (st : State) (id : data.UnitID) :
    (afterSwitch st id).opts = st.opts := by
  unfold afterSwitch; split <;> rfl

@[simp] theorem afterSwitch_prev (st : State) (id : data.UnitID) :
    (afterSwitch st id).previousUnitID = st.previousUnitID := by
  unfold afterSwitch; split <;> rfl

@[simp] theorem afterSwitch_blizzard (st : State) (id : data.UnitID) :
    (afterSwitch st id).previousSelfBlizzard = st.previousSelfBlizzard := by
  unfold afterSwitch; split <;> rfl

@[simp] theorem afterReduce_loops (st : State) :
    (afterReduce st).completedAttackLoops = st.completedAttackLoops := by
  unfold afterReduce; split <;> rfl

@[simp] theorem afterReduce_prev (st : State) :
    (afterReduce st).previousUnitID = st.previousUnitID := by
  unfold afterReduce; split <;> rfl

@[simp] theorem afterReduce_blizzard (st : State) :
    (afterReduce st).previousSelfBlizzard = st.previousSelfBlizzard := by
  unfold afterReduce; split <;> rfl

@[simp] theorem afterAttack_loops (st : State) (id : data.UnitID) :
    (afterAttack st id).completedAttackLoops = st.completedAttackLoops + 1 := rfl

@[simp] theorem afterAttack_prev (st : State) (id : data.UnitID) :
    (afterAttack st id).previousUnitID = id := rfl

@[simp] theorem afterAttack_opts (st : State) (id : data.UnitID) :
    (afterAttack st id).opts = st.opts := rfl

@[simp] theorem afterAttack_blizzard (st : State) (id : data.UnitID) :
    (afterAttack st id).previousSelfBlizzard = st.previousSelfBlizzard := rfl

theorem afterSwitch_ne (st : State) (id : data.UnitID) (h : id ≠ st.previousUnitID) :
    afterSwitch st id = { st with completedAttackLoops := 0 } := by
  have : (st.previousUnitID != id) = true := by simpa [bne_iff_ne] using (Ne.symm h)
  simp [afterSwitch, this]

theorem afterSwitch_eq (st : State) (id : data.UnitID) (h : id = st.previousUnitID) :
    afterSwitch st id = st := by
  simp [afterSwitch, h]

theorem afterDefault_opts (st : State) : (afterDefault st).opts = effectiveOpts st.opts := by
  unfold afterDefault effectiveOpts
  split
  · next h =>
      have : st.opts = [] := by simpa using h
      simp [this]
  · rfl

theorem generate_noTarget (g : Env) (sel : game.Data → data.UnitID × Bool)
    (skip : List stat.Resist) (st : State) (t : Tick) (h : (sel t.d).2 = false) :
    generate g sel skip st t = (st, []) := by
  simp [generate, h]

theorem generate_validationFailed (g : Env) (sel : game.Data → data.UnitID × Bool)
    (skip : List stat.Resist) (st : State) (t : Tick) (h : (sel t.d).2 = true)
    (hv : g.preBattleChecks t.d (sel t.d).1 skip = false) :
    generate g sel skip st t = (afterSwitch st (sel t.d).1, []) := by
  simp [generate, h, hv]

theorem generate_capReached (g : Env) (sel : game.Data → data.UnitID × Bool)
    (skip : List stat.Resist) (st : State) (t : Tick) (h : (sel t.d).2 = true)
    (hv : g.preBattleChecks t.d (sel t.d).1 skip = true)
    (hc : sorceressMaxAttacksLoop ≤ (afterSwitch st (sel t.d).1).completedAttackLoops) :
    generate g sel skip st t = (afterDefault (afterSwitch st (sel t.d).1), []) := by
  simp [generate, h, hv, hc]

theorem generate_areaClear (g : Env) (sel : game.Data → data.UnitID × Bool)
    (skip : List stat.Resist) (st : State) (t : Tick) (m : data.Monster)
    (h : (sel t.d).2 = true)
    (hv : g.preBattleChecks t.d (sel t.d).1 skip = true)
    (hc : (afterSwitch st (sel t.d).1).completedAttackLoops < sorceressMaxAttacksLoop)
    (hn : nearby g (afterDefault (afterSwitch st (sel t.d).1)) t = some m) :
    generate g sel skip st t
      = ({ afterDefault (afterSwitch st (sel t.d).1) with previousSelfBlizzard := t.now },
         [step.Step.SecondaryAttack skill.ID.Blizzard m.UnitID 1
            (afterDefault (afterSwitch st (sel t.d).1)).opts]) := by
  have hc2 : ¬ sorceressMaxAttacksLoop ≤ (afterSwitch st (sel t.d).1).completedAttackLoops :=
    not_le.mpr hc
  simp [generate, h, hv, hc2, hn]

theorem generate_engage (g : Env) (sel : game.Data → data.UnitID × Bool)
    (skip : List stat.Resist) (st : State) (t : Tick)
    (h : (sel t.d).2 = true)
    (hv : g.preBattleChecks t.d (sel t.d).1 skip = true)
    (hc : (afterSwitch st (sel t.d).1).completedAttackLoops < sorceressMaxAttacksLoop)
    (hn : nearby g (afterDefault (afterSwitch st (sel t.d).1)) t = none) :
    generate g sel skip st t
      = (afterAttack (afterReduce (afterDefault (afterSwitch st (sel t.d).1))) (sel t.d).1,
         [attackStep g t.d (sel t.d).1
            (afterReduce (afterDefault (afterSwitch st (sel t.d).1))).opts]) := by
  have hc2 : ¬ sorceressMaxAttacksLoop ≤ (afterSwitch st (sel t.d).1).completedAttackLoops :=
    not_le.mpr hc
  simp only [generate, h, hv, hc2, hn, afterDefault_loops, attackStep, afterAttack]
  by_cases hcd : g.HasState t.d.PlayerStates state.State.Cooldown = true <;> simp [hcd]

end KillMonsterSequence

end BlizzardSorceress

/-! ### Elapsed time -/

namespace time

theorem Since_gt_iff (now t c : Int) (hlo : -9223372036854775808 ≤ c)
    (hhi : c < 9223372036854775807) : Since now t > c ↔ now - t > c := by
  have hmax : maxDuration = 9223372036854775807 := by norm_num [maxDuration]
  have hmin : minDuration = -9223372036854775808 := by norm_num [minDuration]
  unfold Since Sub
  rw [hmax, hmin]
  split_ifs with h1 h2 <;> constructor <;> intro h <;> linarith

end time

namespace BlizzardSorceress

theorem blizzardCooldown_eq : blizzardCooldown = 4000000000 := by
  norm_num [blizzardCooldown, time.Second, time.Millisecond]

namespace KillMonsterSequence

theorem nearby_eq_some_of (g : Env) (st : State) (t : Tick) (m : data.Monster)
    (pre post : List data.Monster)
    (hel : t.sinceNow - st.previousSelfBlizzard > 4000000000)
    (hcd : g.HasState t.d.PlayerStates state.State.Cooldown = false)
    (hsplit : g.Enemies t.d.Monsters = pre ++ m :: post)
    (hpre : ∀ x ∈ pre, 4 ≤ g.DistanceFromMe t.d x.Position)
    (hm : g.DistanceFromMe t.d m.Position < 4) :
    nearby g st t = some m := by
  have h1 : time.Since t.sinceNow st.previousSelfBlizzard > blizzardCooldown := by
    rw [blizzardCooldown_eq]
    exact (time.Since_gt_iff _ _ _ (by norm_num) (by norm_num)).mpr hel
  simp only [nearby, h1, hcd, decide_True, Bool.not_false, Bool.and_self, if_true, hsplit]
  rw [List.find?_append]
  have hnone : pre.find? (fun m => decide (g.DistanceFromMe t.d m.Position < 4)) = none := by
    rw [List.find?_eq_none]
    intro x hx
    simpa using hpre x hx
  simp [hnone, hm]

theorem nearby_eq_none_of (g : Env) (st : State) (t : Tick)
    (h : t.sinceNow - st.previousSelfBlizzard ≤ 4000000000
      ∨ g.HasState t.d.PlayerStates state.State.Cooldown = true
      ∨ ∀ x ∈ g.Enemies t.d.Monsters, 4 ≤ g.DistanceFromMe t.d x.Position) :
    nearby g st t = none := by
  unfold nearby
  split
  · next hc =>
      simp only [Bool.and_eq_true, decide_eq_true_eq, Bool.not_eq_true'] at hc
      rcases h with h | h | h
      · exfalso
        have := (time.Since_gt_iff t.sinceNow st.previousSelfBlizzard 4000000000
          (by norm_num) (by norm_num)).mp (by rw [← blizzardCooldown_eq]; exact hc.1)
        linarith
      · rw [h] at hc; exact absurd hc.2 (by simp)
      · rw [List.find?_eq_none]
        intro x hx
        simpa using h x hx
  · rfl

theorem path_engage_iff (g : Env) (sel : game.Data → data.UnitID × Bool)
    (skip : List stat.Resist) (st : State) (t : Tick) :
    path g sel skip st t = Path.engage ↔
      ((sel t.d).2 = true ∧ g.preBattleChecks t.d (sel t.d).1 skip = true
        ∧ (afterSwitch st (sel t.d).1).completedAttackLoops < sorceressMaxAttacksLoop
        ∧ nearby g (afterDefault (afterSwitch st (sel t.d).1)) t = none) := by
  unfold path
  by_cases h1 : (sel t.d).2 = false
  · simp [h1]
  · by_cases h2 : g.preBattleChecks t.d (sel t.d).1 skip = false
    · simp [h1, h2]
    · by_cases h3 : sorceressMaxAttacksLoop ≤ (afterSwitch st (sel t.d).1).completedAttackLoops
      · simp only [h1, h2, h3, if_true, if_false]
        constructor
        · intro h; cases h
        · intro h; exact absurd h3 (not_le.mpr h.2.2.1)
      · simp only [h1, h2, h3, if_false]
        have h1b : (sel t.d).2 = true := by simpa using h1
        have h2b : g.preBattleChecks t.d (sel t.d).1 skip = true := by simpa using h2
        cases hn : nearby g (afterDefault (afterSwitch st (sel t.d).1)) t with
        | none => simp [h1b, h2b, not_le.mp h3]
        | some m => simp

theorem generate_of_engage (g : Env) (sel : game.Data → data.UnitID × Bool)
    (skip : List stat.Resist) (st : State) (t : Tick)
    (h : path g sel skip st t = Path.engage) :
    generate g sel skip st t
      = (afterAttack (afterReduce (afterDefault (afterSwitch st (sel t.d).1))) (sel t.d).1,
         [attackStep g t.d (sel t.d).1
            (afterReduce (afterDefault (afterSwitch st (sel t.d).1))).opts]) := by
  obtain ⟨h1, h2, h3, h4⟩ := (path_engage_iff g sel skip st t).mp h
  exact generate_engage g sel skip st t h1 h2 h3 h4

theorem attacksOn_runState (g : Env) (sel : game.Data → data.UnitID × Bool)
    (skip : List stat.Resist) (A : data.UnitID) :
    ∀ (ts : List Tick) (st : State), ts ≠ [] → attacksOn g sel skip A st ts →
      (runState g sel skip st ts).previousUnitID = A := by
  intro ts
  induction ts with
  | nil => intro st h; exact absurd rfl h
  | cons t ts ih =>
    intro st _ h
    obtain ⟨hsel, hp, hrest⟩ := h
    have hg := generate_of_engage g sel skip st t hp
    by_cases hts : ts = []
    · subst hts
      simp [runState, hg, afterAttack, hsel]
    · simpa [runState] using ih _ hts hrest

theorem attacksOn_loops (g : Env) (sel : game.Data → data.UnitID × Bool)
    (skip : List stat.Resist) (A : data.UnitID) :
    ∀ (ts : List Tick) (st : State), st.previousUnitID = A → attacksOn g sel skip A st ts →
      (runState g sel skip st ts).completedAttackLoops = st.completedAttackLoops + ts.length := by
  intro ts
  induction ts with
  | nil => intro st _ _; simp [runState]
  | cons t ts ih =>
    intro st hprev h
    obtain ⟨hsel, hp, hrest⟩ := h
    have hg := generate_of_engage g sel skip st t hp
    have hA : (sel t.d).1 = A := by rw [hsel]
    have hst : (generate g sel skip st t).1.previousUnitID = A := by
      rw [hg]; simp [afterAttack, hA]
    have hl : (generate g sel skip st t).1.completedAttackLoops = st.completedAttackLoops + 1 := by
      have : afterSwitch st (sel t.d).1 = st := afterSwitch_eq st _ (by rw [hA, hprev])
      rw [hg, this]
      simp
    rw [runState, ih _ hst hrest, hl]
    simp only [List.length_cons]
    push_cast
    ring

theorem generate_switch (g : Env) (sel : game.Data → data.UnitID × Bool)
    (skip : List stat.Resist) (st : State) (t : Tick)
    (hf : (sel t.d).2 = true) (hne : (sel t.d).1 ≠ st.previousUnitID) :
    generate g sel skip st t = generate g sel skip { st with completedAttackLoops := 0 } t
    ∧ path g sel skip st t = path g sel skip { st with completedAttackLoops := 0 } t := by
  have e1 : afterSwitch st (sel t.d).1 = { st with completedAttackLoops := 0 } :=
    afterSwitch_ne st _ hne
  have e2 : afterSwitch { st with completedAttackLoops := 0 } (sel t.d).1
      = { st with completedAttackLoops := 0 } := by
    rw [afterSwitch_ne _ _ (by simpa using hne)]
  constructor
  · simp only [generate, hf, e1, e2, Bool.not_true, Bool.false_eq_true, if_false]
  · simp only [path, hf, e1, e2, Bool.true_eq_false, if_false]

theorem engage_after_switch_loops (g : Env) (sel : game.Data → data.UnitID × Bool)
    (skip : List stat.Resist) (st : State) (t : Tick)
    (hne : (sel t.d).1 ≠ st.previousUnitID) (hp : path g sel skip st t = Path.engage) :
    (generate g sel skip st t).1.completedAttackLoops = 1
    ∧ (generate g sel skip st t).1.previousUnitID = (sel t.d).1 := by
  rw [generate_of_engage g sel skip st t hp, afterSwitch_ne st _ hne]
  simp

/-- C2: whenever the selected target differs from the recorded previous target, the
attack-loop counter is reset to 0 before any other decision of the tick: the
invocation is decided exactly as from the same state with counter 0, and normal
engagement leaves the counter at 1.  In particular after 5 consecutive
normal-attack ticks on a target A (from a fresh generator these leave the counter
at 5) a tick selecting a different target B is decided with counter 0 and its
attack leaves the counter at 1. -/
theorem targetSwitch_resets_counter (g : Env) (sel : game.Data → data.UnitID × Bool)
    (skip : List stat.Resist) :
    (∀ (st : State) (t : Tick), (sel t.d).2 = true → (sel t.d).1 ≠ st.previousUnitID →
        generate g sel skip st t = generate g sel skip { st with completedAttackLoops := 0 } t
        ∧ path g sel skip st t = path g sel skip { st with completedAttackLoops := 0 } t
        ∧ (path g sel skip st t = Path.engage →
            (generate g sel skip st t).1.completedAttackLoops = 1))
    ∧ (∀ (st0 : State) (A B : data.UnitID) (tsA : List Tick) (tB : Tick),
        tsA.length = 5 → attacksOn g sel skip A st0 tsA → sel tB.d = (B, true) → B ≠ A →
        (runState g sel skip st0 tsA).previousUnitID = A
        ∧ generate g sel skip (runState g sel skip st0 tsA) tB
            = generate g sel skip
                { runState g sel skip st0 tsA with completedAttackLoops := 0 } tB
        ∧ path g sel skip (runState g sel skip st0 tsA) tB
            = path g sel skip { runState g sel skip st0 tsA with completedAttackLoops := 0 } tB
        ∧ (path g sel skip (runState g sel skip st0 tsA) tB = Path.engage →
            (generate g sel skip (runState g sel skip st0 tsA) tB).1.completedAttackLoops = 1
            ∧ (generate g sel skip (runState g sel skip st0 tsA) tB).1.previousUnitID = B))
    ∧ (∀ (opts : List step.AttackOption) (A : data.UnitID) (tsA : List Tick),
        tsA.length = 5 → attacksOn g sel skip A (init opts) tsA →
        (runState g sel skip (init opts) tsA).completedAttackLoops = 5) := by
  refine ⟨?_, ?_, ?_⟩
  · intro st t hf hne
    obtain ⟨e1, e2⟩ := generate_switch g sel skip st t hf hne
    exact ⟨e1, e2, fun hp => (engage_after_switch_loops g sel skip st t hne hp).1⟩
  · intro st0 A B tsA tB hlen hA hB hne
    have hts : tsA ≠ [] := by
      intro h; rw [h] at hlen; simp at hlen
    have hprev := attacksOn_runState g sel skip A tsA st0 hts hA
    have hf : (sel tB.d).2 = true := by rw [hB]
    have hid : (sel tB.d).1 = B := by rw [hB]
    have hne2 : (sel tB.d).1 ≠ (runState g sel skip st0 tsA).previousUnitID := by
      rw [hid, hprev]; exact hne
    obtain ⟨e1, e2⟩ := generate_switch g sel skip _ tB hf hne2
    refine ⟨hprev, e1, e2, fun hp => ?_⟩
    have := engage_after_switch_loops g sel skip _ tB hne2 hp
    rw [hid] at this
    exact this
  · intro opts A tsA hlen hA
    match tsA, hlen, hA with
    | t :: ts, hlen, hA =>
      obtain ⟨hsel, hp, hrest⟩ := hA
      have hg := generate_of_engage g sel skip (init opts) t hp
      have hid : (sel t.d).1 = A := by rw [hsel]
      have hprev : (generate g sel skip (init opts) t).1.previousUnitID = A := by
        rw [hg]; simp [afterAttack, hid]
      have hl : (generate g sel skip (init opts) t).1.completedAttackLoops = 1 := by
        have h0 : (afterSwitch (init opts) (sel t.d).1).completedAttackLoops = 0 := by
          unfold afterSwitch; split <;> rfl
        rw [hg]
        simp [h0]
      rw [runState, attacksOn_loops g sel skip A ts _ hprev hrest, hl]
      simp only [List.length_cons] at hlen
      have : ts.length = 4 := by omega
      rw [this]
      norm_num

/-- Witness for C2 in the reference environment: unit 1 is attacked on five ticks,
then unit 2 is selected. -/
theorem targetSwitch_resets_counter_witness :
    (runState refEnv firstMonster [] (init [])
        [sampleTick [sampleMonster 1 (npc.ID.other 0) 20 100 0] false 100,
         sampleTick [sampleMonster 1 (npc.ID.other 0) 20 100 0] false 101,
         sampleTick [sampleMonster 1 (npc.ID.other 0) 20 100 0] false 102,
         sampleTick [sampleMonster 1 (npc.ID.other 0) 20 100 0] false 103,
         sampleTick [sampleMonster 1 (npc.ID.other 0) 20 100 0] false 104]).previousUnitID = 1
    ∧ (generate refEnv firstMonster []
        (runState refEnv firstMonster [] (init [])
          [sampleTick [sampleMonster 1 (npc.ID.other 0) 20 100 0] false 100,
           sampleTick [sampleMonster 1 (npc.ID.other 0) 20 100 0] false 101,
           sampleTick [sampleMonster 1 (npc.ID.other 0) 20 100 0] false 102,
           sampleTick [sampleMonster 1 (npc.ID.other 0) 20 100 0] false 103,
           sampleTick [sampleMonster 1 (npc.ID.other 0) 20 100 0] false 104])
        (sampleTick [sampleMonster 2 (npc.ID.other 0) 20 100 0] false 105)).1.completedAttackLoops
        = 1 := by
  have h := (targetSwitch_resets_counter refEnv firstMonster []).2.1 (init []) 1 2
    [sampleTick [sampleMonster 1 (npc.ID.other 0) 20 100 0] false 100,
     sampleTick [sampleMonster 1 (npc.ID.other 0) 20 100 0] false 101,
     sampleTick [sampleMonster 1 (npc.ID.other 0) 20 100 0] false 102,
     sampleTick [sampleMonster 1 (npc.ID.other 0) 20 100 0] false 103,
     sampleTick [sampleMonster 1 (npc.ID.other 0) 20 100 0] false 104]
    (sampleTick [sampleMonster 2 (npc.ID.other 0) 20 100 0] false 105)
    rfl
    ⟨rfl, by decide, rfl, by decide, rfl, by decide, rfl, by decide, rfl, by decide, trivial⟩
    rfl (by decide)
  exact ⟨h.1, (h.2.2.2 (by decide)).1⟩

theorem afterSwitch_loops (st : State) (id : data.UnitID) :
    (afterSwitch st id).completedAttackLoops
      = if st.previousUnitID = id then st.completedAttackLoops else 0 := by
  by_cases h : st.previousUnitID = id
  · rw [afterSwitch_eq st id h.symm, if_pos h]
  · rw [afterSwitch_ne st id (fun e => h e.symm), if_neg h]

/-- C4: one invocation yields the empty sequence iff the selector reports no
target, or pre-engagement validation fails, or the counter after the
target-switch reset is at least 40; in every other case it yields exactly one
step. -/
theorem generate_empty_iff (g : Env) (sel : game.Data → data.UnitID × Bool)
    (skip : List stat.Resist) (st : State) (t : Tick) :
    ((generate g sel skip st t).2 = [] ↔
      ((sel t.d).2 = false
        ∨ g.preBattleChecks t.d (sel t.d).1 skip = false
        ∨ 40 ≤ (if st.previousUnitID = (sel t.d).1 then st.completedAttackLoops else 0)))
    ∧ ((generate g sel skip st t).2 = [] ∨ (generate g sel skip st t).2.length = 1) := by
  rw [← afterSwitch_loops]
  by_cases h1 : (sel t.d).2 = false
  · simp [generate_noTarget g sel skip st t h1, h1]
  · have h1b : (sel t.d).2 = true := by simpa using h1
    by_cases h2 : g.preBattleChecks t.d (sel t.d).1 skip = false
    · simp [generate_validationFailed g sel skip st t h1b h2, h2]
    · have h2b : g.preBattleChecks t.d (sel t.d).1 skip = true := by simpa using h2
      by_cases h3 : sorceressMaxAttacksLoop ≤ (afterSwitch st (sel t.d).1).completedAttackLoops
      · have h3b : 40 ≤ (afterSwitch st (sel t.d).1).completedAttackLoops := h3
        simp [generate_capReached g sel skip st t h1b h2b h3, h3b]
      · have h3b : ¬ 40 ≤ (afterSwitch st (sel t.d).1).completedAttackLoops := h3
        cases hn : nearby g (afterDefault (afterSwitch st (sel t.d).1)) t with
        | none =>
          simp [generate_engage g sel skip st t h1b h2b (not_le.mp h3) hn, h1b, h2b, h3b]
        | some m =>
          simp [generate_areaClear g sel skip st t m h1b h2b (not_le.mp h3) hn, h1b, h2b, h3b]

theorem reduced_opts_eq (st : State) (id : data.UnitID) :
    (afterReduce (afterDefault (afterSwitch st id))).opts
      = if (afterSwitch st id).completedAttackLoops > 12
        then [step.AttackOption.Distance 1 5]
        else if st.opts.length = 0 then [step.AttackOption.Distance 25 30] else st.opts := by
  unfold afterReduce
  simp only [afterDefault_loops]
  split
  · rfl
  · rw [afterDefault_opts, afterSwitch_opts]
    simp [effectiveOpts, sorceressMinDistance, sorceressMaxDistance]

/-- C8: on a tick that reaches normal engagement (target selected, validation
passed, counter below 40, no area-clear cast: the cooldown window has not elapsed,
or the player has the Cooldown state, or no enemy is within distance 4), the
counter becomes the counter after the switch reset plus exactly 1, the selected
target is recorded as previous, the area-cast timestamp is untouched, and exactly
one step is emitted against the selected target with the range options in force
(reduced to Distance(1,5) when the counter exceeds 12, otherwise the stored ones
or the default band): a primary attack with 2 repeats and flag true if the
player has the Cooldown state, otherwise a Blizzard cast with 1 repeat. -/
theorem normal_engagement (g : Env) (sel : game.Data → data.UnitID × Bool)
    (skip : List stat.Resist) (st : State) (t : Tick)
    (hfound : (sel t.d).2 = true)
    (hvalid : g.preBattleChecks t.d (sel t.d).1 skip = true)
    (hcap : (if st.previousUnitID = (sel t.d).1 then st.completedAttackLoops else 0) < 40)
    (hno : t.sinceNow - st.previousSelfBlizzard ≤ 4000000000
      ∨ g.HasState t.d.PlayerStates state.State.Cooldown = true
      ∨ ∀ x ∈ g.Enemies t.d.Monsters, 4 ≤ g.DistanceFromMe t.d x.Position) :
    generate g sel skip st t
      = ({ completedAttackLoops :=
             (if st.previousUnitID = (sel t.d).1 then st.completedAttackLoops else 0) + 1,
           previousUnitID := (sel t.d).1,
           previousSelfBlizzard := st.previousSelfBlizzard,
           opts :=
             if (if st.previousUnitID = (sel t.d).1 then st.completedAttackLoops else 0) > 12
             then [step.AttackOption.Distance 1 5]
             else if st.opts.length = 0 then [step.AttackOption.Distance 25 30] else st.opts },
         [if g.HasState t.d.PlayerStates state.State.Cooldown = true then
            step.Step.PrimaryAttack (sel t.d).1 2 true
              (if (if st.previousUnitID = (sel t.d).1 then st.completedAttackLoops else 0) > 12
               then [step.AttackOption.Distance 1 5]
               else if st.opts.length = 0 then [step.AttackOption.Distance 25 30] else st.opts)
          else
            step.Step.SecondaryAttack skill.ID.Blizzard (sel t.d).1 1
              (if (if st.previousUnitID = (sel t.d).1 then st.completedAttackLoops else 0) > 12
               then [step.AttackOption.Distance 1 5]
               else if st.opts.length = 0 then [step.AttackOption.Distance 25 30] else st.opts)]) := by
  rw [← afterSwitch_loops] at hcap ⊢
  have hn : nearby g (afterDefault (afterSwitch st (sel t.d).1)) t = none :=
    nearby_eq_none_of g _ t (by simpa using hno)
  rw [generate_engage g sel skip st t hfound hvalid hcap hn]
  have hopts := reduced_opts_eq st (sel t.d).1
  refine Prod.ext ?_ ?_
  · simp only [afterAttack, afterReduce_loops, afterDefault_loops, afterReduce_blizzard,
      afterDefault_blizzard, afterSwitch_blizzard, hopts]
  · simp only [attackStep, hopts]

/-- Witness for C8 in the reference environment: a fresh generator, unit 7 far
away, the player without the Cooldown state. -/
theorem normal_engagement_witness :
    generate refEnv firstMonster [] (init [])
        (sampleTick [sampleMonster 7 (npc.ID.other 0) 20 100 0] false 100)
      = ({ completedAttackLoops := 1, previousUnitID := 7, previousSelfBlizzard := 0,
           opts := [step.AttackOption.Distance 25 30] },
         [step.Step.SecondaryAttack skill.ID.Blizzard 7 1 [step.AttackOption.Distance 25 30]]) :=
  normal_engagement refEnv firstMonster [] (init [])
    (sampleTick [sampleMonster 7 (npc.ID.other 0) 20 100 0] false 100)
    rfl (by decide) (by decide) (Or.inr (Or.inr (by decide)))

/-- C5: on a tick with a selected target that passes validation below the cap, if
more than 4 seconds have elapsed since the last area cast, the player has no
Cooldown state and some enemy is at distance below 4, the single emitted step is a
Blizzard cast with 1 repeat on the first such enemy in enumeration order, whatever
the selected target is, carrying the stored (or default) range options; the
area-cast timestamp is set and the counter is not incremented.  If any of the
three conditions fails the invocation takes normal engagement: the timestamp is
untouched and the one emitted step is the attack on the selected target. -/
theorem areaClear_precedence (g : Env) (sel : game.Data → data.UnitID × Bool)
    (skip : List stat.Resist) (st : State) (t : Tick)
    (hfound : (sel t.d).2 = true)
    (hvalid : g.preBattleChecks t.d (sel t.d).1 skip = true)
    (hcap : (if st.previousUnitID = (sel t.d).1 then st.completedAttackLoops else 0) < 40) :
    (∀ (m : data.Monster) (pre post : List data.Monster),
        t.sinceNow - st.previousSelfBlizzard > 4000000000 →
        g.HasState t.d.PlayerStates state.State.Cooldown = false →
        g.Enemies t.d.Monsters = pre ++ m :: post →
        (∀ x ∈ pre, 4 ≤ g.DistanceFromMe t.d x.Position) →
        g.DistanceFromMe t.d m.Position < 4 →
        generate g sel skip st t
          = ({ completedAttackLoops :=
                 if st.previousUnitID = (sel t.d).1 then st.completedAttackLoops else 0,
               previousUnitID := st.previousUnitID,
               previousSelfBlizzard := t.now,
               opts := if st.opts.length = 0 then [step.AttackOption.Distance 25 30]
                       else st.opts },
             [step.Step.SecondaryAttack skill.ID.Blizzard m.UnitID 1
                (if st.opts.length = 0 then [step.AttackOption.Distance 25 30] else st.opts)]))
    ∧ ((t.sinceNow - st.previousSelfBlizzard ≤ 4000000000
          ∨ g.HasState t.d.PlayerStates state.State.Cooldown = true
          ∨ ∀ x ∈ g.Enemies t.d.Monsters, 4 ≤ g.DistanceFromMe t.d x.Position) →
        path g sel skip st t = Path.engage
        ∧ (generate g sel skip st t).1.previousSelfBlizzard = st.previousSelfBlizzard
        ∧ (generate g sel skip st t).1.completedAttackLoops
            = (if st.previousUnitID = (sel t.d).1 then st.completedAttackLoops else 0) + 1
        ∧ (generate g sel skip st t).2
            = [attackStep g t.d (sel t.d).1
                (if (if st.previousUnitID = (sel t.d).1 then st.completedAttackLoops else 0) > 12
                 then [step.AttackOption.Distance 1 5]
                 else if st.opts.length = 0 then [step.AttackOption.Distance 25 30]
                 else st.opts)]) := by
  constructor
  · intro m pre post hel hcd hsplit hpre hm
    rw [← afterSwitch_loops] at hcap ⊢
    have hn : nearby g (afterDefault (afterSwitch st (sel t.d).1)) t = some m :=
      nearby_eq_some_of g _ t m pre post (by simpa using hel) hcd hsplit hpre hm
    rw [generate_areaClear g sel skip st t m hfound hvalid hcap hn]
    have hopts : (afterDefault (afterSwitch st (sel t.d).1)).opts
        = if st.opts.length = 0 then [step.AttackOption.Distance 25 30] else st.opts := by
      rw [afterDefault_opts, afterSwitch_opts]
      simp [effectiveOpts, sorceressMinDistance, sorceressMaxDistance]
    simp only [hopts, afterDefault_loops, afterDefault_prev, afterSwitch_prev]
  · intro hno
    rw [← afterSwitch_loops] at hcap ⊢
    have hn : nearby g (afterDefault (afterSwitch st (sel t.d).1)) t = none :=
      nearby_eq_none_of g _ t (by simpa using hno)
    have hres := generate_engage g sel skip st t hfound hvalid hcap hn
    refine ⟨(path_engage_iff g sel skip st t).mpr ⟨hfound, hvalid, hcap, hn⟩, ?_, ?_, ?_⟩
    · rw [hres]; simp
    · rw [hres]; simp
    · rw [hres, reduced_opts_eq]

/-- Witness for C5 in the reference environment: the selected unit 7 is far away,
unit 9 stands at distance 2, more than 4 seconds have passed and the player has no
Cooldown state; the cast goes to unit 9. -/
theorem areaClear_precedence_witness :
    generate refEnv firstMonster [] (init [])
        (sampleTick [sampleMonster 7 (npc.ID.other 0) 20 100 0,
                     sampleMonster 9 (npc.ID.other 1) 2 100 0] false 100)
      = ({ completedAttackLoops := 0, previousUnitID := 0, previousSelfBlizzard := 63808000100000000000,
           opts := [step.AttackOption.Distance 25 30] },
         [step.Step.SecondaryAttack skill.ID.Blizzard 9 1 [step.AttackOption.Distance 25 30]]) :=
  (areaClear_precedence refEnv firstMonster [] (init [])
    (sampleTick [sampleMonster 7 (npc.ID.other 0) 20 100 0,
                 sampleMonster 9 (npc.ID.other 1) 2 100 0] false 100)
    rfl (by decide) (by decide)).1
    (sampleMonster 9 (npc.ID.other 1) 2 100 0)
    [sampleMonster 7 (npc.ID.other 0) 20 100 0] []
    (by decide) (by decide) rfl (by decide) (by decide)

end KillMonsterSequence

end BlizzardSorceress

/-! ### Runs of the kill-sequence generator -/

namespace BlizzardSorceress

namespace KillMonsterSequence

/-- Every invocation takes one of the five ways, with the corresponding result. -/
theorem generate_cases (g : Env) (sel : game.Data → data.UnitID × Bool)
    (skip : List stat.Resist) (st : State) (t : Tick) :
    (path g sel skip st t = Path.noTarget ∧ generate g sel skip st t = (st, []))
    ∨ (path g sel skip st t = Path.validationFailed
        ∧ generate g sel skip st t = (afterSwitch st (sel t.d).1, []))
    ∨ (path g sel skip st t = Path.capReached
        ∧ sorceressMaxAttacksLoop ≤ (afterSwitch st (sel t.d).1).completedAttackLoops
        ∧ generate g sel skip st t = (afterDefault (afterSwitch st (sel t.d).1), []))
    ∨ (∃ m : data.Monster, path g sel skip st t = Path.areaClear m.UnitID
        ∧ (afterSwitch st (sel t.d).1).completedAttackLoops < sorceressMaxAttacksLoop
        ∧ generate g sel skip st t
          = ({ afterDefault (afterSwitch st (sel t.d).1) with previousSelfBlizzard := t.now },
             [step.Step.SecondaryAttack skill.ID.Blizzard m.UnitID 1
                (afterDefault (afterSwitch st (sel t.d).1)).opts]))
    ∨ (path g sel skip st t = Path.engage
        ∧ (afterSwitch st (sel t.d).1).completedAttackLoops < sorceressMaxAttacksLoop
        ∧ generate g sel skip st t
          = (afterAttack (afterReduce (afterDefault (afterSwitch st (sel t.d).1))) (sel t.d).1,
             [attackStep g t.d (sel t.d).1
                (afterReduce (afterDefault (afterSwitch st (sel t.d).1))).opts])) := by
  by_cases h1 : (sel t.d).2 = false
  · left
    exact ⟨by simp [path, h1], generate_noTarget g sel skip st t h1⟩
  · have h1b : (sel t.d).2 = true := by simpa using h1
    by_cases h2 : g.preBattleChecks t.d (sel t.d).1 skip = false
    · right; left
      exact ⟨by simp [path, h1b, h2], generate_validationFailed g sel skip st t h1b h2⟩
    · have h2b : g.preBattleChecks t.d (sel t.d).1 skip = true := by simpa using h2
      by_cases h3 : sorceressMaxAttacksLoop ≤ (afterSwitch st (sel t.d).1).completedAttackLoops
      · right; right; left
        exact ⟨by simp [path, h1b, h2b, h3], h3,
          generate_capReached g sel skip st t h1b h2b h3⟩
      · cases hn : nearby g (afterDefault (afterSwitch st (sel t.d).1)) t with
        | none =>
          right; right; right; right
          exact ⟨(path_engage_iff g sel skip st t).mpr ⟨h1b, h2b, not_le.mp h3, hn⟩,
            not_le.mp h3, generate_engage g sel skip st t h1b h2b (not_le.mp h3) hn⟩
        | some m =>
          right; right; right; left
          exact ⟨m, by simp [path, h1b, h2b, h3, hn], not_le.mp h3,
            generate_areaClear g sel skip st t m h1b h2b (not_le.mp h3) hn⟩

/-- Against a stable target, the counter (as seen after the switch test) plus the
number of invocations that all yielded steps is bounded by the cap plus the
number of area-clear casts among them. -/
theorem stable_run_bound (g : Env) (sel : game.Data → data.UnitID × Bool)
    (skip : List stat.Resist) (T : data.UnitID) :
    ∀ (ts : List Tick) (st : State),
      (afterSwitch st T).completedAttackLoops ≤ 40 →
      (∀ t ∈ ts, sel t.d = (T, true)) →
      (∀ o ∈ outputs g sel skip st ts, o ≠ []) →
      (afterSwitch st T).completedAttackLoops + (ts.length : Int)
        ≤ 40 + (areaClearCount g sel skip st ts : Int) := by
  intro ts
  induction ts with
  | nil => intro st h _ _; simpa [areaClearCount] using h
  | cons t ts ih =>
    intro st hc hsel hout
    have hT : (sel t.d).1 = T := by rw [hsel t (List.mem_cons_self _ _)]
    have hsel2 : ∀ t ∈ ts, sel t.d = (T, true) :=
      fun x hx => hsel x (List.mem_cons_of_mem _ hx)
    have hhead : (generate g sel skip st t).2 ≠ [] :=
      hout _ (by simp [outputs])
    have htail : ∀ o ∈ outputs g sel skip (generate g sel skip st t).1 ts, o ≠ [] :=
      fun o ho => hout o (by simp [outputs, ho])
    rcases generate_cases g sel skip st t with h | h | h | h | h
    · exact absurd (by rw [h.2]) hhead
    · exact absurd (by rw [h.2]) hhead
    · exact absurd (by rw [h.2.2]) hhead
    · obtain ⟨m, hp, hlt, hg⟩ := h
      rw [hT] at hlt hg
      have hst : (afterSwitch (generate g sel skip st t).1 T).completedAttackLoops
          = (afterSwitch st T).completedAttackLoops := by
        rw [hg, afterSwitch_loops, afterSwitch_loops]
        by_cases hpT : st.previousUnitID = T
        · simp [hpT, afterSwitch_eq st T hpT.symm]
        · simp [hpT]
      have := ih (generate g sel skip st t).1 (by rw [hst]; exact hc) hsel2 htail
      rw [hst] at this
      simp only [areaClearCount, hp, List.length_cons]
      push_cast
      linarith
    · obtain ⟨hp, hlt, hg⟩ := h
      rw [hT] at hlt hg
      have hlt2 : (afterSwitch st T).completedAttackLoops < 40 := hlt
      have hst : (afterSwitch (generate g sel skip st t).1 T).completedAttackLoops
          = (afterSwitch st T).completedAttackLoops + 1 := by
        rw [hg, afterSwitch_loops]
        simp
      have := ih (generate g sel skip st t).1 (by rw [hst]; linarith) hsel2 htail
      rw [hst] at this
      simp only [areaClearCount, hp, List.length_cons]
      push_cast
      linarith

/-- C3, as stated, fails: with the same target selected and validation passing on
every one of 41 ticks, an area-clear cast fires on each tick, so none of the first
41 invocations yields the empty sequence. -/
theorem stable_target_cap_counterexample :
    closeTicks.length = 41
    ∧ (∀ t ∈ closeTicks, firstMonster t.d = (7, true))
    ∧ (∀ t ∈ closeTicks, refEnv.preBattleChecks t.d 7 [] = true)
    ∧ outputs refEnv firstMonster [] (init []) closeTicks
        = List.replicate 41
            [step.Step.SecondaryAttack skill.ID.Blizzard 7 1 [step.AttackOption.Distance 25 30]]
    ∧ (∀ o ∈ outputs refEnv firstMonster [] (init []) closeTicks, o ≠ []) := by
  decide

/-- C3, amended: against a stable target the generator makes at most 40
normal-attack invocations; if its first n invocations all yield steps, then n is
at most 40 plus the number of area-clear casts among them.  With no area-clear
cast the empty sequence is therefore yielded no later than the 41st invocation. -/
theorem stable_target_loop_bound (g : Env) (sel : game.Data → data.UnitID × Bool)
    (skip : List stat.Resist) (opts : List step.AttackOption) (T : data.UnitID)
    (ts : List Tick)
    (hsel : ∀ t ∈ ts, sel t.d = (T, true))
    (hsteps : ∀ o ∈ outputs g sel skip (init opts) ts, o ≠ []) :
    ts.length ≤ 40 + areaClearCount g sel skip (init opts) ts := by
  have h0 : (afterSwitch (init opts) T).completedAttackLoops = 0 := by
    unfold afterSwitch; split <;> rfl
  have h := stable_run_bound g sel skip T ts (init opts) (by rw [h0]; norm_num) hsel hsteps
  rw [h0] at h
  have h2 : (ts.length : Int) ≤ ((40 + areaClearCount g sel skip (init opts) ts : Nat) : Int) := by
    push_cast
    linarith
  exact_mod_cast h2

/-- Witness for the amended C3 in the reference environment: two normal attacks on
the far unit 7. -/
theorem stable_target_loop_bound_witness :
    [sampleTick [sampleMonster 7 (npc.ID.other 0) 20 100 0] false 100,
     sampleTick [sampleMonster 7 (npc.ID.other 0) 20 100 0] false 101].length
      ≤ 40 + areaClearCount refEnv firstMonster [] (init [])
          [sampleTick [sampleMonster 7 (npc.ID.other 0) 20 100 0] false 100,
           sampleTick [sampleMonster 7 (npc.ID.other 0) 20 100 0] false 101] :=
  stable_target_loop_bound refEnv firstMonster [] [] 7
    [sampleTick [sampleMonster 7 (npc.ID.other 0) 20 100 0] false 100,
     sampleTick [sampleMonster 7 (npc.ID.other 0) 20 100 0] false 101]
    (by decide) (by decide)

theorem afterDefault_of_opts (st : State) (h : st.opts = [step.AttackOption.Distance 1 5]) :
    afterDefault st = st := by
  simp [afterDefault, h]

theorem reducedFrom14_generate (g : Env) (sel : game.Data → data.UnitID × Bool)
    (skip : List stat.Resist) (st : State) (t : Tick) (h : ReducedFrom14 st) :
    ReducedFrom14 (generate g sel skip st t).1 := by
  have hsw : ReducedFrom14 (afterSwitch st (sel t.d).1) := by
    intro hc
    rw [afterSwitch_loops] at hc
    rw [afterSwitch_opts]
    split at hc
    · exact h hc
    · norm_num at hc
  have hdf : ReducedFrom14 (afterDefault (afterSwitch st (sel t.d).1)) := by
    intro hc
    rw [afterDefault_loops] at hc
    rw [afterDefault_of_opts _ (hsw hc)]
    exact hsw hc
  rcases generate_cases g sel skip st t with c | c | c | c | c
  · rw [c.2]; exact h
  · rw [c.2]; exact hsw
  · rw [c.2.2]; exact hdf
  · obtain ⟨m, _, _, hg⟩ := c
    rw [hg]
    exact hdf
  · rw [c.2.2]
    intro hc
    simp only [afterAttack_loops, afterReduce_loops, afterDefault_loops] at hc
    simp only [afterAttack_opts]
    unfold afterReduce
    rw [if_pos (by rw [afterDefault_loops]; linarith)]

theorem reducedFrom14_runState (g : Env) (sel : game.Data → data.UnitID × Bool)
    (skip : List stat.Resist) :
    ∀ (ts : List Tick) (st : State), ReducedFrom14 st →
      ReducedFrom14 (runState g sel skip st ts) := by
  intro ts
  induction ts with
  | nil => intro st h; exact h
  | cons t ts ih =>
    intro st h
    exact ih _ (reducedFrom14_generate g sel skip st t h)

theorem reducedFrom14_of_reachable (g : Env) (sel : game.Data → data.UnitID × Bool)
    (skip : List stat.Resist) (opts : List step.AttackOption) (st : State)
    (h : Reachable g sel skip opts st) : ReducedFrom14 st := by
  obtain ⟨ts, rfl⟩ := h
  exact reducedFrom14_runState g sel skip ts (init opts) (by intro hc; simp [init] at hc)

set_option maxRecDepth 100000 in
/-- C6, as stated, fails: after 13 normal attacks on the stable target 7 the
counter is 13, and the area-clear cast that fires on the next tick (unit 9 at
distance 2) still carries the default band Distance(25,30). -/
theorem degraded_range_counterexample :
    (runState refEnv firstMonster [] (init []) (farTicks 13)).completedAttackLoops = 13
    ∧ (runState refEnv firstMonster [] (init []) (farTicks 13)).previousUnitID = 7
    ∧ firstMonster (sampleTick [sampleMonster 7 (npc.ID.other 0) 20 100 0,
          sampleMonster 9 (npc.ID.other 1) 2 100 0] false 200).d = (7, true)
    ∧ (generate refEnv firstMonster []
        (runState refEnv firstMonster [] (init []) (farTicks 13))
        (sampleTick [sampleMonster 7 (npc.ID.other 0) 20 100 0,
          sampleMonster 9 (npc.ID.other 1) 2 100 0] false 200)).2
        = [step.Step.SecondaryAttack skill.ID.Blizzard 9 1 [step.AttackOption.Distance 25 30]] := by
  decide

/-- C6, amended: in every state the generator can reach, once the iteration count
exceeds 12 the step emitted by normal engagement carries exactly Distance(1,5),
and once the count exceeds 13 every emitted step, area-clear casts included,
carries exactly Distance(1,5). -/
theorem degraded_range (g : Env) (sel : game.Data → data.UnitID × Bool)
    (skip : List stat.Resist) (opts : List step.AttackOption) (st : State) (t : Tick)
    (s : step.Step)
    (hreach : Reachable g sel skip opts st)
    (hs : s ∈ (generate g sel skip st t).2)
    (hcount : 12 < (if st.previousUnitID = (sel t.d).1 then st.completedAttackLoops else 0))
    (hkind : path g sel skip st t = Path.engage
      ∨ 13 < (if st.previousUnitID = (sel t.d).1 then st.completedAttackLoops else 0)) :
    s.opts = [step.AttackOption.Distance 1 5] := by
  rw [← afterSwitch_loops] at hcount hkind
  have hred : (afterReduce (afterDefault (afterSwitch st (sel t.d).1))).opts
      = [step.AttackOption.Distance 1 5] := by
    unfold afterReduce
    rw [if_pos (by rw [afterDefault_loops]; exact hcount)]
  rcases generate_cases g sel skip st t with c | c | c | c | c
  · rw [c.2] at hs; simp at hs
  · rw [c.2] at hs; simp at hs
  · rw [c.2.2] at hs; simp at hs
  · obtain ⟨m, hp, _, hg⟩ := c
    rcases hkind with hk | hk
    · rw [hp] at hk; cases hk
    · have hinv := reducedFrom14_of_reachable g sel skip opts st hreach
      have hc14 : 14 ≤ st.completedAttackLoops := by
        rw [afterSwitch_loops] at hk
        split at hk
        · linarith
        · norm_num at hk
      have hprev : st.previousUnitID = (sel t.d).1 := by
        rw [afterSwitch_loops] at hk
        by_contra hne
        rw [if_neg hne] at hk
        norm_num at hk
      rw [hg, afterSwitch_eq st _ hprev.symm, afterDefault_of_opts st (hinv hc14)] at hs
      simp only [List.mem_singleton] at hs
      rw [hs]
      exact hinv hc14
  · rw [c.2.2] at hs
    simp only [List.mem_singleton] at hs
    rw [hs, hred]
    unfold attackStep
    split <;> rfl

set_option maxRecDepth 100000 in
/-- Witness for the amended C6 in the reference environment: the 14th normal
attack on the far unit 7 carries Distance(1,5). -/
theorem degraded_range_witness :
    step.Step.SecondaryAttack skill.ID.Blizzard 7 1 [step.AttackOption.Distance 1 5]
        ∈ (generate refEnv firstMonster []
            (runState refEnv firstMonster [] (init []) (farTicks 13))
            (sampleTick [sampleMonster 7 (npc.ID.other 0) 20 100 0] false 200)).2
    ∧ (step.Step.SecondaryAttack skill.ID.Blizzard 7 1 [step.AttackOption.Distance 1 5]).opts
        = [step.AttackOption.Distance 1 5] :=
  ⟨by decide,
   degraded_range refEnv firstMonster [] []
    (runState refEnv firstMonster [] (init []) (farTicks 13))
    (sampleTick [sampleMonster 7 (npc.ID.other 0) 20 100 0] false 200)
    (step.Step.SecondaryAttack skill.ID.Blizzard 7 1 [step.AttackOption.Distance 1 5])
    ⟨farTicks 13, rfl⟩ (by decide) (by decide) (Or.inl (by decide))⟩

theorem effectiveOpts_idem (opts : List step.AttackOption) :
    effectiveOpts (effectiveOpts opts) = effectiveOpts opts := by
  unfold effectiveOpts
  split <;> simp_all

theorem unreduced_afterDefault (opts : List step.AttackOption) (st : State)
    (h : Unreduced opts st) : (afterDefault st).opts = effectiveOpts opts := by
  rw [afterDefault_opts]
  rcases h with h | h
  · rw [h]
  · rw [h, effectiveOpts_idem]

theorem unreduced_generate (g : Env) (sel : game.Data → data.UnitID × Bool)
    (skip : List stat.Resist) (opts : List step.AttackOption) (st : State) (t : Tick)
    (h : Unreduced opts st)
    (hno : ¬ (path g sel skip st t = Path.engage
        ∧ 12 < (afterSwitch st (sel t.d).1).completedAttackLoops)) :
    Unreduced opts (generate g sel skip st t).1 := by
  have hsw : Unreduced opts (afterSwitch st (sel t.d).1) := by
    unfold Unreduced
    rw [afterSwitch_opts]
    exact h
  have hdf := unreduced_afterDefault opts _ hsw
  rcases generate_cases g sel skip st t with c | c | c | c | c
  · rw [c.2]; exact h
  · rw [c.2]; exact hsw
  · rw [c.2.2]; exact Or.inr hdf
  · obtain ⟨m, _, _, hg⟩ := c
    rw [hg]
    exact Or.inr hdf
  · rw [c.2.2]
    right
    have hle : ¬ 12 < (afterSwitch st (sel t.d).1).completedAttackLoops :=
      fun hgt => hno ⟨c.1, hgt⟩
    simp only [afterAttack_opts]
    unfold afterReduce
    rw [if_neg (by rw [afterDefault_loops]; exact hle)]
    exact hdf

theorem unreduced_runState (g : Env) (sel : game.Data → data.UnitID × Bool)
    (skip : List stat.Resist) (opts : List step.AttackOption) :
    ∀ (ts : List Tick) (st : State), Unreduced opts st →
      reductionCount g sel skip st ts = 0 → Unreduced opts (runState g sel skip st ts) := by
  intro ts
  induction ts with
  | nil => intro st h _; exact h
  | cons t ts ih =>
    intro st h hc
    simp only [reductionCount, Nat.add_eq_zero] at hc
    have hno : ¬ (path g sel skip st t = Path.engage
        ∧ 12 < (afterSwitch st (sel t.d).1).completedAttackLoops) := by
      intro hp
      rw [if_pos hp] at hc
      exact absurd hc.1 (by norm_num)
    exact ih _ (unreduced_generate g sel skip opts st t h hno) hc.2

set_option maxRecDepth 100000 in
/-- C7, as stated, fails: with no caller-specified range, after 14 normal attacks on
unit 7 (the last of them reduced), a tick selecting the new target 8 is decided
with counter 0 and yet its step carries Distance(1,5), not the default band. -/
theorem range_before_degradation_counterexample :
    (runState refEnv firstMonster [] (init []) (farTicks 14)).previousUnitID = 7
    ∧ firstMonster (sampleTick [sampleMonster 8 (npc.ID.other 0) 20 100 0] false 200).d
        = (8, true)
    ∧ (afterSwitch (runState refEnv firstMonster [] (init []) (farTicks 14)) 8).completedAttackLoops
        = 0
    ∧ (generate refEnv firstMonster []
        (runState refEnv firstMonster [] (init []) (farTicks 14))
        (sampleTick [sampleMonster 8 (npc.ID.other 0) 20 100 0] false 200)).2
        = [step.Step.SecondaryAttack skill.ID.Blizzard 8 1 [step.AttackOption.Distance 1 5]] := by
  decide

/-- C7, amended: along every run of the generator from its construction, on a tick
at which the iteration count is at most 12 and before which no invocation has
replaced the range options (no normal engagement at a count above 12 so far in this
Action), every emitted step carries the caller-specified range options, or the
default band Distance(25,30) when the caller supplied none. -/
theorem range_before_degradation (g : Env) (sel : game.Data → data.UnitID × Bool)
    (skip : List stat.Resist) (opts : List step.AttackOption) (ts : List Tick) (t : Tick)
    (s : step.Step)
    (hnored : reductionCount g sel skip (init opts) ts = 0)
    (hcount : (if (runState g sel skip (init opts) ts).previousUnitID = (sel t.d).1
        then (runState g sel skip (init opts) ts).completedAttackLoops else 0) ≤ 12)
    (hs : s ∈ (generate g sel skip (runState g sel skip (init opts) ts) t).2) :
    s.opts = if opts.length = 0 then [step.AttackOption.Distance 25 30] else opts := by
  have heff : effectiveOpts opts
      = if opts.length = 0 then [step.AttackOption.Distance 25 30] else opts := by
    simp [effectiveOpts, sorceressMinDistance, sorceressMaxDistance]
  rw [← heff]
  rw [← afterSwitch_loops] at hcount
  have hinv := unreduced_runState g sel skip opts ts (init opts) (Or.inl rfl) hnored
  have hsw : Unreduced opts (afterSwitch (runState g sel skip (init opts) ts) (sel t.d).1) := by
    unfold Unreduced
    rw [afterSwitch_opts]
    exact hinv
  have hdf := unreduced_afterDefault opts _ hsw
  rcases generate_cases g sel skip (runState g sel skip (init opts) ts) t with c | c | c | c | c
  · rw [c.2] at hs; simp at hs
  · rw [c.2] at hs; simp at hs
  · rw [c.2.2] at hs; simp at hs
  · obtain ⟨m, _, _, hg⟩ := c
    rw [hg] at hs
    simp only [List.mem_singleton] at hs
    rw [hs]
    exact hdf
  · rw [c.2.2] at hs
    simp only [List.mem_singleton] at hs
    have hred : (afterReduce (afterDefault
        (afterSwitch (runState g sel skip (init opts) ts) (sel t.d).1))).opts
        = effectiveOpts opts := by
      unfold afterReduce
      rw [if_neg (by rw [afterDefault_loops]; exact not_lt.mpr hcount)]
      exact hdf
    rw [hs, hred]
    unfold attackStep
    split <;> rfl

set_option maxRecDepth 100000 in
/-- Witness for the amended C7 in the reference environment: after 12 normal attacks
on unit 7 with no caller-specified range, the 13th still carries Distance(25,30). -/
theorem range_before_degradation_witness :
    step.Step.SecondaryAttack skill.ID.Blizzard 7 1 [step.AttackOption.Distance 25 30]
        ∈ (generate refEnv firstMonster []
            (runState refEnv firstMonster [] (init []) (farTicks 12))
            (sampleTick [sampleMonster 7 (npc.ID.other 0) 20 100 0] false 200)).2
    ∧ (step.Step.SecondaryAttack skill.ID.Blizzard 7 1 [step.AttackOption.Distance 25 30]).opts
        = if ([] : List step.AttackOption).length = 0 then [step.AttackOption.Distance 25 30]
          else [] :=
  ⟨by decide,
   range_before_degradation refEnv firstMonster [] [] (farTicks 12)
    (sampleTick [sampleMonster 7 (npc.ID.other 0) 20 100 0] false 200)
    (step.Step.SecondaryAttack skill.ID.Blizzard 7 1 [step.AttackOption.Distance 25 30])
    (by decide) (by decide) (by decide)⟩

end KillMonsterSequence

end BlizzardSorceress

/-! ### The council target selector -/

namespace BlizzardSorceress

namespace KillCouncil

theorem foldl_buckets (g : Env) :
    ∀ (l : List data.Monster) (a b : List data.Monster),
      l.foldl
        (fun (acc : List data.Monster × List data.Monster) m =>
          if isCouncilMember m then
            if g.IsImmune m stat.Resist.ColdImmune then (acc.1, acc.2 ++ [m])
            else (acc.1 ++ [m], acc.2)
          else acc)
        (a, b)
      = (a ++ l.filter (fun m => isCouncilMember m && !g.IsImmune m stat.Resist.ColdImmune),
         b ++ l.filter (fun m => isCouncilMember m && g.IsImmune m stat.Resist.ColdImmune)) := by
  intro l
  induction l with
  | nil => intro a b; simp
  | cons m l ih =>
    intro a b
    rw [List.foldl_cons]
    cases hc : isCouncilMember m <;> cases hi : g.IsImmune m stat.Resist.ColdImmune <;>
      simp [hc, hi, ih, List.filter_cons]

theorem buckets_eq (g : Env) (d : game.Data) :
    buckets g d
      = ((g.Enemies d.Monsters).filter
            (fun m => isCouncilMember m && !g.IsImmune m stat.Resist.ColdImmune),
         (g.Enemies d.Monsters).filter
            (fun m => isCouncilMember m && g.IsImmune m stat.Resist.ColdImmune)) := by
  unfold buckets
  rw [foldl_buckets]
  simp

theorem filter_eq_cons_of_find (p : data.Monster → Bool) :
    ∀ (l : List data.Monster) (m : data.Monster), l.find? p = some m →
      ∃ rest, l.filter p = m :: rest := by
  intro l
  induction l with
  | nil => intro m h; simp at h
  | cons x l ih =>
    intro m h
    cases hx : p x with
    | true =>
      rw [List.find?_cons, hx] at h
      simp only [Option.some.injEq] at h
      exact ⟨l.filter p, by rw [List.filter_cons, hx, if_pos rfl, h]⟩
    | false =>
      rw [List.find?_cons, hx] at h
      obtain ⟨rest, hr⟩ := ih m h
      exact ⟨rest, by rw [List.filter_cons, hx]; simpa using hr⟩

/-- C9: the council selector reports a target iff some live enemy is named
CouncilMember, CouncilMember2 or CouncilMember3.  When some such enemy is not
cold-immune, the identity returned is that of the first non-cold-immune council
member in enumeration order; a cold-immune member (the first one) is returned
only when there is no vulnerable council member. -/
theorem council_selector_spec (g : Env) (d : game.Data) :
    ((monsterSelector g d).2 = true ↔
        ∃ m ∈ g.Enemies d.Monsters,
          (m.Name = npc.ID.CouncilMember ∨ m.Name = npc.ID.CouncilMember2
            ∨ m.Name = npc.ID.CouncilMember3))
    ∧ (∀ m : data.Monster,
        (g.Enemies d.Monsters).find?
            (fun x => isCouncilMember x && !g.IsImmune x stat.Resist.ColdImmune) = some m →
        monsterSelector g d = (m.UnitID, true))
    ∧ ((∃ x ∈ g.Enemies d.Monsters,
          isCouncilMember x = true ∧ g.IsImmune x stat.Resist.ColdImmune = false) →
        ∃ m ∈ g.Enemies d.Monsters,
          isCouncilMember m = true ∧ g.IsImmune m stat.Resist.ColdImmune = false
          ∧ monsterSelector g d = (m.UnitID, true))
    ∧ ((∀ x ∈ g.Enemies d.Monsters,
          isCouncilMember x = true → g.IsImmune x stat.Resist.ColdImmune = true) →
        ∀ m : data.Monster,
          (g.Enemies d.Monsters).find? (fun x => isCouncilMember x) = some m →
          g.IsImmune m stat.Resist.ColdImmune = true
          ∧ monsterSelector g d = (m.UnitID, true)) := by
  have hsel : monsterSelector g d
      = match (g.Enemies d.Monsters).filter
            (fun m => isCouncilMember m && !g.IsImmune m stat.Resist.ColdImmune)
          ++ (g.Enemies d.Monsters).filter
            (fun m => isCouncilMember m && g.IsImmune m stat.Resist.ColdImmune) with
        | m :: _ => (m.UnitID, true)
        | [] => (0, false) := by
    unfold monsterSelector
    rw [buckets_eq]
  have hvuln : ∀ m : data.Monster,
      (g.Enemies d.Monsters).find?
          (fun x => isCouncilMember x && !g.IsImmune x stat.Resist.ColdImmune) = some m →
      monsterSelector g d = (m.UnitID, true) := by
    intro m hm
    obtain ⟨rest, hr⟩ := filter_eq_cons_of_find _ _ m hm
    rw [hsel, hr]
    rfl
  refine ⟨?_, hvuln, ?_, ?_⟩
  · rw [hsel]
    constructor
    · intro h
      split at h
      · next m rest heq =>
          have hm : m ∈ (g.Enemies d.Monsters).filter
                (fun m => isCouncilMember m && !g.IsImmune m stat.Resist.ColdImmune)
              ++ (g.Enemies d.Monsters).filter
                (fun m => isCouncilMember m && g.IsImmune m stat.Resist.ColdImmune) := by
            rw [heq]; exact List.mem_cons_self _ _
          rw [List.mem_append, List.mem_filter, List.mem_filter] at hm
          have hmem : m ∈ g.Enemies d.Monsters ∧ isCouncilMember m = true := by
            rcases hm with hm | hm
            · exact ⟨hm.1, (Bool.and_eq_true _ _ ▸ hm.2).1⟩
            · exact ⟨hm.1, (Bool.and_eq_true _ _ ▸ hm.2).1⟩
          refine ⟨m, hmem.1, ?_⟩
          simpa [isCouncilMember, or_assoc] using hmem.2
      · simp at h
    · rintro ⟨m, hm, hname⟩
      have hc : isCouncilMember m = true := by
        simpa [isCouncilMember, or_assoc] using hname
      split
      · rfl
      · next heq =>
          exfalso
          have hnil := List.append_eq_nil.mp heq
          cases hi : g.IsImmune m stat.Resist.ColdImmune with
          | false =>
            have : m ∈ (g.Enemies d.Monsters).filter
                (fun m => isCouncilMember m && !g.IsImmune m stat.Resist.ColdImmune) :=
              List.mem_filter.mpr ⟨hm, by simp [hc, hi]⟩
            rw [hnil.1] at this
            exact List.not_mem_nil _ this
          | true =>
            have : m ∈ (g.Enemies d.Monsters).filter
                (fun m => isCouncilMember m && g.IsImmune m stat.Resist.ColdImmune) :=
              List.mem_filter.mpr ⟨hm, by simp [hc, hi]⟩
            rw [hnil.2] at this
            exact List.not_mem_nil _ this
  · rintro ⟨x, hx, hxc, hxi⟩
    cases hf : (g.Enemies d.Monsters).find?
        (fun x => isCouncilMember x && !g.IsImmune x stat.Resist.ColdImmune) with
    | none =>
      exfalso
      have := (List.find?_eq_none.mp hf) x hx
      simp [hxc, hxi] at this
    | some m =>
      have hp := List.find?_some hf
      simp only [Bool.and_eq_true, Bool.not_eq_true'] at hp
      exact ⟨m, List.mem_of_find?_eq_some hf, hp.1, hp.2, hvuln m hf⟩
  · intro hall m hm
    have hmc : isCouncilMember m = true := List.find?_some hm
    have hmi := hall m (List.mem_of_find?_eq_some hm) hmc
    refine ⟨hmi, ?_⟩
    have hnil : (g.Enemies d.Monsters).filter
        (fun m => isCouncilMember m && !g.IsImmune m stat.Resist.ColdImmune) = [] := by
      rw [List.filter_eq_nil_iff]
      intro x hx
      cases hxc : isCouncilMember x with
      | false => simp
      | true => simp [hall x hx hxc]
    have hsame : (g.Enemies d.Monsters).filter
        (fun m => isCouncilMember m && g.IsImmune m stat.Resist.ColdImmune)
        = (g.Enemies d.Monsters).filter (fun x => isCouncilMember x) := by
      apply List.filter_congr
      intro x hx
      cases hxc : isCouncilMember x with
      | false => simp
      | true => simp [hall x hx hxc]
    obtain ⟨rest, hr⟩ := filter_eq_cons_of_find _ _ m hm
    rw [hsel, hnil, hsame, hr]
    rfl

/-- Witness for C9 in the reference environment: of five live council members, two
vulnerable and three cold-immune, the first vulnerable one (unit 3) is returned. -/
theorem council_selector_spec_witness : monsterSelector refEnv councilData = (3, true) :=
  (council_selector_spec refEnv councilData).2.1
    (sampleMonster 3 npc.ID.CouncilMember3 12 100 50) rfl

end KillCouncil

/-- The private `killMonster` in literal form: the kill sequence whose selector
returns the unit `FindOne` finds for the given name and type, and reports no
target otherwise, with no immunity list and no range option. -/
theorem killMonster_eq (g : Env) (n : npc.ID) (t : data.MonsterType) :
    killMonster g n t
      = action.Action.KillMonsterSequence
          (fun d1 =>
            if (g.FindOne d1.Monsters n t).2 = true then
              ((g.FindOne d1.Monsters n t).1.UnitID, true)
            else (0, false))
          [] [] := by
  unfold killMonster
  congr 1
  funext d1
  cases h : (g.FindOne d1.Monsters n t).2 <;> simp

/-- The first invocation of `killMonster` on a snapshot without the unit yields
nothing; with the unit found, validation passed and no area-clear cast it yields
the one attack on that unit at the default range Distance(25,30). -/
theorem killMonster_firstSteps (g : Env) (n : npc.ID) (t : KillMonsterSequence.Tick) :
    ((g.FindOne t.d.Monsters n data.MonsterType.MonsterTypeNone).2 = false →
        firstSteps g (killMonster g n data.MonsterType.MonsterTypeNone) t = [])
    ∧ ((g.FindOne t.d.Monsters n data.MonsterType.MonsterTypeNone).2 = true →
        g.preBattleChecks t.d
          (g.FindOne t.d.Monsters n data.MonsterType.MonsterTypeNone).1.UnitID [] = true →
        (g.HasState t.d.PlayerStates state.State.Cooldown = true
          ∨ ∀ x ∈ g.Enemies t.d.Monsters, 4 ≤ g.DistanceFromMe t.d x.Position) →
        firstSteps g (killMonster g n data.MonsterType.MonsterTypeNone) t
          = [if g.HasState t.d.PlayerStates state.State.Cooldown = true then
               step.Step.PrimaryAttack
                 (g.FindOne t.d.Monsters n data.MonsterType.MonsterTypeNone).1.UnitID 2 true
                 [step.AttackOption.Distance 25 30]
             else
               step.Step.SecondaryAttack skill.ID.Blizzard
                 (g.FindOne t.d.Monsters n data.MonsterType.MonsterTypeNone).1.UnitID 1
                 [step.AttackOption.Distance 25 30]]) := by
  rw [killMonster_eq]
  constructor
  · intro hf
    show (KillMonsterSequence.generate g _ [] (KillMonsterSequence.init []) t).2 = []
    rw [KillMonsterSequence.generate_noTarget _ _ _ _ _ (by simp [hf])]
  · intro hf hv hno
    show (KillMonsterSequence.generate g _ [] (KillMonsterSequence.init []) t).2 = _
    have h0 : ∀ id, (KillMonsterSequence.afterSwitch (KillMonsterSequence.init []) id).completedAttackLoops
        = 0 := by
      intro id
      unfold KillMonsterSequence.afterSwitch
      split <;> rfl
    rw [KillMonsterSequence.generate_engage g _ [] (KillMonsterSequence.init []) t
      (by simp [hf]) (by simpa [hf] using hv)
      (by rw [h0]; simp [sorceressMaxAttacksLoop])
      (KillMonsterSequence.nearby_eq_none_of g _ t (Or.inr hno))]
    simp only [hf, if_true, KillMonsterSequence.reduced_opts_eq, h0,
      KillMonsterSequence.attackStep]
    simp [KillMonsterSequence.init]

/-! ### The Diablo chain -/

namespace KillDiablo

theorem timeout_eq : timeout = 20000000000 := by
  norm_num [timeout, time.Second, time.Millisecond]

theorem timedOut_iff (st : State) (now : time.Time) :
    time.Since now st.startTime > timeout ↔ now - st.startTime > 20000000000 := by
  rw [timeout_eq]
  exact time.Since_gt_iff _ _ _ (by norm_num) (by norm_num)

theorem generate_notFound (g : Env) (st : State) (d : game.Data) (now : time.Time)
    (hnf : st.diabloFound = false) :
    (now - st.startTime > 20000000000 → generate g st d now = (st, []))
    ∧ (now - st.startTime ≤ 20000000000 →
        ((g.FindOne d.Monsters npc.ID.Diablo data.MonsterType.MonsterTypeNone).2 = false
          ∨ (g.FindOne d.Monsters npc.ID.Diablo data.MonsterType.MonsterTypeNone).1.Stats
              stat.ID.Life ≤ 0) →
        generate g st d now = (st, [waitChain]))
    ∧ (now - st.startTime ≤ 20000000000 →
        (g.FindOne d.Monsters npc.ID.Diablo data.MonsterType.MonsterTypeNone).2 = true →
        0 < (g.FindOne d.Monsters npc.ID.Diablo data.MonsterType.MonsterTypeNone).1.Stats
              stat.ID.Life →
        generate g st d now
          = ({ st with diabloFound := true },
             [staticFieldChain
                (g.FindOne d.Monsters npc.ID.Diablo data.MonsterType.MonsterTypeNone).1.UnitID,
              killMonster g npc.ID.Diablo data.MonsterType.MonsterTypeNone])) := by
  refine ⟨?_, ?_, ?_⟩
  · intro h
    have h1 : time.Since now st.startTime > timeout := (timedOut_iff st now).mpr h
    simp [generate, h1, hnf]
  · intro h hab
    have h1 : ¬ time.Since now st.startTime > timeout :=
      fun hc => absurd ((timedOut_iff st now).mp hc) (not_lt.mpr h)
    have h2 : (!(g.FindOne d.Monsters npc.ID.Diablo data.MonsterType.MonsterTypeNone).2
        || decide ((g.FindOne d.Monsters npc.ID.Diablo
            data.MonsterType.MonsterTypeNone).1.Stats stat.ID.Life ≤ 0)) = true := by
      rcases hab with hab | hab
      · simp [hab]
      · simp [hab]
    simp only [generate, h1, hnf, h2, decide_False, Bool.false_and, Bool.false_eq_true,
      if_false, if_true]
  · intro h hf hl
    have h1 : ¬ time.Since now st.startTime > timeout :=
      fun hc => absurd ((timedOut_iff st now).mp hc) (not_lt.mpr h)
    have h2 : (!(g.FindOne d.Monsters npc.ID.Diablo data.MonsterType.MonsterTypeNone).2
        || decide ((g.FindOne d.Monsters npc.ID.Diablo
            data.MonsterType.MonsterTypeNone).1.Stats stat.ID.Life ≤ 0)) = false := by
      simp [hf, hl]
    simp only [generate, h1, h2, decide_False, Bool.false_and, Bool.false_eq_true, if_false]

theorem outputs_absent (g : Env) :
    ∀ (xs : List (game.Data × time.Time)) (st : State), st.diabloFound = false →
      (∀ x ∈ xs,
        (g.FindOne x.1.Monsters npc.ID.Diablo data.MonsterType.MonsterTypeNone).2 = false
        ∨ (g.FindOne x.1.Monsters npc.ID.Diablo data.MonsterType.MonsterTypeNone).1.Stats
            stat.ID.Life ≤ 0) →
      ∀ out ∈ outputs g st xs, out = [] ∨ out = [waitChain] := by
  intro xs
  induction xs with
  | nil => intro st _ _ out h; simp [outputs] at h
  | cons x xs ih =>
    intro st hnf hab out hout
    have hx := hab x (List.mem_cons_self _ _)
    have hg : generate g st x.1 x.2 = (st, []) ∨ generate g st x.1 x.2 = (st, [waitChain]) := by
      by_cases hto : x.2 - st.startTime > 20000000000
      · exact Or.inl ((generate_notFound g st x.1 x.2 hnf).1 hto)
      · exact Or.inr ((generate_notFound g st x.1 x.2 hnf).2.1 (not_lt.mp hto) hx)
    simp only [outputs, List.mem_cons] at hout
    rcases hout with hout | hout
    · rcases hg with hg | hg
      · left; rw [hout, hg]
      · right; rw [hout, hg]
    · have hst : (generate g st x.1 x.2).1 = st := by
        rcases hg with hg | hg <;> rw [hg]
      rw [hst] at hout
      exact ih st hnf (fun y hy => hab y (List.mem_cons_of_mem _ hy)) out hout

/-- C10: while Diablo has never been found alive, an invocation of the KillDiablo
generator yields no sub-action iff more than 20 seconds have elapsed since the
action was constructed; at an elapsed time of at most 20 s it yields the single
100 ms wait chain if Diablo is absent or has life at most 0, and the two
sub-actions StaticField cast on Diablo (5 repeats, Distance(3,8)) and kill action
if Diablo is present alive.  If Diablo never appears alive, every invocation
yields nothing or the wait chain alone, whose steps are waits: no attack step.
The kill action is the kill sequence whose selector returns the unit found for
Diablo, with no immunity list and no range option. -/
theorem diablo_detection_timeout (g : Env) :
    (∀ (st : State) (d : game.Data) (now : time.Time), st.diabloFound = false →
      ((generate g st d now).2 = [] ↔ now - st.startTime > 20 * 1000000000)
      ∧ (now - st.startTime ≤ 20 * 1000000000 →
          ((g.FindOne d.Monsters npc.ID.Diablo data.MonsterType.MonsterTypeNone).2 = false
            ∨ (g.FindOne d.Monsters npc.ID.Diablo data.MonsterType.MonsterTypeNone).1.Stats
                stat.ID.Life ≤ 0) →
          generate g st d now
            = (st, [action.Action.NewStepChain (fun _ => [step.Step.Wait 100000000]) false]))
      ∧ (now - st.startTime ≤ 20 * 1000000000 →
          (g.FindOne d.Monsters npc.ID.Diablo data.MonsterType.MonsterTypeNone).2 = true →
          0 < (g.FindOne d.Monsters npc.ID.Diablo data.MonsterType.MonsterTypeNone).1.Stats
                stat.ID.Life →
          generate g st d now
            = ({ st with diabloFound := true },
               [action.Action.NewStepChain
                  (fun _ =>
                    [step.Step.SecondaryAttack skill.ID.StaticField
                      (g.FindOne d.Monsters npc.ID.Diablo
                        data.MonsterType.MonsterTypeNone).1.UnitID
                      5 [step.AttackOption.Distance 3 8]])
                  false,
                killMonster g npc.ID.Diablo data.MonsterType.MonsterTypeNone])))
    ∧ (∀ (start : time.Time) (xs : List (game.Data × time.Time)),
        (∀ x ∈ xs,
          (g.FindOne x.1.Monsters npc.ID.Diablo data.MonsterType.MonsterTypeNone).2 = false
          ∨ (g.FindOne x.1.Monsters npc.ID.Diablo data.MonsterType.MonsterTypeNone).1.Stats
              stat.ID.Life ≤ 0) →
        ∀ out ∈ outputs g (init start) xs,
          out = []
          ∨ out = [action.Action.NewStepChain (fun _ => [step.Step.Wait 100000000]) false])
    ∧ killMonster g npc.ID.Diablo data.MonsterType.MonsterTypeNone
        = action.Action.KillMonsterSequence
            (fun d1 =>
              if (g.FindOne d1.Monsters npc.ID.Diablo data.MonsterType.MonsterTypeNone).2 = true then
                ((g.FindOne d1.Monsters npc.ID.Diablo data.MonsterType.MonsterTypeNone).1.UnitID, true)
              else (0, false))
            [] [] := by
  have hw : waitChain
      = action.Action.NewStepChain (fun _ => [step.Step.Wait 100000000]) false := by
    unfold waitChain
    norm_num [time.Millisecond]
  have h20 : (20 : Int) * 1000000000 = 20000000000 := by norm_num
  refine ⟨?_, ?_, killMonster_eq g _ _⟩
  · intro st d now hnf
    rw [h20]
    obtain ⟨ha, hb, hc⟩ := generate_notFound g st d now hnf
    refine ⟨?_, ?_, ?_⟩
    · constructor
      · intro hempty
        by_contra hto
        have hle := not_lt.mp hto
        by_cases hab :
            (g.FindOne d.Monsters npc.ID.Diablo data.MonsterType.MonsterTypeNone).2 = false
            ∨ (g.FindOne d.Monsters npc.ID.Diablo data.MonsterType.MonsterTypeNone).1.Stats
                stat.ID.Life ≤ 0
        · rw [hb hle hab] at hempty
          simp at hempty
        · have hf : (g.FindOne d.Monsters npc.ID.Diablo
              data.MonsterType.MonsterTypeNone).2 = true := by
            by_contra hf
            exact hab (Or.inl (by simpa using hf))
          have hl : 0 < (g.FindOne d.Monsters npc.ID.Diablo
              data.MonsterType.MonsterTypeNone).1.Stats stat.ID.Life := by
            by_contra hl
            exact hab (Or.inr (not_lt.mp hl))
          rw [hc hle hf hl] at hempty
          simp at hempty
      · intro hto
        rw [ha hto]
    · intro hle hab
      rw [hb hle hab, hw]
    · intro hle hf hl
      rw [hc hle hf hl]
      rfl
  · intro start xs hab out hout
    rw [← hw]
    exact outputs_absent g xs (init start) rfl hab out hout

/-- Witness for C10 in the reference environment: Diablo, unit 66 with life 500,
appears 19 seconds after construction; the StaticField cast and the kill action
are yielded. -/
theorem diablo_detection_timeout_witness :
    generate refEnv (init 63808000100000000000) (diabloData 500) 63808000119000000000
      = ({ startTime := 63808000100000000000, diabloFound := true },
         [action.Action.NewStepChain
            (fun _ =>
              [step.Step.SecondaryAttack skill.ID.StaticField 66 5
                [step.AttackOption.Distance 3 8]])
            false,
          killMonster refEnv npc.ID.Diablo data.MonsterType.MonsterTypeNone]) :=
  ((diablo_detection_timeout refEnv).1 (init 63808000100000000000) (diabloData 500)
    63808000119000000000
    rfl).2.2 (by decide) (by decide) (by decide)

end KillDiablo

end BlizzardSorceress

namespace BlizzardSorceress

namespace KillDiablo

theorem generate_found (g : Env) (st : State) (d : game.Data) (now : time.Time)
    (hf : st.diabloFound = true) :
    (((g.FindOne d.Monsters npc.ID.Diablo data.MonsterType.MonsterTypeNone).2 = false
        ∨ (g.FindOne d.Monsters npc.ID.Diablo data.MonsterType.MonsterTypeNone).1.Stats
            stat.ID.Life ≤ 0) →
      generate g st d now = (st, []))
    ∧ ((g.FindOne d.Monsters npc.ID.Diablo data.MonsterType.MonsterTypeNone).2 = true →
        0 < (g.FindOne d.Monsters npc.ID.Diablo data.MonsterType.MonsterTypeNone).1.Stats
              stat.ID.Life →
        generate g st d now
          = (st,
             [staticFieldChain
                (g.FindOne d.Monsters npc.ID.Diablo data.MonsterType.MonsterTypeNone).1.UnitID,
              killMonster g npc.ID.Diablo data.MonsterType.MonsterTypeNone])) := by
  have hst : ({ st with diabloFound := true } : State) = st := by
    cases st
    simp only [State.mk.injEq, true_and]
    exact hf.symm
  constructor
  · intro hab
    have h2 : (!(g.FindOne d.Monsters npc.ID.Diablo data.MonsterType.MonsterTypeNone).2
        || decide ((g.FindOne d.Monsters npc.ID.Diablo
            data.MonsterType.MonsterTypeNone).1.Stats stat.ID.Life ≤ 0)) = true := by
      rcases hab with hab | hab
      · simp [hab]
      · simp [hab]
    simp only [generate, hf, h2, Bool.not_true, Bool.and_false, Bool.false_eq_true, if_false,
      if_true]
  · intro hfound hl
    have h2 : (!(g.FindOne d.Monsters npc.ID.Diablo data.MonsterType.MonsterTypeNone).2
        || decide ((g.FindOne d.Monsters npc.ID.Diablo
            data.MonsterType.MonsterTypeNone).1.Stats stat.ID.Life ≤ 0)) = false := by
      simp [hfound, hl]
    simp only [generate, hf, h2, Bool.not_true, Bool.and_false, Bool.false_eq_true, if_false]
    rw [hst]

theorem generate_found_flag (g : Env) (st : State) (d : game.Data) (now : time.Time)
    (hf : st.diabloFound = true) : (generate g st d now).1.diabloFound = true := by
  by_cases hab :
      (g.FindOne d.Monsters npc.ID.Diablo data.MonsterType.MonsterTypeNone).2 = false
      ∨ (g.FindOne d.Monsters npc.ID.Diablo data.MonsterType.MonsterTypeNone).1.Stats
          stat.ID.Life ≤ 0
  · rw [(generate_found g st d now hf).1 hab]; exact hf
  · have h1 : (g.FindOne d.Monsters npc.ID.Diablo
        data.MonsterType.MonsterTypeNone).2 = true := by
      by_contra h
      exact hab (Or.inl (by simpa using h))
    have h2 : 0 < (g.FindOne d.Monsters npc.ID.Diablo
        data.MonsterType.MonsterTypeNone).1.Stats stat.ID.Life := by
      by_contra h
      exact hab (Or.inr (not_lt.mp h))
    rw [(generate_found g st d now hf).2 h1 h2]; exact hf

theorem runState_found (g : Env) :
    ∀ (xs : List (game.Data × time.Time)) (st : State), st.diabloFound = true →
      (runState g st xs).diabloFound = true := by
  intro xs
  induction xs with
  | nil => intro st h; exact h
  | cons x xs ih =>
    intro st h
    exact ih _ (generate_found_flag g st x.1 x.2 h)

/-- C11: an invocation that finds Diablo alive (before the timeout, or with the flag
already set) sets the found flag, and the flag is never cleared by any later
invocation.  With the flag set, an invocation at any elapsed time yields no
sub-action if Diablo is absent or has life at most 0, and the StaticField cast
followed by the kill action if Diablo is present alive; it never yields the wait
chain.  The kill action is the kill sequence whose selector returns the unit found
for Diablo, with no immunity list and no range option. -/
theorem diablo_found_once (g : Env) :
    (∀ (st : State) (d : game.Data) (now : time.Time),
        (st.diabloFound = true ∨ now - st.startTime ≤ 20 * 1000000000) →
        (g.FindOne d.Monsters npc.ID.Diablo data.MonsterType.MonsterTypeNone).2 = true →
        0 < (g.FindOne d.Monsters npc.ID.Diablo data.MonsterType.MonsterTypeNone).1.Stats
              stat.ID.Life →
        ∀ xs : List (game.Data × time.Time),
          (runState g (generate g st d now).1 xs).diabloFound = true)
    ∧ (∀ (st : State) (d : game.Data) (now : time.Time), st.diabloFound = true →
        (((g.FindOne d.Monsters npc.ID.Diablo data.MonsterType.MonsterTypeNone).2 = false
            ∨ (g.FindOne d.Monsters npc.ID.Diablo data.MonsterType.MonsterTypeNone).1.Stats
                stat.ID.Life ≤ 0) →
          generate g st d now = (st, []))
        ∧ ((g.FindOne d.Monsters npc.ID.Diablo data.MonsterType.MonsterTypeNone).2 = true →
            0 < (g.FindOne d.Monsters npc.ID.Diablo data.MonsterType.MonsterTypeNone).1.Stats
                  stat.ID.Life →
            generate g st d now
              = (st,
                 [action.Action.NewStepChain
                    (fun _ =>
                      [step.Step.SecondaryAttack skill.ID.StaticField
                        (g.FindOne d.Monsters npc.ID.Diablo
                          data.MonsterType.MonsterTypeNone).1.UnitID
                        5 [step.AttackOption.Distance 3 8]])
                    false,
                  killMonster g npc.ID.Diablo data.MonsterType.MonsterTypeNone]))
        ∧ (∀ a ∈ (generate g st d now).2,
            a ≠ action.Action.NewStepChain (fun _ => [step.Step.Wait 100000000]) false))
    ∧ killMonster g npc.ID.Diablo data.MonsterType.MonsterTypeNone
        = action.Action.KillMonsterSequence
            (fun d1 =>
              if (g.FindOne d1.Monsters npc.ID.Diablo data.MonsterType.MonsterTypeNone).2 = true then
                ((g.FindOne d1.Monsters npc.ID.Diablo data.MonsterType.MonsterTypeNone).1.UnitID, true)
              else (0, false))
            [] [] := by
  have h20 : (20 : Int) * 1000000000 = 20000000000 := by norm_num
  refine ⟨?_, ?_, killMonster_eq g _ _⟩
  · intro st d now hor hfound hl xs
    apply runState_found
    cases hfl : st.diabloFound with
    | true => exact generate_found_flag g st d now hfl
    | false =>
      rcases hor with hor | hor
      · rw [hfl] at hor; cases hor
      · rw [h20] at hor
        rw [(generate_notFound g st d now hfl).2.2 hor hfound hl]
  · intro st d now hf
    obtain ⟨ha, hb⟩ := generate_found g st d now hf
    refine ⟨ha, fun h1 h2 => by rw [hb h1 h2]; rfl, ?_⟩
    intro a hmem
    by_cases hab :
        (g.FindOne d.Monsters npc.ID.Diablo data.MonsterType.MonsterTypeNone).2 = false
        ∨ (g.FindOne d.Monsters npc.ID.Diablo data.MonsterType.MonsterTypeNone).1.Stats
            stat.ID.Life ≤ 0
    · rw [ha hab] at hmem
      simp at hmem
    · have h1 : (g.FindOne d.Monsters npc.ID.Diablo
          data.MonsterType.MonsterTypeNone).2 = true := by
        by_contra h
        exact hab (Or.inl (by simpa using h))
      have h2 : 0 < (g.FindOne d.Monsters npc.ID.Diablo
          data.MonsterType.MonsterTypeNone).1.Stats stat.ID.Life := by
        by_contra h
        exact hab (Or.inr (not_lt.mp h))
      rw [hb h1 h2] at hmem
      simp only [List.mem_cons, List.mem_singleton, List.not_mem_nil, or_false] at hmem
      rcases hmem with hmem | hmem
      · rw [hmem]
        intro heq
        unfold staticFieldChain at heq
        simp only [action.Action.NewStepChain.injEq, and_true] at heq
        have := congrFun heq ⟨[], [], []⟩
        simp at this
      · rw [hmem]
        intro heq
        unfold killMonster at heq
        cases heq

end KillDiablo

end BlizzardSorceress

namespace BlizzardSorceress

namespace KillDiablo

/-- Witness for C11 in the reference environment: with the flag set, 100 seconds
after construction and Diablo at life 0, nothing is yielded. -/
theorem diablo_found_once_witness :
    generate refEnv { startTime := 63808000100000000000, diabloFound := true }
        (diabloData 0) 63808000200000000000
      = ({ startTime := 63808000100000000000, diabloFound := true }, []) :=
  ((diablo_found_once refEnv).2.1 { startTime := 63808000100000000000, diabloFound := true }
    (diabloData 0) 63808000200000000000 rfl).1 (Or.inr (by decide))

end KillDiablo

/-! ### The repeated-phase kill -/

namespace KillRepeatedly

/-- C12: for every snapshot, NPC and second parameter, the `KillRepeatedly`
generator yields the same five sub-actions: one StaticField cast chain followed by
four kill actions for that NPC, whether or not the NPC is in the snapshot.  The
cast chain yields one StaticField step on the unit found by name (the zero unit
when none is found) whose repeat count is the second parameter and whose range is
Distance(5,8).  Each kill action is the kill sequence whose selector returns the
unit found for that NPC (type none) and reports no target when there is none, with
no immunity list and no range option: invoked on a snapshot without the NPC it
yields nothing, and with the NPC found, validation passed and no area-clear cast
it yields one attack on that unit at Distance(25,30).  `KillIzual` passes 7 and
`KillBaal` 5. -/
theorem killRepeatedly_shape (g : Env) (npcID : npc.ID) (n : Int) (d : game.Data) :
    generate g npcID n d
      = [action.Action.NewStepChain
           (fun d1 =>
             [step.Step.SecondaryAttack skill.ID.StaticField
               (g.FindOne d1.Monsters npcID data.MonsterType.MonsterTypeNone).1.UnitID n
               [step.AttackOption.Distance 5 8]])
           false]
        ++ List.replicate 4
            (action.Action.KillMonsterSequence
              (fun d1 =>
                if (g.FindOne d1.Monsters npcID data.MonsterType.MonsterTypeNone).2 = true then
                  ((g.FindOne d1.Monsters npcID data.MonsterType.MonsterTypeNone).1.UnitID, true)
                else (0, false))
              [] [])
    ∧ generate g npcID n d
      = [action.Action.NewStepChain
           (fun d1 =>
             [step.Step.SecondaryAttack skill.ID.StaticField
               (g.FindOne d1.Monsters npcID data.MonsterType.MonsterTypeNone).1.UnitID n
               [step.AttackOption.Distance 5 8]])
           false]
        ++ List.replicate 4 (killMonster g npcID data.MonsterType.MonsterTypeNone)
    ∧ (generate g npcID n d).length = 5
    ∧ (∀ d2 : game.Data, generate g npcID n d2 = generate g npcID n d)
    ∧ KillIzual g d = generate g npc.ID.Izual 7 d
    ∧ KillBaal g d = generate g npc.ID.BaalCrab 5 d
    ∧ (∀ (a : action.Action) (t : KillMonsterSequence.Tick),
        a ∈ (generate g npcID n d).take 1 →
        firstSteps g a t
          = [step.Step.SecondaryAttack skill.ID.StaticField
              (g.FindOne t.d.Monsters npcID data.MonsterType.MonsterTypeNone).1.UnitID n
              [step.AttackOption.Distance 5 8]])
    ∧ (∀ (a : action.Action) (t : KillMonsterSequence.Tick),
        a ∈ (generate g npcID n d).drop 1 →
        ((g.FindOne t.d.Monsters npcID data.MonsterType.MonsterTypeNone).2 = false →
          firstSteps g a t = [])
        ∧ ((g.FindOne t.d.Monsters npcID data.MonsterType.MonsterTypeNone).2 = true →
            g.preBattleChecks t.d
              (g.FindOne t.d.Monsters npcID data.MonsterType.MonsterTypeNone).1.UnitID []
              = true →
            (g.HasState t.d.PlayerStates state.State.Cooldown = true
              ∨ ∀ x ∈ g.Enemies t.d.Monsters, 4 ≤ g.DistanceFromMe t.d x.Position) →
            firstSteps g a t
              = [if g.HasState t.d.PlayerStates state.State.Cooldown = true then
                   step.Step.PrimaryAttack
                     (g.FindOne t.d.Monsters npcID data.MonsterType.MonsterTypeNone).1.UnitID
                     2 true [step.AttackOption.Distance 25 30]
                 else
                   step.Step.SecondaryAttack skill.ID.Blizzard
                     (g.FindOne t.d.Monsters npcID data.MonsterType.MonsterTypeNone).1.UnitID
                     1 [step.AttackOption.Distance 25 30]])) := by
  have hgen : generate g npcID n d
      = [staticFieldChain g npcID n]
        ++ List.replicate 4 (killMonster g npcID data.MonsterType.MonsterTypeNone) := rfl
  refine ⟨?_, rfl, rfl, fun _ => rfl, rfl, rfl, ?_, ?_⟩
  · rw [hgen, killMonster_eq]
    rfl
  · intro a t ha
    have hmem : a ∈ [staticFieldChain g npcID n] := by
      rw [hgen] at ha
      simpa using ha
    rw [List.mem_singleton] at hmem
    rw [hmem]
    rfl
  · intro a t ha
    have hmem : a ∈ List.replicate 4 (killMonster g npcID data.MonsterType.MonsterTypeNone) := by
      rw [hgen] at ha
      simpa using ha
    rw [List.eq_of_mem_replicate hmem]
    exact killMonster_firstSteps g npcID t

/-- Witness for C12 in the reference environment: with Izual, unit 77, alive at
distance 20, a kill action yielded by `KillIzual` attacks unit 77 with Blizzard at
Distance(25,30). -/
theorem killRepeatedly_shape_witness :
    firstSteps refEnv (killMonster refEnv npc.ID.Izual data.MonsterType.MonsterTypeNone)
        (sampleTick [sampleMonster 77 npc.ID.Izual 20 100 0] false 100)
      = [step.Step.SecondaryAttack skill.ID.Blizzard 77 1 [step.AttackOption.Distance 25 30]] :=
  ((killRepeatedly_shape refEnv npc.ID.Izual 7 ⟨[], [], []⟩).2.2.2.2.2.2.2
    (killMonster refEnv npc.ID.Izual data.MonsterType.MonsterTypeNone)
    (sampleTick [sampleMonster 77 npc.ID.Izual 20 100 0] false 100)
    (List.mem_cons_self _ _)).2 (by decide) (by decide) (Or.inr (by decide))

end KillRepeatedly

/-! ### The buff list -/

theorem findActiveArmorSkill_eq (g : Env) (d : game.Data) :
    findActiveArmorSkill g d
      = if bound g d skill.ID.ChillingArmor then skill.ID.ChillingArmor
        else if bound g d skill.ID.ShiverArmor then skill.ID.ShiverArmor
        else if bound g d skill.ID.FrozenArmor then skill.ID.FrozenArmor
        else skill.ID.IDNone := by
  unfold findActiveArmorSkill
  rcases Bool.eq_false_or_eq_true (bound g d skill.ID.ChillingArmor) with h1 | h1 <;>
  rcases Bool.eq_false_or_eq_true (bound g d skill.ID.ShiverArmor) with h2 | h2 <;>
  rcases Bool.eq_false_or_eq_true (bound g d skill.ID.FrozenArmor) with h3 | h3 <;>
  simp [List.find?_cons, h1, h2, h3]

theorem buffSkills_eq (g : Env) (d : game.Data) :
    BuffSkills g d
      = (if bound g d skill.ID.EnergyShield then [skill.ID.EnergyShield] else [])
        ++ (if bound g d skill.ID.ChillingArmor then [skill.ID.ChillingArmor]
            else if bound g d skill.ID.ShiverArmor then [skill.ID.ShiverArmor]
            else if bound g d skill.ID.FrozenArmor then [skill.ID.FrozenArmor]
            else []) := by
  unfold BuffSkills
  rw [findActiveArmorSkill_eq]
  rcases Bool.eq_false_or_eq_true (bound g d skill.ID.ChillingArmor) with h1 | h1 <;>
  rcases Bool.eq_false_or_eq_true (bound g d skill.ID.ShiverArmor) with h2 | h2 <;>
  rcases Bool.eq_false_or_eq_true (bound g d skill.ID.FrozenArmor) with h3 | h3 <;>
  simp [h1, h2, h3]

/-- C14: `BuffSkills` returns EnergyShield (iff it is bound) followed by at most one
armor skill, the first bound one in the order ChillingArmor, ShiverArmor,
FrozenArmor (none if no armor is bound); every returned skill is bound, and the
list has at most 2 entries and no duplicates. -/
theorem buffSkills_spec (g : Env) (d : game.Data) :
    BuffSkills g d
      = (if bound g d skill.ID.EnergyShield then [skill.ID.EnergyShield] else [])
        ++ (if bound g d skill.ID.ChillingArmor then [skill.ID.ChillingArmor]
            else if bound g d skill.ID.ShiverArmor then [skill.ID.ShiverArmor]
            else if bound g d skill.ID.FrozenArmor then [skill.ID.FrozenArmor]
            else [])
    ∧ (∀ s ∈ BuffSkills g d, bound g d s = true)
    ∧ (skill.ID.EnergyShield ∈ BuffSkills g d ↔ bound g d skill.ID.EnergyShield = true)
    ∧ ((BuffSkills g d).filter isArmor).length ≤ 1
    ∧ (BuffSkills g d).length ≤ 2
    ∧ (BuffSkills g d).Nodup := by
  refine ⟨buffSkills_eq g d, ?_, ?_, ?_, ?_, ?_⟩ <;> rw [buffSkills_eq] <;>
  rcases Bool.eq_false_or_eq_true (bound g d skill.ID.EnergyShield) with h0 | h0 <;>
  rcases Bool.eq_false_or_eq_true (bound g d skill.ID.ChillingArmor) with h1 | h1 <;>
  rcases Bool.eq_false_or_eq_true (bound g d skill.ID.ShiverArmor) with h2 | h2 <;>
  rcases Bool.eq_false_or_eq_true (bound g d skill.ID.FrozenArmor) with h3 | h3 <;>
  simp [h0, h1, h2, h3, isArmor]

end BlizzardSorceress

namespace BlizzardSorceress

/-! ### The audit and the buff list -/

theorem shiverArmor_reported_iff (g : Env) (d : game.Data) :
    skill.ID.ShiverArmor ∈ CheckKeyBindings g d ↔
      (bound g d skill.ID.FrozenArmor = false ∧ bound g d skill.ID.ChillingArmor = false
        ∧ bound g d skill.ID.ShiverArmor = false) := by
  simp only [CheckKeyBindings, requiredKeybindings, hasAnyArmorKeyBinding,
    List.foldl_cons, List.foldl_nil, List.any_cons, List.any_nil]
  rcases Bool.eq_false_or_eq_true (bound g d skill.ID.Blizzard) with h1 | h1 <;>
  rcases Bool.eq_false_or_eq_true (bound g d skill.ID.Teleport) with h2 | h2 <;>
  rcases Bool.eq_false_or_eq_true (bound g d skill.ID.TomeOfTownPortal) with h3 | h3 <;>
  rcases Bool.eq_false_or_eq_true (bound g d skill.ID.ShiverArmor) with h4 | h4 <;>
  rcases Bool.eq_false_or_eq_true (bound g d skill.ID.StaticField) with h5 | h5 <;>
  rcases Bool.eq_false_or_eq_true (bound g d skill.ID.FrozenArmor) with h6 | h6 <;>
  rcases Bool.eq_false_or_eq_true (bound g d skill.ID.ChillingArmor) with h7 | h7 <;>
  simp [h1, h2, h3, h4, h5, h6, h7]

/-- C19: the audit and the buff list agree on the armor family: `CheckKeyBindings`
does not report ShiverArmor iff `BuffSkills` contains one of ChillingArmor,
ShiverArmor, FrozenArmor; equivalently `hasAnyArmorKeyBinding` is true iff
`findActiveArmorSkill` differs from `IDNone`. -/
theorem armor_audit_agrees_with_buffs (g : Env) (d : game.Data) :
    (skill.ID.ShiverArmor ∉ CheckKeyBindings g d ↔
        ∃ a ∈ BuffSkills g d,
          (a = skill.ID.ChillingArmor ∨ a = skill.ID.ShiverArmor ∨ a = skill.ID.FrozenArmor))
    ∧ (hasAnyArmorKeyBinding g d = true ↔ findActiveArmorSkill g d ≠ skill.ID.IDNone)
    ∧ (skill.ID.ShiverArmor ∉ CheckKeyBindings g d ↔ hasAnyArmorKeyBinding g d = true) := by
  refine ⟨?_, ?_, ?_⟩
  · rw [shiverArmor_reported_iff, buffSkills_eq]
    rcases Bool.eq_false_or_eq_true (bound g d skill.ID.EnergyShield) with h0 | h0 <;>
    rcases Bool.eq_false_or_eq_true (bound g d skill.ID.ChillingArmor) with h1 | h1 <;>
    rcases Bool.eq_false_or_eq_true (bound g d skill.ID.ShiverArmor) with h2 | h2 <;>
    rcases Bool.eq_false_or_eq_true (bound g d skill.ID.FrozenArmor) with h3 | h3 <;>
    simp [h0, h1, h2, h3]
  · rw [findActiveArmorSkill_eq]
    simp only [hasAnyArmorKeyBinding, List.any_cons, List.any_nil]
    rcases Bool.eq_false_or_eq_true (bound g d skill.ID.ChillingArmor) with h1 | h1 <;>
    rcases Bool.eq_false_or_eq_true (bound g d skill.ID.ShiverArmor) with h2 | h2 <;>
    rcases Bool.eq_false_or_eq_true (bound g d skill.ID.FrozenArmor) with h3 | h3 <;>
    simp [h1, h2, h3]
  · rw [shiverArmor_reported_iff]
    simp only [hasAnyArmorKeyBinding, List.any_cons, List.any_nil]
    rcases Bool.eq_false_or_eq_true (bound g d skill.ID.ChillingArmor) with h1 | h1 <;>
    rcases Bool.eq_false_or_eq_true (bound g d skill.ID.ShiverArmor) with h2 | h2 <;>
    rcases Bool.eq_false_or_eq_true (bound g d skill.ID.FrozenArmor) with h3 | h3 <;>
    simp [h1, h2, h3]

end BlizzardSorceress

/-! ### Giving up, area-clear casts and the reduced range over a run -/

namespace BlizzardSorceress

namespace KillMonsterSequence

theorem loops_le_generate (g : Env) (sel : game.Data → data.UnitID × Bool)
    (skip : List stat.Resist) (st : State) (t : Tick)
    (h : st.completedAttackLoops ≤ 40) :
    (generate g sel skip st t).1.completedAttackLoops ≤ 40 := by
  have hsw : (afterSwitch st (sel t.d).1).completedAttackLoops ≤ 40 := by
    rw [afterSwitch_loops]
    split
    · exact h
    · norm_num
  rcases generate_cases g sel skip st t with c | c | c | c | c
  · rw [c.2]; exact h
  · rw [c.2]; exact hsw
  · rw [c.2.2, afterDefault_loops]; exact hsw
  · obtain ⟨m, _, _, hg⟩ := c
    rw [hg]
    simpa using hsw
  · obtain ⟨_, hlt, hg⟩ := c
    rw [hg]
    have hlt2 : (afterSwitch st (sel t.d).1).completedAttackLoops < 40 := hlt
    simp only [afterAttack_loops, afterReduce_loops, afterDefault_loops]
    linarith

theorem loops_le_runState (g : Env) (sel : game.Data → data.UnitID × Bool)
    (skip : List stat.Resist) :
    ∀ (ts : List Tick) (st : State), st.completedAttackLoops ≤ 40 →
      (runState g sel skip st ts).completedAttackLoops ≤ 40 := by
  intro ts
  induction ts with
  | nil => intro st h; exact h
  | cons t ts ih => intro st h; exact ih _ (loops_le_generate g sel skip st t h)

/-- Once the counter has reached the cap for the recorded target, invocations that
select that target (or none) yield nothing and leave both untouched. -/
theorem capped_outputs (g : Env) (sel : game.Data → data.UnitID × Bool)
    (skip : List stat.Resist) (T : data.UnitID) :
    ∀ (ts : List Tick) (st : State), st.previousUnitID = T → 40 ≤ st.completedAttackLoops →
      (∀ t ∈ ts, (sel t.d).2 = true → (sel t.d).1 = T) →
      ∀ o ∈ outputs g sel skip st ts, o = [] := by
  intro ts
  induction ts with
  | nil => intro st _ _ _ o ho; simp [outputs] at ho
  | cons t ts ih =>
    intro st hprev hcap hsel o ho
    have hsel2 : ∀ x ∈ ts, (sel x.d).2 = true → (sel x.d).1 = T :=
      fun x hx => hsel x (List.mem_cons_of_mem _ hx)
    have key : (generate g sel skip st t).2 = []
        ∧ (generate g sel skip st t).1.previousUnitID = T
        ∧ 40 ≤ (generate g sel skip st t).1.completedAttackLoops := by
      by_cases hf : (sel t.d).2 = false
      · rw [generate_noTarget g sel skip st t hf]
        exact ⟨rfl, hprev, hcap⟩
      · have hft : (sel t.d).2 = true := by simpa using hf
        have hT : (sel t.d).1 = T := hsel t (List.mem_cons_self _ _) hft
        have hsw : afterSwitch st (sel t.d).1 = st := afterSwitch_eq st _ (by rw [hT, hprev])
        by_cases hv : g.preBattleChecks t.d (sel t.d).1 skip = false
        · rw [generate_validationFailed g sel skip st t hft hv, hsw]
          exact ⟨rfl, hprev, hcap⟩
        · have hvt : g.preBattleChecks t.d (sel t.d).1 skip = true := by simpa using hv
          have hc : sorceressMaxAttacksLoop ≤ (afterSwitch st (sel t.d).1).completedAttackLoops := by
            rw [hsw]; exact hcap
          rw [generate_capReached g sel skip st t hft hvt hc, hsw]
          exact ⟨rfl, by simpa using hprev, by simpa using hcap⟩
    simp only [outputs, List.mem_cons] at ho
    rcases ho with ho | ho
    · rw [ho]; exact key.1
    · exact ih _ key.2.1 key.2.2 hsel2 o ho

/-- C16: giving up is absorbing for a stable target.  Once an invocation has
yielded nothing because the counter, for the selected target T, had reached 40,
every later invocation yields nothing as long as the selector returns T (or no
target), whatever the snapshot, the clock and the Cooldown state; and in every
state the generator can reach the counter is at most 40. -/
theorem giveUp_absorbing (g : Env) (sel : game.Data → data.UnitID × Bool)
    (skip : List stat.Resist) :
    (∀ (st : State) (t : Tick) (ts : List Tick),
        path g sel skip st t = Path.capReached →
        (∀ x ∈ ts, (sel x.d).2 = true → (sel x.d).1 = (sel t.d).1) →
        (generate g sel skip st t).2 = []
        ∧ ∀ o ∈ outputs g sel skip (generate g sel skip st t).1 ts, o = [])
    ∧ (∀ (opts : List step.AttackOption) (st : State),
        Reachable g sel skip opts st → st.completedAttackLoops ≤ 40) := by
  refine ⟨?_, ?_⟩
  · intro st t ts hp hsel
    rcases generate_cases g sel skip st t with c | c | c | c | c
    · rw [c.1] at hp; cases hp
    · rw [c.1] at hp; cases hp
    · obtain ⟨_, hc, hg⟩ := c
      have hc40 : 40 ≤ (afterSwitch st (sel t.d).1).completedAttackLoops := hc
      have hprev : st.previousUnitID = (sel t.d).1 := by
        by_contra hne
        rw [afterSwitch_loops, if_neg hne] at hc40
        norm_num at hc40
      refine ⟨by rw [hg], ?_⟩
      rw [hg]
      exact capped_outputs g sel skip (sel t.d).1 ts _ (by simpa using hprev)
        (by simpa using hc40) hsel
    · obtain ⟨m, hp2, _, _⟩ := c
      rw [hp2] at hp; cases hp
    · rw [c.1] at hp; cases hp
  · intro opts st hr
    obtain ⟨ts, rfl⟩ := hr
    exact loops_le_runState g sel skip ts (init opts) (by simp [init])

set_option maxRecDepth 100000 in
/-- Witness for C16 in the reference environment: after 40 normal attacks on the far
unit 7 the 41st invocation gives up, and the next invocation on unit 7 yields
nothing either. -/
theorem giveUp_absorbing_witness :
    (generate refEnv firstMonster [] (runState refEnv firstMonster [] (init []) (farTicks 40))
        (sampleTick [sampleMonster 7 (npc.ID.other 0) 20 100 0] false 200)).2 = []
    ∧ ∀ o ∈ outputs refEnv firstMonster []
        (generate refEnv firstMonster []
          (runState refEnv firstMonster [] (init []) (farTicks 40))
          (sampleTick [sampleMonster 7 (npc.ID.other 0) 20 100 0] false 200)).1
        [sampleTick [sampleMonster 7 (npc.ID.other 0) 2 100 0] true 300], o = [] :=
  (giveUp_absorbing refEnv firstMonster []).1
    (runState refEnv firstMonster [] (init []) (farTicks 40))
    (sampleTick [sampleMonster 7 (npc.ID.other 0) 20 100 0] false 200)
    [sampleTick [sampleMonster 7 (npc.ID.other 0) 2 100 0] true 300]
    (by decide) (by decide)

end KillMonsterSequence

end BlizzardSorceress

namespace BlizzardSorceress

namespace KillMonsterSequence

theorem closeRun_length : ∀ (n : Nat) (s : Int), (closeRun n s).length = n := by
  intro n
  induction n with
  | zero => intro s; rfl
  | succ n ih => intro s; simp [closeRun, ih]

theorem closeRun_data : ∀ (n : Nat) (s : Int), ∀ t ∈ closeRun n s,
    t.d = ⟨[], [], [sampleMonster 7 (npc.ID.other 0) 2 100 0]⟩ := by
  intro n
  induction n with
  | zero => intro s t ht; simp [closeRun] at ht
  | succ n ih =>
    intro s t ht
    simp only [closeRun, List.mem_cons] at ht
    rcases ht with ht | ht
    · rw [ht]; rfl
    · exact ih _ t ht

/-- One tick of `closeRun` from a state with counter 0 whose last area cast is more
than 4 seconds old: the area-clear cast fires. -/
theorem closeTick_generate (st : State) (s : Int)
    (h0 : st.completedAttackLoops = 0)
    (hel : st.previousSelfBlizzard + 4000000000 < (63808000000 + s) * 1000000000) :
    generate refEnv firstMonster [] st
        (sampleTick [sampleMonster 7 (npc.ID.other 0) 2 100 0] false s)
      = ({ afterDefault (afterSwitch st 7) with
            previousSelfBlizzard := (63808000000 + s) * 1000000000 },
         [step.Step.SecondaryAttack skill.ID.Blizzard 7 1 (afterDefault (afterSwitch st 7)).opts]) := by
  have hlt : (afterSwitch st 7).completedAttackLoops < sorceressMaxAttacksLoop := by
    rw [afterSwitch_loops, h0]
    simp [sorceressMaxAttacksLoop]
  have hn : nearby refEnv (afterDefault (afterSwitch st 7))
      (sampleTick [sampleMonster 7 (npc.ID.other 0) 2 100 0] false s)
      = some (sampleMonster 7 (npc.ID.other 0) 2 100 0) := by
    apply nearby_eq_some_of refEnv _ _ _ [] []
    · simp only [afterDefault_blizzard, afterSwitch_blizzard]
      have : (sampleTick [sampleMonster 7 (npc.ID.other 0) 2 100 0] false s).sinceNow
          = (63808000000 + s) * 1000000000 := rfl
      rw [this]
      linarith
    · rfl
    · rfl
    · intro x hx; simp at hx
    · show refEnv.DistanceFromMe ⟨[], [], [sampleMonster 7 (npc.ID.other 0) 2 100 0]⟩
          (sampleMonster 7 (npc.ID.other 0) 2 100 0).Position < 4
      decide
  exact generate_areaClear refEnv firstMonster [] st
    (sampleTick [sampleMonster 7 (npc.ID.other 0) 2 100 0] false s)
    (sampleMonster 7 (npc.ID.other 0) 2 100 0) rfl rfl hlt hn

theorem closeRun_outputs : ∀ (n : Nat) (s : Int) (st : State),
    st.completedAttackLoops = 0 →
    st.previousSelfBlizzard + 4000000000 < (63808000000 + s) * 1000000000 →
    (∀ o ∈ outputs refEnv firstMonster [] st (closeRun n s), o ≠ [])
    ∧ (runState refEnv firstMonster [] st (closeRun n s)).completedAttackLoops = 0 := by
  intro n
  induction n with
  | zero =>
    intro s st h0 _
    exact ⟨fun o ho => by simp [closeRun, outputs] at ho, h0⟩
  | succ n ih =>
    intro s st h0 hel
    have hg := closeTick_generate st s h0 hel
    have h0b : (generate refEnv firstMonster [] st
        (sampleTick [sampleMonster 7 (npc.ID.other 0) 2 100 0] false s)).1.completedAttackLoops
        = 0 := by
      rw [hg]
      simp [afterSwitch_loops, h0]
    have helb : (generate refEnv firstMonster [] st
        (sampleTick [sampleMonster 7 (npc.ID.other 0) 2 100 0] false s)).1.previousSelfBlizzard
        + 4000000000 < (63808000000 + (s + 5)) * 1000000000 := by
      rw [hg]
      show (63808000000 + s) * 1000000000 + 4000000000 < (63808000000 + (s + 5)) * 1000000000
      linarith
    obtain ⟨ih1, ih2⟩ := ih (s + 5) _ h0b helb
    refine ⟨?_, ?_⟩
    · intro o ho
      simp only [closeRun, outputs, List.mem_cons] at ho
      rcases ho with ho | ho
      · rw [ho, hg]; simp
      · exact ih1 o ho
    · simpa [closeRun, runState] using ih2

/-- C17: an invocation that emits the area-clear cast does not consume attack
budget: its one step is the Blizzard cast, the counter keeps the value it has
after the target-switch test (it is not incremented), the recorded previous target
is unchanged, the area-cast timestamp is set to the clock reading and the range
options only receive the default.  Hence the non-empty ticks against one stable
target are not bounded by the cap: for every n there is a run of n invocations,
all selecting unit 7 and passing validation, that all yield a step. -/
theorem areaClear_keeps_budget (g : Env) (sel : game.Data → data.UnitID × Bool)
    (skip : List stat.Resist) :
    (∀ (st : State) (t : Tick) (id : data.UnitID),
        path g sel skip st t = Path.areaClear id →
        (generate g sel skip st t).2
          = [step.Step.SecondaryAttack skill.ID.Blizzard id 1
              (if st.opts.length = 0 then [step.AttackOption.Distance 25 30] else st.opts)]
        ∧ (generate g sel skip st t).1.completedAttackLoops
            = (if st.previousUnitID = (sel t.d).1 then st.completedAttackLoops else 0)
        ∧ (generate g sel skip st t).1.previousUnitID = st.previousUnitID
        ∧ (generate g sel skip st t).1.previousSelfBlizzard = t.now
        ∧ (generate g sel skip st t).1.opts
            = (if st.opts.length = 0 then [step.AttackOption.Distance 25 30] else st.opts))
    ∧ (∀ n : Nat,
        (closeRun n 100).length = n
        ∧ (∀ t ∈ closeRun n 100, firstMonster t.d = (7, true))
        ∧ (∀ t ∈ closeRun n 100, refEnv.preBattleChecks t.d 7 [] = true)
        ∧ (∀ o ∈ outputs refEnv firstMonster [] (init []) (closeRun n 100), o ≠ [])
        ∧ (runState refEnv firstMonster [] (init []) (closeRun n 100)).completedAttackLoops
            = 0) := by
  refine ⟨?_, ?_⟩
  · intro st t id hp
    have hopts : (afterDefault (afterSwitch st (sel t.d).1)).opts
        = if st.opts.length = 0 then [step.AttackOption.Distance 25 30] else st.opts := by
      rw [afterDefault_opts, afterSwitch_opts]
      simp [effectiveOpts, sorceressMinDistance, sorceressMaxDistance]
    rcases generate_cases g sel skip st t with c | c | c | c | c
    · rw [c.1] at hp; cases hp
    · rw [c.1] at hp; cases hp
    · rw [c.1] at hp; cases hp
    · obtain ⟨m, hp2, _, hg⟩ := c
      rw [hp2] at hp
      have hid : m.UnitID = id := by
        simpa using hp
      rw [hg, hid, hopts]
      refine ⟨rfl, ?_, ?_, rfl, rfl⟩
      · simp [afterSwitch_loops]
      · simp
    · rw [c.1] at hp; cases hp
  · intro n
    have hrun := closeRun_outputs n 100 (init []) rfl (by simp [init])
    refine ⟨closeRun_length n 100, ?_, ?_, hrun.1, hrun.2⟩
    · intro t ht
      rw [closeRun_data n 100 t ht]
      rfl
    · intro t ht
      rw [closeRun_data n 100 t ht]
      rfl

/-- Witness for C17 in the reference environment: on a fresh generator the cast on
the near unit 9 leaves the counter at 0 and the previous target at 0. -/
theorem areaClear_keeps_budget_witness :
    (generate refEnv firstMonster [] (init [])
        (sampleTick [sampleMonster 7 (npc.ID.other 0) 20 100 0,
                     sampleMonster 9 (npc.ID.other 1) 2 100 0] false 100)).1.completedAttackLoops
      = (if (init []).previousUnitID
            = (firstMonster (sampleTick [sampleMonster 7 (npc.ID.other 0) 20 100 0,
                     sampleMonster 9 (npc.ID.other 1) 2 100 0] false 100).d).1
          then (init []).completedAttackLoops else 0) :=
  ((areaClear_keeps_budget refEnv firstMonster []).1 (init [])
    (sampleTick [sampleMonster 7 (npc.ID.other 0) 20 100 0,
                 sampleMonster 9 (npc.ID.other 1) 2 100 0] false 100) 9 (by decide)).2.1

end KillMonsterSequence

end BlizzardSorceress

namespace BlizzardSorceress

namespace KillMonsterSequence

theorem sticky_generate (g : Env) (sel : game.Data → data.UnitID × Bool)
    (skip : List stat.Resist) (st : State) (t : Tick)
    (h : st.opts = [step.AttackOption.Distance 1 5]) :
    (generate g sel skip st t).1.opts = [step.AttackOption.Distance 1 5]
    ∧ ∀ s ∈ (generate g sel skip st t).2, s.opts = [step.AttackOption.Distance 1 5] := by
  have hsw : (afterSwitch st (sel t.d).1).opts = [step.AttackOption.Distance 1 5] := by
    rw [afterSwitch_opts]; exact h
  have hdf : (afterDefault (afterSwitch st (sel t.d).1)).opts
      = [step.AttackOption.Distance 1 5] := by
    rw [afterDefault_of_opts _ hsw]; exact hsw
  have hrd : (afterReduce (afterDefault (afterSwitch st (sel t.d).1))).opts
      = [step.AttackOption.Distance 1 5] := by
    unfold afterReduce
    split
    · rfl
    · exact hdf
  rcases generate_cases g sel skip st t with c | c | c | c | c
  · rw [c.2]; exact ⟨h, fun s hs => by simp at hs⟩
  · rw [c.2]; exact ⟨hsw, fun s hs => by simp at hs⟩
  · rw [c.2.2]; exact ⟨hdf, fun s hs => by simp at hs⟩
  · obtain ⟨m, _, _, hg⟩ := c
    rw [hg]
    refine ⟨hdf, fun s hs => ?_⟩
    simp only [List.mem_singleton] at hs
    rw [hs]
    exact hdf
  · rw [c.2.2]
    refine ⟨by simpa using hrd, fun s hs => ?_⟩
    simp only [List.mem_singleton] at hs
    rw [hs, hrd]
    unfold attackStep
    split <;> rfl

theorem sticky_run (g : Env) (sel : game.Data → data.UnitID × Bool)
    (skip : List stat.Resist) :
    ∀ (ts : List Tick) (st : State), st.opts = [step.AttackOption.Distance 1 5] →
      (runState g sel skip st ts).opts = [step.AttackOption.Distance 1 5]
      ∧ ∀ o ∈ outputs g sel skip st ts, ∀ s ∈ o,
          s.opts = [step.AttackOption.Distance 1 5] := by
  intro ts
  induction ts with
  | nil => intro st h; exact ⟨h, fun o ho => by simp [outputs] at ho⟩
  | cons t ts ih =>
    intro st h
    obtain ⟨h1, h2⟩ := sticky_generate g sel skip st t h
    obtain ⟨ih1, ih2⟩ := ih _ h1
    refine ⟨ih1, fun o ho => ?_⟩
    simp only [outputs, List.mem_cons] at ho
    rcases ho with ho | ho
    · rw [ho]; exact h2
    · exact ih2 o ho

/-- C18: the reduced range is sticky for the lifetime of the Action.  An invocation
that takes normal engagement with the counter above 12 leaves the range options at
Distance(1,5), and from any state whose range options are Distance(1,5) every
later invocation, whatever target it selects and whatever the counter is reset to,
keeps them and emits only steps carrying Distance(1,5). -/
theorem reduced_range_sticky (g : Env) (sel : game.Data → data.UnitID × Bool)
    (skip : List stat.Resist) :
    (∀ (st : State) (t : Tick) (ts : List Tick),
        path g sel skip st t = Path.engage →
        12 < (if st.previousUnitID = (sel t.d).1 then st.completedAttackLoops else 0) →
        (generate g sel skip st t).1.opts = [step.AttackOption.Distance 1 5]
        ∧ (runState g sel skip (generate g sel skip st t).1 ts).opts
            = [step.AttackOption.Distance 1 5]
        ∧ ∀ o ∈ outputs g sel skip (generate g sel skip st t).1 ts, ∀ s ∈ o,
            s.opts = [step.AttackOption.Distance 1 5])
    ∧ (∀ (st : State) (ts : List Tick), st.opts = [step.AttackOption.Distance 1 5] →
        (runState g sel skip st ts).opts = [step.AttackOption.Distance 1 5]
        ∧ ∀ o ∈ outputs g sel skip st ts, ∀ s ∈ o,
            s.opts = [step.AttackOption.Distance 1 5]) := by
  refine ⟨?_, fun st ts h => sticky_run g sel skip ts st h⟩
  intro st t ts hp hc
  rw [← afterSwitch_loops] at hc
  have hopts : (generate g sel skip st t).1.opts = [step.AttackOption.Distance 1 5] := by
    rw [generate_of_engage g sel skip st t hp]
    simp only [afterAttack_opts]
    unfold afterReduce
    rw [if_pos (by rw [afterDefault_loops]; exact hc)]
  exact ⟨hopts, sticky_run g sel skip ts _ hopts⟩

set_option maxRecDepth 100000 in
/-- Witness for C18 in the reference environment: the 14th normal attack on unit 7
reduces the range, and the attack on the new target 8 that follows it carries
Distance(1,5) although its counter starts at 0. -/
theorem reduced_range_sticky_witness :
    outputs refEnv firstMonster []
        (generate refEnv firstMonster []
          (runState refEnv firstMonster [] (init []) (farTicks 13))
          (sampleTick [sampleMonster 7 (npc.ID.other 0) 20 100 0] false 200)).1
        [sampleTick [sampleMonster 8 (npc.ID.other 0) 20 100 0] false 201]
      = [[step.Step.SecondaryAttack skill.ID.Blizzard 8 1 [step.AttackOption.Distance 1 5]]]
    ∧ ∀ o ∈ outputs refEnv firstMonster []
        (generate refEnv firstMonster []
          (runState refEnv firstMonster [] (init []) (farTicks 13))
          (sampleTick [sampleMonster 7 (npc.ID.other 0) 20 100 0] false 200)).1
        [sampleTick [sampleMonster 8 (npc.ID.other 0) 20 100 0] false 201], ∀ s ∈ o,
          s.opts = [step.AttackOption.Distance 1 5] :=
  ⟨by decide,
   ((reduced_range_sticky refEnv firstMonster []).1
    (runState refEnv firstMonster [] (init []) (farTicks 13))
    (sampleTick [sampleMonster 7 (npc.ID.other 0) 20 100 0] false 200)
    [sampleTick [sampleMonster 8 (npc.ID.other 0) 20 100 0] false 201]
    (by decide) (by decide)).2.2⟩

end KillMonsterSequence

end BlizzardSorceress

/-! ### The timed operation runner -/

namespace action

theorem run_foldl (draw : Nat → Nat) :
    ∀ (ops : List HIDOperation) (acc : List Event) (k : Nat),
      ops.foldl
        (fun (acc : List Event × Nat) op =>
          (acc.1 ++ [Event.executed op.execute] ++ [Event.slept (op.delay (draw acc.2))],
           acc.2 + 1))
        (acc, k)
      = (acc ++ contractTrace draw ops k, k + ops.length) := by
  intro ops
  induction ops with
  | nil => intro acc k; simp [contractTrace]
  | cons op rest ih =>
    intro acc k
    rw [List.foldl_cons, ih]
    simp [contractTrace, Nat.add_assoc, Nat.add_comm 1]

theorem contractTrace_length (draw : Nat → Nat) :
    ∀ (ops : List HIDOperation) (k : Nat), (contractTrace draw ops k).length = 2 * ops.length := by
  intro ops
  induction ops with
  | nil => intro k; rfl
  | cons op rest ih =>
    intro k
    simp only [contractTrace, List.length_cons, ih]
    omega

theorem contractTrace_index (draw : Nat → Nat) :
    ∀ (ops : List HIDOperation) (k i : Nat) (op : HIDOperation), ops[i]? = some op →
      (contractTrace draw ops k)[2 * i]? = some (Event.executed op.execute)
      ∧ (contractTrace draw ops k)[2 * i + 1]? = some (Event.slept (op.delay (draw (k + i)))) := by
  intro ops
  induction ops with
  | nil => intro k i op h; simp at h
  | cons o rest ih =>
    intro k i op h
    cases i with
    | zero =>
      simp only [List.getElem?_cons_zero, Option.some.injEq] at h
      subst h
      simp [contractTrace]
    | succ i =>
      simp only [List.getElem?_cons_succ] at h
      obtain ⟨h1, h2⟩ := ih (k + 1) i op h
      have e1 : 2 * (i + 1) = (2 * i + 1) + 1 := by omega
      have e2 : 2 * (i + 1) + 1 = (2 * i + 1 + 1) + 1 := by omega
      have e3 : k + 1 + i = k + (i + 1) := by omega
      rw [e3] at h2
      refine ⟨?_, ?_⟩
      · rw [e1]
        simp only [contractTrace, List.getElem?_cons_succ]
        exact h1
      · rw [e2]
        simp only [contractTrace, List.getElem?_cons_succ]
        exact h2

/-- C15: for every sequence of operations `Run` produces the trace execute(op1),
sleep(delay(op1)), ..., execute(opn), sleep(delay(opn)): the trace has two events
per operation, the events at positions 2i and 2i+1 are the execution of the i-th
operation and the sleep for the delay obtained from that same operation (with the
i-th random draw), so each operation is executed exactly once, in input order, and
its delay is slept before the next operation starts. -/
theorem run_trace (ops : List HIDOperation) (draw : Nat → Nat) :
    Run ops draw = contractTrace draw ops 0
    ∧ (Run ops draw).length = 2 * ops.length
    ∧ (∀ (i : Nat) (op : HIDOperation), ops[i]? = some op →
        (Run ops draw)[2 * i]? = some (Event.executed op.execute)
        ∧ (Run ops draw)[2 * i + 1]? = some (Event.slept (op.delay (draw i))))
    ∧ (∀ (op : HIDOperation) (rest : List HIDOperation),
        Run (op :: rest) draw
          = Event.executed op.execute :: Event.slept (op.delay (draw 0))
              :: contractTrace draw rest 1) := by
  have hrun : ∀ l : List HIDOperation, Run l draw = contractTrace draw l 0 := by
    intro l
    unfold Run
    rw [run_foldl]
    simp
  refine ⟨hrun ops, ?_, ?_, ?_⟩
  · rw [hrun, contractTrace_length]
  · intro i op h
    rw [hrun]
    have := contractTrace_index draw ops 0 i op h
    simpa using this
  · intro op rest
    rw [hrun]
    rfl

/-- Witness for C15: two pointer displacements with base delays 100 ms and 50 ms and
the draws 29 and 0; the second position of the trace is the sleep of the first
operation. -/
theorem run_trace_witness :
    (Run [NewMouseDisplacement 10 20 100000000, NewMouseDisplacement 30 40 50000000]
        (fun k => if k = 0 then 29 else 0))[2 * 1]?
      = some (Event.executed (NewMouseDisplacement 30 40 50000000).execute)
    ∧ (Run [NewMouseDisplacement 10 20 100000000, NewMouseDisplacement 30 40 50000000]
        (fun k => if k = 0 then 29 else 0))[2 * 1 + 1]?
      = some (Event.slept ((NewMouseDisplacement 30 40 50000000).delay
          ((fun k => if k = 0 then 29 else 0) 1))) :=
  (run_trace [NewMouseDisplacement 10 20 100000000, NewMouseDisplacement 30 40 50000000]
    (fun k => if k = 0 then 29 else 0)).2.2.1 1 (NewMouseDisplacement 30 40 50000000) rfl

end action

/-! ### Rounding to `float32` -/

theorem roundHalfEven_le (q : ℚ) (n : ℤ) (h : q ≤ n) : roundHalfEven q ≤ n := by
  have hf : ⌊q⌋ ≤ n := Int.floor_le_iff.mpr (by linarith)  
  unfold roundHalfEven
  have hstep : 0 < q - ⌊q⌋ → ⌊q⌋ + 1 ≤ n := by
    intro hpos
    have : (⌊q⌋ : ℚ) < n := by linarith
    have : ⌊q⌋ < n := by exact_mod_cast this
    omega
  split_ifs with h1 h2 h3
  · exact hf
  · exact hstep (by linarith)
  · exact hf
  · exact hstep (by linarith)

theorem le_roundHalfEven (q : ℚ) (n : ℤ) (h : (n : ℚ) ≤ q) : n ≤ roundHalfEven q := by
  have hf : n ≤ ⌊q⌋ := Int.le_floor.mpr h
  unfold roundHalfEven
  split_ifs <;> omega

theorem roundHalfEven_near (q : ℚ) (n : ℤ) (h1 : (n : ℚ) - 1 / 2 < q) (h2 : q < n + 1 / 2) :
    roundHalfEven q = n := by
  unfold roundHalfEven
  by_cases hq : (n : ℚ) ≤ q
  · have hf : ⌊q⌋ = n := Int.floor_eq_iff.mpr ⟨hq, by linarith⟩
    rw [hf, if_pos (by linarith)]
  · have hf : ⌊q⌋ = n - 1 := Int.floor_eq_iff.mpr ⟨by push_cast; linarith, by push_cast; linarith⟩
    rw [hf]
    push_cast
    rw [if_neg (by linarith), if_pos (by linarith)]
    ring

theorem roundHalfEven_tie (n : ℤ) (hn : n % 2 = 0) : roundHalfEven (n + 1 / 2) = n := by
  unfold roundHalfEven
  have hf : ⌊(n : ℚ) + 1 / 2⌋ = n := Int.floor_eq_iff.mpr ⟨by linarith, by linarith⟩
  rw [hf, if_neg (by linarith), if_neg (by linarith), if_pos hn]

theorem log2_spec (q : ℚ) (hq : 0 < q) :
    (2 : ℚ) ^ Int.log 2 q ≤ q ∧ q < (2 : ℚ) ^ (Int.log 2 q + 1) := by
  have h1 := Int.zpow_log_le_self (b := 2) (r := q) (by norm_num) hq
  have h2 := Int.lt_zpow_succ_log_self (b := 2) (by norm_num) q
  exact ⟨by exact_mod_cast h1, by exact_mod_cast h2⟩

theorem log2_unique (q : ℚ) (e : ℤ) (h1 : (2 : ℚ) ^ e ≤ q) (h2 : q < (2 : ℚ) ^ (e + 1)) :
    Int.log 2 q = e := by
  have hq : 0 < q := lt_of_lt_of_le (by positivity) h1
  have a : e ≤ Int.log 2 q :=
    (Int.zpow_le_iff_le_log (b := 2) (by norm_num) hq).mp (by exact_mod_cast h1)
  have b : Int.log 2 q < e + 1 :=
    (Int.lt_zpow_iff_log_lt (b := 2) (by norm_num) hq).mp (by exact_mod_cast h2)
  omega

theorem float32_eval (q : ℚ) (e n : ℤ) (h1 : (2 : ℚ) ^ e ≤ q) (h2 : q < (2 : ℚ) ^ (e + 1))
    (hn : roundHalfEven (q / (2 : ℚ) ^ (e - 23)) = n) :
    float32 q = n * (2 : ℚ) ^ (e - 23) := by
  have hq : 0 < q := lt_of_lt_of_le (by positivity) h1
  unfold float32
  rw [if_neg (ne_of_gt hq), abs_of_pos hq, log2_unique q e h1 h2, hn]

/-- k * 2^j over 2^u is the integer k * 2^(j-u) when u ≤ j. -/
theorem repr_div (k : ℕ) (j u : ℤ) (h : u ≤ j) :
    (k : ℚ) * (2 : ℚ) ^ j / (2 : ℚ) ^ u = (((k : ℤ) * 2 ^ (j - u).toNat : ℤ) : ℚ) := by
  have h2 : (2 : ℚ) ≠ 0 := by norm_num
  have hj : j = u + ((j - u).toNat : ℤ) := by
    rw [Int.toNat_of_nonneg (by omega)]; ring
  rw [mul_div_assoc]
  conv_lhs => rw [hj, zpow_add₀ h2, mul_comm ((2 : ℚ) ^ u), mul_div_assoc,
    div_self (zpow_ne_zero _ h2), mul_one, zpow_natCast]
  push_cast
  ring

theorem exp_le_of_repr (q : ℚ) (k : ℕ) (j : ℤ) (hq : 0 < q) (hk : k < 2 ^ 24)
    (h : q ≤ (k : ℚ) * (2 : ℚ) ^ j) : Int.log 2 q - 23 ≤ j := by
  have h1 := (log2_spec q hq).1
  have hk' : (k : ℚ) < (2 : ℚ) ^ (24 : ℤ) := by
    have h16 : k < 16777216 := by simpa using hk
    have : (k : ℚ) < 16777216 := by exact_mod_cast h16
    calc (k : ℚ) < 16777216 := this
      _ = (2 : ℚ) ^ (24 : ℤ) := by norm_num
  have h3 : (2 : ℚ) ^ Int.log 2 q < (2 : ℚ) ^ (24 + j) := by
    rw [zpow_add₀ (by norm_num : (2 : ℚ) ≠ 0)]
    calc (2 : ℚ) ^ Int.log 2 q ≤ q := h1
      _ ≤ (k : ℚ) * (2 : ℚ) ^ j := h
      _ < (2 : ℚ) ^ (24 : ℤ) * (2 : ℚ) ^ j := by
          apply mul_lt_mul_of_pos_right hk' (by positivity)
  have := (zpow_lt_zpow_iff_right₀ (by norm_num : (1 : ℚ) < 2)).mp h3
  omega

theorem float32_le_of_repr (q : ℚ) (k : ℕ) (j : ℤ) (hq : 0 < q) (hk : k < 2 ^ 24)
    (h : q ≤ (k : ℚ) * (2 : ℚ) ^ j) : float32 q ≤ (k : ℚ) * (2 : ℚ) ^ j := by
  have hu := exp_le_of_repr q k j hq hk h
  have hpos : (0 : ℚ) < (2 : ℚ) ^ (Int.log 2 q - 23) := by positivity
  unfold float32
  rw [if_neg (ne_of_gt hq), abs_of_pos hq]
  have hdiv := repr_div k j (Int.log 2 q - 23) hu
  have hle : roundHalfEven (q / (2 : ℚ) ^ (Int.log 2 q - 23))
      ≤ (k : ℤ) * 2 ^ (j - (Int.log 2 q - 23)).toNat := by
    apply roundHalfEven_le
    rw [← hdiv]
    exact div_le_div_of_nonneg_right h (le_of_lt hpos)
  have hle' : ((roundHalfEven (q / (2 : ℚ) ^ (Int.log 2 q - 23)) : ℤ) : ℚ)
      ≤ (((k : ℤ) * 2 ^ (j - (Int.log 2 q - 23)).toNat : ℤ) : ℚ) := by exact_mod_cast hle
  rw [← hdiv] at hle'
  calc (roundHalfEven (q / (2 : ℚ) ^ (Int.log 2 q - 23)) : ℚ) * (2 : ℚ) ^ (Int.log 2 q - 23)
      ≤ ((k : ℚ) * (2 : ℚ) ^ j / (2 : ℚ) ^ (Int.log 2 q - 23)) * (2 : ℚ) ^ (Int.log 2 q - 23) :=
        mul_le_mul_of_nonneg_right hle' (le_of_lt hpos)
    _ = (k : ℚ) * (2 : ℚ) ^ j := by field_simp

theorem le_float32_of_repr (q : ℚ) (k : ℕ) (j : ℤ) (hk0 : 0 < k) (hk : k < 2 ^ 24)
    (h : (k : ℚ) * (2 : ℚ) ^ j ≤ q) : (k : ℚ) * (2 : ℚ) ^ j ≤ float32 q := by
  have hkq : (0 : ℚ) < k := by exact_mod_cast hk0
  have hq : 0 < q := lt_of_lt_of_le (by positivity) h
  have hpos : (0 : ℚ) < (2 : ℚ) ^ (Int.log 2 q - 23) := by positivity
  unfold float32
  rw [if_neg (ne_of_gt hq), abs_of_pos hq]
  by_cases hu : Int.log 2 q - 23 ≤ j
  · have hdiv := repr_div k j (Int.log 2 q - 23) hu
    have hle : (k : ℤ) * 2 ^ (j - (Int.log 2 q - 23)).toNat
        ≤ roundHalfEven (q / (2 : ℚ) ^ (Int.log 2 q - 23)) := by
      apply le_roundHalfEven
      rw [← hdiv]
      exact div_le_div_of_nonneg_right h (le_of_lt hpos)
    have hle' : (((k : ℤ) * 2 ^ (j - (Int.log 2 q - 23)).toNat : ℤ) : ℚ)
        ≤ ((roundHalfEven (q / (2 : ℚ) ^ (Int.log 2 q - 23)) : ℤ) : ℚ) := by exact_mod_cast hle
    rw [← hdiv] at hle'
    calc (k : ℚ) * (2 : ℚ) ^ j
        = ((k : ℚ) * (2 : ℚ) ^ j / (2 : ℚ) ^ (Int.log 2 q - 23)) * (2 : ℚ) ^ (Int.log 2 q - 23) := by
          field_simp
      _ ≤ _ := mul_le_mul_of_nonneg_right hle' (le_of_lt hpos)
  · have hju : j + 24 ≤ Int.log 2 q := by omega
    have h1 := (log2_spec q hq).1
    have hk' : (k : ℚ) < (2 : ℚ) ^ (24 : ℤ) := by
      have h16 : k < 16777216 := by simpa using hk
      have : (k : ℚ) < 16777216 := by exact_mod_cast h16
      calc (k : ℚ) < 16777216 := this
        _ = (2 : ℚ) ^ (24 : ℤ) := by norm_num
    have hsig : ((2 ^ 23 : ℤ) : ℚ) ≤ q / (2 : ℚ) ^ (Int.log 2 q - 23) := by
      rw [le_div_iff₀ hpos]
      have : ((2 ^ 23 : ℤ) : ℚ) * (2 : ℚ) ^ (Int.log 2 q - 23) = (2 : ℚ) ^ Int.log 2 q := by
        rw [zpow_sub₀ (by norm_num : (2 : ℚ) ≠ 0)]
        norm_num
        ring
      rw [this]
      exact h1
    have hr := le_roundHalfEven _ _ hsig
    have hr' : ((2 ^ 23 : ℤ) : ℚ) ≤ ((roundHalfEven (q / (2 : ℚ) ^ (Int.log 2 q - 23)) : ℤ) : ℚ) := by
      exact_mod_cast hr
    calc (k : ℚ) * (2 : ℚ) ^ j ≤ (2 : ℚ) ^ (24 : ℤ) * (2 : ℚ) ^ j :=
          mul_le_mul_of_nonneg_right (le_of_lt hk') (by positivity)
      _ = (2 : ℚ) ^ (j + 24) := by rw [zpow_add₀ (by norm_num : (2 : ℚ) ≠ 0)]; ring
      _ ≤ (2 : ℚ) ^ Int.log 2 q := zpow_le_zpow_right₀ (by norm_num) hju
      _ = ((2 ^ 23 : ℤ) : ℚ) * (2 : ℚ) ^ (Int.log 2 q - 23) := by
          rw [zpow_sub₀ (by norm_num : (2 : ℚ) ≠ 0)]
          norm_num
          ring
      _ ≤ _ := mul_le_mul_of_nonneg_right hr' (le_of_lt hpos)

theorem float32_repr (k : ℕ) (j : ℤ) (hk : k < 2 ^ 24) :
    float32 ((k : ℚ) * (2 : ℚ) ^ j) = (k : ℚ) * (2 : ℚ) ^ j := by
  rcases Nat.eq_zero_or_pos k with h0 | h0
  · subst h0; simp [float32]
  · have hq : (0 : ℚ) < (k : ℚ) * (2 : ℚ) ^ j := by
      have : (0 : ℚ) < k := by exact_mod_cast h0
      positivity
    exact le_antisymm (float32_le_of_repr _ k j hq hk le_rfl)
      (le_float32_of_repr _ k j h0 hk le_rfl)

theorem float32_natCast (k : ℕ) (hk : k < 2 ^ 24) : float32 (k : ℚ) = k := by
  have := float32_repr k 0 hk
  simpa using this

theorem roundHalfEven_le_of_lt_half (q : ℚ) (n : ℤ) (h : q < n + 1 / 2) :
    roundHalfEven q ≤ n := by
  have hfq : (⌊q⌋ : ℚ) ≤ q := Int.floor_le q
  have hf : ⌊q⌋ ≤ n := by
    have h1 : (⌊q⌋ : ℚ) < ((n + 1 : ℤ) : ℚ) := by push_cast; linarith
    have h2 : ⌊q⌋ < n + 1 := by exact_mod_cast h1
    omega
  have hstep : 1 / 2 ≤ q - ⌊q⌋ → ⌊q⌋ + 1 ≤ n := by
    intro hhalf
    have h1 : (⌊q⌋ : ℚ) < (n : ℚ) := by linarith
    have h2 : ⌊q⌋ < n := by exact_mod_cast h1
    omega
  unfold roundHalfEven
  split_ifs with h1 h2 h3
  · exact hf
  · exact hstep (le_of_lt h2)
  · exact hf
  · exact hstep (not_lt.mp h1)

/-- Evaluation of `float32` at a value of either sign whose binade is known. -/
theorem float32_eval_abs (q : ℚ) (e n : ℤ) (h1 : (2 : ℚ) ^ e ≤ |q|)
    (h2 : |q| < (2 : ℚ) ^ (e + 1))
    (hn : roundHalfEven (q / (2 : ℚ) ^ (e - 23)) = n) :
    float32 q = n * (2 : ℚ) ^ (e - 23) := by
  have habs : 0 < |q| := lt_of_lt_of_le (by positivity) h1
  have hq : q ≠ 0 := abs_pos.mp habs
  unfold float32
  rw [if_neg hq, log2_unique |q| e h1 h2, hn]

/-- In the binade of exponent `e` a value below `N + 1/2` grid steps rounds to at
most `N` grid steps. -/
theorem float32_le_grid (q : ℚ) (e N : ℤ) (h1 : (2 : ℚ) ^ e ≤ q)
    (h2 : q < (2 : ℚ) ^ (e + 1)) (h3 : q / (2 : ℚ) ^ (e - 23) < N + 1 / 2) :
    float32 q ≤ N * (2 : ℚ) ^ (e - 23) := by
  have hq : 0 < q := lt_of_lt_of_le (by positivity) h1
  have hpos : (0 : ℚ) < (2 : ℚ) ^ (e - 23) := by positivity
  unfold float32
  rw [if_neg (ne_of_gt hq), abs_of_pos hq, log2_unique q e h1 h2]
  have hle : roundHalfEven (q / (2 : ℚ) ^ (e - 23)) ≤ N :=
    roundHalfEven_le_of_lt_half _ _ h3
  have hle' : ((roundHalfEven (q / (2 : ℚ) ^ (e - 23)) : ℤ) : ℚ) ≤ (N : ℚ) := by
    exact_mod_cast hle
  exact mul_le_mul_of_nonneg_right hle' (le_of_lt hpos)

/-- With `s` grid steps per unit in the binade of exponent `e`, a value more than
half a step below the integer `K` rounds to a value below `K`. -/
theorem float32_lt_of_grid (x : ℚ) (K : ℤ) (e : ℤ) (s : ℤ) (hs0 : 0 < s)
    (hs : (s : ℚ) = (2 : ℚ) ^ (23 - e))
    (h1 : (2 : ℚ) ^ e ≤ x) (h2 : x < (2 : ℚ) ^ (e + 1))
    (h3 : x * s < K * s - 1 / 2) : float32 x < K := by
  have hsq : (0 : ℚ) < s := by exact_mod_cast hs0
  have hinv : (2 : ℚ) ^ (e - 23) = (s : ℚ)⁻¹ := by
    rw [hs, ← zpow_neg]
    congr 1
    ring
  have h3' : x / (2 : ℚ) ^ (e - 23) < ((K * s - 1 : ℤ) : ℚ) + 1 / 2 := by
    rw [hinv, div_inv_eq_mul]
    push_cast
    linarith
  have h := float32_le_grid x e (K * s - 1) h1 h2 h3'
  rw [hinv] at h
  have hval : (((K * s - 1 : ℤ)) : ℚ) * (s : ℚ)⁻¹ = (K : ℚ) - (s : ℚ)⁻¹ := by
    push_cast
    field_simp
  rw [hval] at h
  have : (0 : ℚ) < (s : ℚ)⁻¹ := inv_pos.mpr hsq
  linarith

/-! ### The delay policy -/

namespace action

namespace delayedOperation

theorem millisecond_eq : time.Millisecond = 1000000 := rfl

theorem randomPct_29 : randomPct 29 = 10905190 / 2 ^ 23 := by
  unfold randomPct
  have h1 : float32 ((29 : ℕ) : ℚ) = 29 := by
    rw [float32_natCast 29 (by norm_num)]; norm_num
  have h2 : float32 ((29 : ℚ) + 1) = 30 := by
    have := float32_natCast 30 (by norm_num)
    norm_num at this ⊢
    exact this
  have h3 : float32 ((30 : ℚ) / 100) = 10066330 / 2 ^ 25 := by
    rw [float32_eval (30 / 100) (-2) 10066330 (by norm_num) (by norm_num)
      (roundHalfEven_near _ _ (by norm_num) (by norm_num))]
    norm_num
  have h4 : float32 ((10066330 : ℚ) / 2 ^ 25 + 1) = 10905190 / 2 ^ 23 := by
    rw [float32_eval _ 0 10905190 (by norm_num) (by norm_num)
      (by
        have : ((10066330 : ℚ) / 2 ^ 25 + 1) / 2 ^ ((0 : ℤ) - 23)
            = ((10905190 : ℤ) : ℚ) + 1 / 2 := by norm_num
        rw [this]
        exact roundHalfEven_tie _ (by norm_num))]
    norm_num
  rw [h1, h2, h3, h4]

theorem randomPct_bounds (r : ℕ) (hr : r < 30) : 1 ≤ randomPct r ∧ randomPct r ≤ 13 / 10 := by
  have ha : float32 (r : ℚ) = r := float32_natCast r (by omega)
  have hb : float32 ((r : ℚ) + 1) = (r : ℚ) + 1 := by
    have := float32_natCast (r + 1) (by omega)
    push_cast at this
    exact this
  have hr0 : (0 : ℚ) ≤ r := by positivity
  have hc1 : (1 : ℚ) / 128 ≤ float32 (((r : ℚ) + 1) / 100) := by
    have h := le_float32_of_repr (((r : ℚ) + 1) / 100) 1 (-7) (by norm_num) (by norm_num)
      (by norm_num; linarith)
    calc (1 : ℚ) / 128 = ((1 : ℕ) : ℚ) * (2 : ℚ) ^ (-7 : ℤ) := by norm_num
      _ ≤ _ := h
  have hlow : 1 ≤ float32 (float32 (((r : ℚ) + 1) / 100) + 1) := by
    have h := le_float32_of_repr (float32 (((r : ℚ) + 1) / 100) + 1) 1 0 (by norm_num)
      (by norm_num) (by norm_num; linarith)
    calc (1 : ℚ) = ((1 : ℕ) : ℚ) * (2 : ℚ) ^ (0 : ℤ) := by norm_num
      _ ≤ _ := h
  unfold randomPct
  rw [ha, hb]
  refine ⟨hlow, ?_⟩
  by_cases h29 : r = 29
  · subst h29
    have h := randomPct_29
    unfold randomPct at h
    rw [float32_natCast 29 (by norm_num), hb] at h
    rw [h]
    norm_num
  · have hr28 : (r : ℚ) ≤ 28 := by
      have : r ≤ 28 := by omega
      exact_mod_cast this
    have hc2 : float32 (((r : ℚ) + 1) / 100) ≤ 19 / 64 := by
      have h := float32_le_of_repr (((r : ℚ) + 1) / 100) 19 (-6) (by positivity)
        (by norm_num) (by norm_num; linarith)
      calc float32 (((r : ℚ) + 1) / 100) ≤ ((19 : ℕ) : ℚ) * (2 : ℚ) ^ (-6 : ℤ) := h
        _ = 19 / 64 := by norm_num
    have hup : float32 (float32 (((r : ℚ) + 1) / 100) + 1) ≤ 83 / 64 := by
      have h := float32_le_of_repr (float32 (((r : ℚ) + 1) / 100) + 1) 83 (-6)
        (by linarith) (by norm_num) (by norm_num; linarith)
      calc float32 (float32 (((r : ℚ) + 1) / 100) + 1)
          ≤ ((83 : ℕ) : ℚ) * (2 : ℚ) ^ (-6 : ℤ) := h
        _ = 83 / 64 := by norm_num
    linarith

theorem wrapInt64_of_range (x : Int) (h0 : 0 ≤ x) (h1 : x < 9223372036854775808) :
    wrapInt64 x = x := by
  unfold wrapInt64
  norm_num
  omega

theorem milliseconds_whole (ms : Int) (h : 0 ≤ ms) : time.Milliseconds (ms * 1000000) = ms := by
  unfold time.Milliseconds
  rw [Int.tdiv_eq_ediv (by positivity) (by norm_num)]
  exact Int.mul_ediv_cancel ms (by norm_num)

theorem randomPct_le_of_lt_29 (r : ℕ) (hr : r < 29) : randomPct r ≤ 83 / 64 := by
  have ha : float32 (r : ℚ) = r := float32_natCast r (by omega)
  have hb : float32 ((r : ℚ) + 1) = (r : ℚ) + 1 := by
    have := float32_natCast (r + 1) (by omega)
    push_cast at this
    exact this
  have hr0 : (0 : ℚ) ≤ r := by positivity
  have hr28 : (r : ℚ) ≤ 28 := by
    have : r ≤ 28 := by omega
    exact_mod_cast this
  have hc1 : (1 : ℚ) / 128 ≤ float32 (((r : ℚ) + 1) / 100) := by
    have h := le_float32_of_repr (((r : ℚ) + 1) / 100) 1 (-7) (by norm_num) (by norm_num)
      (by norm_num; linarith)
    calc (1 : ℚ) / 128 = ((1 : ℕ) : ℚ) * (2 : ℚ) ^ (-7 : ℤ) := by norm_num
      _ ≤ _ := h
  have hc2 : float32 (((r : ℚ) + 1) / 100) ≤ 19 / 64 := by
    have h := float32_le_of_repr (((r : ℚ) + 1) / 100) 19 (-6) (by positivity)
      (by norm_num) (by norm_num; linarith)
    calc float32 (((r : ℚ) + 1) / 100) ≤ ((19 : ℕ) : ℚ) * (2 : ℚ) ^ (-6 : ℤ) := h
      _ = 19 / 64 := by norm_num
  unfold randomPct
  rw [ha, hb]
  have h := float32_le_of_repr (float32 (((r : ℚ) + 1) / 100) + 1) 83 (-6)
    (by linarith) (by norm_num) (by norm_num; linarith)
  calc float32 (float32 (((r : ℚ) + 1) / 100) + 1)
      ≤ ((83 : ℕ) : ℚ) * (2 : ℚ) ^ (-6 : ℤ) := h
    _ = 83 / 64 := by norm_num

/-- The rounded product of a whole number of milliseconds, up to 6 452 782, and the
surcharge factor stays below the integer following 1.3 times that number. -/
theorem float32_prod_lt (m r : ℕ) (hm0 : 0 < m) (hm : m ≤ 6452782) (hr : r < 30) (K : ℤ)
    (hK : K = 13 * (m : ℤ) / 10 + 1) :
    float32 ((m : ℚ) * randomPct r) < (K : ℚ) := by
  obtain ⟨hp1, hp2⟩ := randomPct_bounds r hr
  have hmq : (0 : ℚ) < m := by exact_mod_cast hm0
  have hmq2 : (m : ℚ) ≤ 6452782 := by exact_mod_cast hm
  have hx1 : (m : ℚ) ≤ (m : ℚ) * randomPct r := by nlinarith
  have hx2 : (m : ℚ) * randomPct r ≤ 13 * (m : ℚ) / 10 := by nlinarith
  have hxpos : 0 < (m : ℚ) * randomPct r := lt_of_lt_of_le hmq hx1
  have hK1 : 13 * (m : ℤ) ≤ 10 * K - 1 := by omega
  have hK2 : 10 * (K - 1) ≤ 13 * (m : ℤ) := by omega
  have hK1q : 13 * (m : ℚ) ≤ 10 * (K : ℚ) - 1 := by
    have : ((13 * (m : ℤ) : ℤ) : ℚ) ≤ ((10 * K - 1 : ℤ) : ℚ) := by exact_mod_cast hK1
    push_cast at this
    linarith
  have hK2q : 10 * ((K : ℚ) - 1) ≤ 13 * (m : ℚ) := by
    have : ((10 * (K - 1) : ℤ) : ℚ) ≤ ((13 * (m : ℤ) : ℤ) : ℚ) := by exact_mod_cast hK2
    push_cast at this
    linarith
  by_cases hsmall : m ≤ 806596
  · -- the value 1/16 below `K` is a float32 value
    obtain ⟨k, hk⟩ := Int.eq_ofNat_of_zero_le (show 0 ≤ 16 * K - 1 by omega)
    have hk24 : k < 2 ^ 24 := by
      have h16 : (k : ℤ) < 16777216 := by rw [← hk]; omega
      have : k < 16777216 := by exact_mod_cast h16
      simpa using this
    have hkq : (k : ℚ) = 16 * (K : ℚ) - 1 := by
      have : ((k : ℤ) : ℚ) = ((16 * K - 1 : ℤ) : ℚ) := by rw [hk]
      push_cast at this
      linarith
    have h := float32_le_of_repr ((m : ℚ) * randomPct r) k (-4) hxpos hk24 (by
      rw [hkq]; norm_num; linarith)
    have hval : (k : ℚ) * (2 : ℚ) ^ (-4 : ℤ) = (K : ℚ) - 1 / 16 := by
      rw [hkq]; norm_num; ring
    rw [hval] at h
    linarith
  · have hbig : 806597 ≤ m := by omega
    have hbigq : (806597 : ℚ) ≤ m := by exact_mod_cast hbig
    by_cases h29 : r = 29
    · subst h29
      rw [randomPct_29]
      have hx : (m : ℚ) * (10905190 / 2 ^ 23) = 13 * (m : ℚ) / 10 - (m : ℚ) / 20971520 := by
        ring
      by_cases he20 : m ≤ 1613193
      · have hq : (m : ℚ) ≤ 1613193 := by exact_mod_cast he20
        exact float32_lt_of_grid _ K 20 8 (by norm_num) (by norm_num)
          (by norm_num; linarith) (by norm_num; linarith) (by rw [hx]; push_cast; linarith)
      · by_cases he21 : m ≤ 3226387
        · have hq : (m : ℚ) ≤ 3226387 := by exact_mod_cast he21
          have hq' : (1613194 : ℚ) ≤ m := by
            have : 1613194 ≤ m := by omega
            exact_mod_cast this
          exact float32_lt_of_grid _ K 21 4 (by norm_num) (by norm_num)
            (by norm_num; linarith) (by norm_num; linarith) (by rw [hx]; push_cast; linarith)
        · by_cases he22 : m ≤ 6452775
          · have hq : (m : ℚ) ≤ 6452775 := by exact_mod_cast he22
            have hq' : (3226388 : ℚ) ≤ m := by
              have : 3226388 ≤ m := by omega
              exact_mod_cast this
            exact float32_lt_of_grid _ K 22 2 (by norm_num) (by norm_num)
              (by norm_num; linarith) (by norm_num; linarith)
              (by rw [hx]; push_cast; linarith)
          · have hq' : (6452776 : ℚ) ≤ m := by
              have : 6452776 ≤ m := by omega
              exact_mod_cast this
            have ht : 13 * (m : ℤ) ≤ 10 * (K - 1) + 8 := by omega
            have htq : 13 * (m : ℚ) ≤ 10 * ((K : ℚ) - 1) + 8 := by
              have : ((13 * (m : ℤ) : ℤ) : ℚ) ≤ ((10 * (K - 1) + 8 : ℤ) : ℚ) := by
                exact_mod_cast ht
              push_cast at this
              linarith
            exact float32_lt_of_grid _ K 23 1 (by norm_num) (by norm_num)
              (by norm_num; linarith) (by norm_num; linarith)
              (by rw [hx]; push_cast; linarith)
    · -- the integer part of 1.3 times `m` is a float32 value above the product
      have hp3 := randomPct_le_of_lt_29 r (by omega)
      have hx3 : (m : ℚ) * randomPct r ≤ (K : ℚ) - 1 := by
        have : (m : ℚ) * randomPct r ≤ (m : ℚ) * (83 / 64) :=
          mul_le_mul_of_nonneg_left hp3 (le_of_lt hmq)
        linarith
      obtain ⟨k, hk⟩ := Int.eq_ofNat_of_zero_le (show 0 ≤ K - 1 by omega)
      have hk24 : k < 2 ^ 24 := by
        have h16 : (k : ℤ) < 16777216 := by rw [← hk]; omega
        have : k < 16777216 := by exact_mod_cast h16
        simpa using this
      have hkq : (k : ℚ) = (K : ℚ) - 1 := by
        have : ((k : ℤ) : ℚ) = ((K - 1 : ℤ) : ℚ) := by rw [hk]
        push_cast at this
        linarith
      have h := float32_le_of_repr ((m : ℚ) * randomPct r) k 0 hxpos hk24 (by
        rw [hkq]; norm_num; linarith)
      have hval : (k : ℚ) * (2 : ℚ) ^ (0 : ℤ) = (K : ℚ) - 1 := by
        rw [hkq]; norm_num
      rw [hval] at h
      linarith

/-- C13, amended: for a base delay of a whole number of milliseconds from 0 to
6 452 782 ms and every value drawn by `rand.Intn(30)`, the effective delay d
returned by `delay` is a whole number of milliseconds with base ≤ d ≤ 1.3 x base. -/
theorem delay_bounds (ms : Int) (r : ℕ) (h0 : 0 ≤ ms) (h1 : ms ≤ 6452782) (hr : r < 30) :
    ms * 1000000 ≤ delay (ms * 1000000) r
    ∧ 10 * delay (ms * 1000000) r ≤ 13 * (ms * 1000000)
    ∧ ∃ k : Int, delay (ms * 1000000) r = k * 1000000 := by
  obtain ⟨hp1, hp2⟩ := randomPct_bounds r hr
  unfold delay
  simp only []
  rw [millisecond_eq]
  rw [milliseconds_whole ms h0]
  rcases eq_or_lt_of_le h0 with hz | hpos
  · subst hz
    simp [float32, int64OfFloat, wrapInt64]
  · obtain ⟨m, rfl⟩ := Int.eq_ofNat_of_zero_le h0
    have hm : m ≤ 6452782 := by exact_mod_cast h1
    have hmpos : 0 < m := by exact_mod_cast hpos
    have hmq : (0 : ℚ) < m := by exact_mod_cast hmpos
    have hcast : (((m : Int)) : ℚ) = (m : ℚ) := by norm_cast
    rw [hcast, float32_natCast m (by omega)]
    have hup := float32_prod_lt m r hmpos hm hr (13 * (m : ℤ) / 10 + 1) rfl
    set x : ℚ := (m : ℚ) * randomPct r with hx
    have hx1 : (m : ℚ) ≤ x := by
      rw [hx]; nlinarith
    have hlow : (m : ℚ) ≤ float32 x := by
      have h := le_float32_of_repr x m 0 hmpos (by omega) (by simpa using hx1)
      simpa using h
    have hf0 : 0 ≤ float32 x := le_trans (le_of_lt hmq) hlow
    have htr : int64OfFloat (float32 x) = ⌊float32 x⌋ := by
      unfold int64OfFloat; rw [if_pos hf0]
    rw [htr]
    have hfl1 : (m : Int) ≤ ⌊float32 x⌋ := Int.le_floor.mpr (by exact_mod_cast hlow)
    have hfl2 : ⌊float32 x⌋ < 13 * (m : ℤ) / 10 + 1 := by
      rw [Int.floor_lt]
      exact hup
    rw [wrapInt64_of_range _ (by omega) (by omega)]
    have h10 : 10 * ⌊float32 x⌋ ≤ 13 * (m : Int) := by omega
    refine ⟨by omega, by linarith, ⟨_, rfl⟩⟩

theorem delay_100ms_29 : delay 100000000 29 = 130000000 := by
  unfold delay
  simp only []
  rw [millisecond_eq]
  have hms : time.Milliseconds 100000000 = 100 := by decide
  rw [hms, randomPct_29]
  have h1 : float32 (((100 : Int)) : ℚ) = 100 := by
    have := float32_natCast 100 (by norm_num)
    simpa using this
  rw [h1]
  have h2 : float32 ((100 : ℚ) * (10905190 / 2 ^ 23)) = 130 := by
    rw [float32_eval _ 7 8519680 (by norm_num) (by norm_num)
      (roundHalfEven_near _ _ (by norm_num) (by norm_num))]
    norm_num
  rw [h2]
  have h3 : int64OfFloat (130 : ℚ) = 130 := by
    unfold int64OfFloat
    rw [if_pos (by norm_num)]
    exact Int.floor_eq_iff.mpr ⟨by norm_num, by norm_num⟩
  rw [h3]
  exact wrapInt64_of_range _ (by norm_num) (by norm_num)

theorem delay_6452783ms_29 : delay 6452783000000 29 = 8388618000000 := by
  unfold delay
  simp only []
  rw [millisecond_eq]
  have hms : time.Milliseconds 6452783000000 = 6452783 := by decide
  rw [hms, randomPct_29]
  have h1 : float32 (((6452783 : Int)) : ℚ) = 6452783 := by
    have := float32_natCast 6452783 (by norm_num)
    simpa using this
  rw [h1]
  have h2 : float32 ((6452783 : ℚ) * (10905190 / 2 ^ 23)) = 8388618 := by
    rw [float32_eval _ 23 8388618 (by norm_num) (by norm_num)
      (roundHalfEven_near _ _ (by norm_num) (by norm_num))]
    norm_num
  rw [h2]
  have h3 : int64OfFloat (8388618 : ℚ) = 8388618 := by
    unfold int64OfFloat
    rw [if_pos (by norm_num)]
    exact Int.floor_eq_iff.mpr ⟨by norm_num, by norm_num⟩
  rw [h3]
  exact wrapInt64_of_range _ (by norm_num) (by norm_num)

theorem randomPct_0 : randomPct 0 = 8472494 / 2 ^ 23 := by
  unfold randomPct
  have h1 : float32 ((0 : ℕ) : ℚ) = 0 := by simp [float32]
  have h2 : float32 ((0 : ℚ) + 1) = 1 := by
    have := float32_natCast 1 (by norm_num)
    norm_num at this ⊢
    exact this
  have h3 : float32 ((1 : ℚ) / 100) = 10737418 / 2 ^ 30 := by
    rw [float32_eval (1 / 100) (-7) 10737418 (by norm_num) (by norm_num)
      (roundHalfEven_near _ _ (by norm_num) (by norm_num))]
    norm_num
  have h4 : float32 ((10737418 : ℚ) / 2 ^ 30 + 1) = 8472494 / 2 ^ 23 := by
    rw [float32_eval _ 0 8472494 (by norm_num) (by norm_num)
      (roundHalfEven_near _ _ (by norm_num) (by norm_num))]
    norm_num
  rw [h1, h2, h3, h4]

theorem delay_neg100ms_0 : delay (-100000000) 0 = -101000000 := by
  unfold delay
  simp only []
  rw [millisecond_eq]
  have hms : time.Milliseconds (-100000000) = -100 := by decide
  rw [hms, randomPct_0]
  have h1 : float32 (((-100 : Int)) : ℚ) = -100 := by
    have h : (((-100 : Int)) : ℚ) = (-100 : ℚ) := by norm_num
    rw [h, float32_eval_abs (-100) 6 (-13107200) (by norm_num [abs_of_neg])
      (by norm_num [abs_of_neg]) (roundHalfEven_near _ _ (by norm_num) (by norm_num))]
    norm_num
  rw [h1]
  have h2 : float32 ((-100 : ℚ) * (8472494 / 2 ^ 23)) = -101 := by
    rw [float32_eval_abs _ 6 (-13238272) (by norm_num [abs_of_neg])
      (by norm_num [abs_of_neg]) (roundHalfEven_near _ _ (by norm_num) (by norm_num))]
    norm_num
  rw [h2]
  have h3 : int64OfFloat (-101 : ℚ) = -101 := by
    unfold int64OfFloat
    rw [if_neg (by norm_num)]
    exact Int.ceil_eq_iff.mpr ⟨by norm_num, by norm_num⟩
  rw [h3]
  unfold wrapInt64
  norm_num

theorem delay_submilli (r : ℕ) (hr : r < 30) : delay 1500000 r = 1000000 := by
  obtain ⟨hp1, hp2⟩ := randomPct_bounds r hr
  unfold delay
  simp only []
  rw [millisecond_eq]
  have hms : time.Milliseconds 1500000 = 1 := by decide
  rw [hms]
  have h1 : float32 (((1 : Int)) : ℚ) = 1 := by
    have := float32_natCast 1 (by norm_num)
    simpa using this
  rw [h1, one_mul]
  have hlo : (1 : ℚ) ≤ float32 (randomPct r) := by
    have h := le_float32_of_repr (randomPct r) 1 0 (by norm_num) (by norm_num)
      (by norm_num; exact hp1)
    calc (1 : ℚ) = ((1 : ℕ) : ℚ) * (2 : ℚ) ^ (0 : ℤ) := by norm_num
      _ ≤ _ := h
  have hhi : float32 (randomPct r) ≤ 3 / 2 := by
    have h := float32_le_of_repr (randomPct r) 3 (-1) (by linarith) (by norm_num)
      (by norm_num; linarith)
    calc float32 (randomPct r) ≤ ((3 : ℕ) : ℚ) * (2 : ℚ) ^ (-1 : ℤ) := h
      _ = 3 / 2 := by norm_num
  have h3 : int64OfFloat (float32 (randomPct r)) = 1 := by
    unfold int64OfFloat
    rw [if_pos (by linarith)]
    exact Int.floor_eq_iff.mpr ⟨by push_cast; linarith, by push_cast; linarith⟩
  rw [h3]
  exact wrapInt64_of_range _ (by norm_num) (by norm_num)

/-- C13, as stated, fails.  A base of 100 ms with the draw 29 (the 30 % surcharge)
gives exactly 130 ms, which is not below 1.3 x base; a base of 1.5 ms gives 1 ms,
which is below the base, because the base is first truncated to whole
milliseconds; a base of 6 452 783 ms with the draw 29 gives 8 388 618 ms, above
1.3 x base, because the product is rounded to `float32`; and a negative base of
-100 ms with the draw 0 gives -101 ms, below the base. -/
theorem delay_bound_counterexample :
    delay 100000000 29 = 130000000
    ∧ ¬ (100000000 ≤ delay 100000000 29 ∧ 10 * delay 100000000 29 < 13 * 100000000)
    ∧ delay 1500000 0 = 1000000
    ∧ ¬ (1500000 ≤ delay 1500000 0 ∧ 10 * delay 1500000 0 < 13 * 1500000)
    ∧ delay 6452783000000 29 = 8388618000000
    ∧ ¬ (6452783000000 ≤ delay 6452783000000 29
          ∧ 10 * delay 6452783000000 29 ≤ 13 * 6452783000000)
    ∧ delay (-100000000) 0 = -101000000
    ∧ ¬ (-100000000 ≤ delay (-100000000) 0
          ∧ 10 * delay (-100000000) 0 ≤ 13 * (-100000000)) := by
  refine ⟨delay_100ms_29, ?_, delay_submilli 0 (by norm_num), ?_, delay_6452783ms_29, ?_,
    delay_neg100ms_0, ?_⟩
  · rw [delay_100ms_29]; norm_num
  · rw [delay_submilli 0 (by norm_num)]; norm_num
  · rw [delay_6452783ms_29]; norm_num
  · rw [delay_neg100ms_0]; norm_num

/-- Witness for the amended C13: the largest base covered, 6 452 782 ms, with the
draw 29. -/
theorem delay_bounds_witness :
    (6452782 : Int) * 1000000 ≤ delay (6452782 * 1000000) 29
    ∧ 10 * delay (6452782 * 1000000) 29 ≤ 13 * (6452782 * 1000000)
    ∧ ∃ k : Int, delay (6452782 * 1000000) 29 = k * 1000000 :=
  delay_bounds 6452782 29 (by norm_num) (by norm_num) (by norm_num)

end delayedOperation

end action
